import Mathlib

/-!
# konayuki002/runge : RK4 tracking of a charged particle in a magnetic field

Shallow embedding of `runge_kutta.C`, `spectrometer_prototype_momentum.cpp` and
`lense/runge_kutta_spectro.cpp`.

`double` values are elements of an arbitrary linearly ordered field `K`
(exact arithmetic); all definitions are computable when `K` is `ℚ`.
The square root of the ROOT library is a parameter `sqrt : K → K`; it is
instantiated with `Real.sqrt` where a concrete value of `p.M()` is needed.
The C++ `int` counter `tau_index` is a 32 bit two's complement integer.

Exact arithmetic differs from the machine in two ways: it does not round, and
the quotient `x / 0` of a field is 0 where the machine gives an infinity or a
NaN. The statements whose truth depends on either say so: they are stated for
exact arithmetic and assume `p.M() ≠ 0` where `get_dx` and `get_dp` divide. The
namespace `Double` holds a second embedding of the same methods with the
arithmetic of IEEE 754 binary64, used to evaluate the code where rounding or
a division by zero decides the outcome.
-/

set_option autoImplicit false

/-! ## ROOT::Math::LorentzVector -/

/-- Four-vector with Cartesian coordinates, used both as `XYZTVector`
(position, `T` is time) and as `PxPyPzEVector` (momentum, `T` is the energy). -/
@[ext]
structure LorentzVector (K : Type) where
  X : K
  Y : K
  Z : K
  T : K

namespace LorentzVector

variable {K : Type} [LinearOrderedField K]

/-- The accessor `E()` of a momentum vector: the fourth coordinate. -/
def E (v : LorentzVector K) : K := v.T

/-- Addition of two four-vectors, `v + w`. -/
def add (v w : LorentzVector K) : LorentzVector K :=
  ⟨v.X + w.X, v.Y + w.Y, v.Z + w.Z, v.T + w.T⟩

/-- Scaling by a scalar, `a * v` and `v * a`. -/
def scale (a : K) (v : LorentzVector K) : LorentzVector K :=
  ⟨a * v.X, a * v.Y, a * v.Z, a * v.T⟩

/-- Division by a scalar, `v / a`. -/
def div (v : LorentzVector K) (a : K) : LorentzVector K :=
  ⟨v.X / a, v.Y / a, v.Z / a, v.T / a⟩

instance : Add (LorentzVector K) := ⟨add⟩
instance : HMul K (LorentzVector K) (LorentzVector K) := ⟨scale⟩
instance : HMul (LorentzVector K) K (LorentzVector K) := ⟨fun v a => scale a v⟩
instance : HDiv (LorentzVector K) K (LorentzVector K) := ⟨div⟩

/-- Invariant mass squared `M2()` of a `PxPyPzEVector`. -/
def M2 (v : LorentzVector K) : K := v.T * v.T - v.X * v.X - v.Y * v.Y - v.Z * v.Z

/-- Invariant mass `M()` of a `PxPyPzEVector`: the square root of `M2()`,
and minus the square root of `-M2()` for a space-like vector. -/
def M (sqrt : K → K) (v : LorentzVector K) : K :=
  if 0 ≤ v.M2 then sqrt v.M2 else - sqrt (- v.M2)

end LorentzVector

/-- Momentum given by its three components and a mass, `PxPyPzMVector`. -/
structure LorentzP_M (K : Type) where
  X : K
  Y : K
  Z : K
  M : K

namespace LorentzP_M

variable {K : Type} [LinearOrderedField K]

/-- Energy squared `E2()` of a `PxPyPzMVector`, clipped at zero. -/
def E2 (v : LorentzP_M K) : K :=
  let m2 := if 0 ≤ v.M then v.M * v.M else - (v.M * v.M)
  let e2 := v.X * v.X + v.Y * v.Y + v.Z * v.Z + m2
  if 0 < e2 then e2 else 0

/-- Conversion of a `PxPyPzMVector` into a `PxPyPzEVector`. -/
def toPxPyPzE (sqrt : K → K) (v : LorentzP_M K) : LorentzVector K :=
  ⟨v.X, v.Y, v.Z, sqrt v.E2⟩

end LorentzP_M

/-! ## The external collaborators: field histogram and orbit graph -/

/-- The part of a `TH2D` field map that the tracker uses: the interpolated
value at a point in histogram units and the axis limits
`GetXaxis()->GetXmin()`, `GetXaxis()->GetXmax()`, `GetYaxis()->GetXmin()`,
`GetYaxis()->GetXmax()`. -/
structure TH2D (K : Type) where
  Interpolate : K → K → K
  Xmin : K
  Xmax : K
  Ymin : K
  Ymax : K

/-- Wrap an integer into the range of a 32 bit two's complement `int`. -/
def wrap32 (n : Int) : Int := (n + 2147483648) % 4294967296 - 2147483648

namespace TGraph

variable {K : Type} [LinearOrderedField K]

/-- The method `TGraph::SetPoint(i, x, y)` on the list of points of the graph:
a negative index is ignored, an index inside the graph overwrites the point and
an index past the end extends the graph, filling the gap with zeros. -/
def SetPoint (g : List (K × K)) (i : Int) (x y : K) : List (K × K) :=
  if i < 0 then g
  else if i.toNat < g.length then g.set i.toNat (x, y)
  else g ++ List.replicate (i.toNat - g.length) (0, 0) ++ [(x, y)]

end TGraph

/-! ## class BeamRK4

The class is the same in `spectrometer_prototype_momentum.cpp` and in
`lense/runge_kutta_spectro.cpp` up to the type `R` of the rectangles in
`drain_rectangles` and the member `anihilation_type`, which only the former
has (the latter never reads or writes it). -/

/-- The members of `BeamRK4`. `field_samples` is a ghost member: the positions
`x` with which `get_dp` has called `magnetic_field->Interpolate`, oldest first. -/
structure BeamRK4 (K : Type) (R : Type) where
  x : LorentzVector K
  p : LorentzVector K
  charge : K
  magnetic_field : TH2D K
  magnetic_field_unit : K
  length_unit : K
  drain_rectangles : List R
  orbit : List (K × K)
  tau_index : Int
  dtau : K
  tau_final : K
  anihilation_type : Int
  field_samples : List (LorentzVector K)

/-- The constant `edge_margin` of both spectrometer programs. -/
def edge_margin (K : Type) [LinearOrderedField K] : K := 0.005

namespace BeamRK4

variable {K : Type} [LinearOrderedField K] {R : Type}

/-- The constructor `BeamRK4::BeamRK4` together with the default member
initialisers; the initial momentum arrives as a `PxPyPzMVector`. -/
def new (sqrt : K → K) (initial_x : LorentzVector K) (initial_p : LorentzP_M K)
    (particle_charge : K) (_magnetic_field : TH2D K) (dtau tau_final : K) : BeamRK4 K R :=
  { x := initial_x
    p := initial_p.toPxPyPzE sqrt
    charge := particle_charge
    magnetic_field := _magnetic_field
    magnetic_field_unit := 1
    length_unit := 1
    drain_rectangles := []
    orbit := []
    tau_index := 0
    dtau := dtau
    tau_final := tau_final
    anihilation_type := 0
    field_samples := [] }

/-- The method `set_magnetic_unit`. -/
def set_magnetic_unit (b : BeamRK4 K R) (magnetic_field_unit : K) : BeamRK4 K R :=
  { b with magnetic_field_unit := magnetic_field_unit }

/-- The method `set_length_unit`. -/
def set_length_unit (b : BeamRK4 K R) (length_unit : K) : BeamRK4 K R :=
  { b with length_unit := length_unit }

/-- The method `add_drain_rectangle`: `emplace_back` on the vector. -/
def add_drain_rectangle (b : BeamRK4 K R) (drain_rectangle : R) : BeamRK4 K R :=
  { b with drain_rectangles := b.drain_rectangles ++ [drain_rectangle] }

/-- The method `plot_orbit_point`. -/
def plot_orbit_point (b : BeamRK4 K R) : BeamRK4 K R :=
  { b with
    orbit := TGraph.SetPoint b.orbit b.tau_index (b.x.X / b.length_unit) (b.x.Y / b.length_unit)
    tau_index := wrap32 (b.tau_index + 1) }

/-- The method `get_dx`; the divisor is `this->p.M()`. The quotient is exact,
and it is 0 for `p.M() = 0`, where the code produces infinities and NaNs
(`Double.get_dx`). -/
def get_dx (sqrt : K → K) (b : BeamRK4 K R) (p : LorentzVector K) : LorentzVector K :=
  p / b.p.M sqrt * b.dtau

/-- The method `get_dp`; the divisor is `this->p.M()`. The quotient is exact,
and it is 0 for `p.M() = 0`, where the code produces infinities and NaNs
(`Double.get_dp`). -/
def get_dp (sqrt : K → K) (b : BeamRK4 K R) (x p : LorentzVector K) : LorentzVector K :=
  b.charge * b.magnetic_field.Interpolate (x.X / b.length_unit) (x.Y / b.length_unit)
    * b.magnetic_field_unit * (⟨p.Y, -p.X, 0, 0⟩ : LorentzVector K) / b.p.M sqrt * b.dtau

/-- The method `step_RK4`. The four calls of `get_dp` are recorded in
`field_samples`. -/
def step_RK4 (sqrt : K → K) (b : BeamRK4 K R) : BeamRK4 K R :=
  let dx1 := get_dx sqrt b b.p
  let dp1 := get_dp sqrt b b.x b.p
  let dx2 := get_dx sqrt b (b.p + dp1 / (2 : K))
  let dp2 := get_dp sqrt b (b.x + dx1 / (2 : K)) (b.p + dp1 / (2 : K))
  let dx3 := get_dx sqrt b (b.p + dp2 / (2 : K))
  let dp3 := get_dp sqrt b (b.x + dx2 / (2 : K)) (b.p + dp2 / (2 : K))
  let dx4 := get_dx sqrt b (b.p + dp3)
  let dp4 := get_dp sqrt b (b.x + dx3) (b.p + dp3)
  { b with
    x := b.x + (dx1 + (2 : K) * dx2 + (2 : K) * dx3 + dx4) / (6 : K)
    p := b.p + (dp1 + (2 : K) * dp2 + (2 : K) * dp3 + dp4) / (6 : K)
    field_samples := b.field_samples ++
      [b.x, b.x + dx1 / (2 : K), b.x + dx2 / (2 : K), b.x + dx3] }

/-- The time-limit test of `is_anihilated`, with the exact product
`tau_index * dtau` (`Double.time_limit` rounds it). -/
def time_limit (b : BeamRK4 K R) : Prop := (b.tau_index : K) * b.dtau > b.tau_final

/-- The boundary test of `is_anihilated`, with exact sums, differences and
products (`Double.outside` rounds them). -/
def outside (b : BeamRK4 K R) : Prop :=
  b.x.X - edge_margin K ≤ b.magnetic_field.Xmin * b.length_unit
  ∨ b.magnetic_field.Xmax * b.length_unit ≤ b.x.X + edge_margin K
  ∨ b.x.Y - edge_margin K ≤ b.magnetic_field.Ymin * b.length_unit
  ∨ b.magnetic_field.Ymax * b.length_unit ≤ b.x.Y + edge_margin K

instance (b : BeamRK4 K R) : Decidable b.time_limit := by unfold time_limit; infer_instance
instance (b : BeamRK4 K R) : Decidable b.outside := by unfold outside; infer_instance

end BeamRK4

/-! ## spectrometer_prototype_momentum.cpp -/

/-- The class `DrainRectangle` of `spectrometer_prototype_momentum.cpp`
(the member `tbox` is only drawn). -/
structure DrainRectangle (K : Type) where
  x1 : K
  x2 : K
  y1 : K
  y2 : K
  length_unit : K
  anihilation_type : Int

namespace DrainRectangle

variable {K : Type} [LinearOrderedField K]

/-- The method `DrainRectangle::is_collided`. -/
def is_collided (r : DrainRectangle K) (beam_RK4 : BeamRK4 K (DrainRectangle K)) : Bool :=
  decide (r.x1 ≤ beam_RK4.x.X ∧ beam_RK4.x.X ≤ r.x2 ∧ r.y1 ≤ beam_RK4.x.Y ∧ beam_RK4.x.Y ≤ r.y2)

end DrainRectangle

namespace BeamRK4

variable {K : Type} [LinearOrderedField K]

/-- The `for` loop over `drain_rectangles` at the end of `is_anihilated`:
the returned value and the beam after the call. -/
def drain_loop (b : BeamRK4 K (DrainRectangle K)) :
    List (DrainRectangle K) → Bool × BeamRK4 K (DrainRectangle K)
  | [] => (false, b)
  | drain_rectangle :: rest =>
    if drain_rectangle.is_collided b then
      (true, { b with anihilation_type := drain_rectangle.anihilation_type })
    else drain_loop b rest

/-- The method `is_anihilated` of `spectrometer_prototype_momentum.cpp`:
the returned value and the beam after the call. -/
def is_anihilated (b : BeamRK4 K (DrainRectangle K)) : Bool × BeamRK4 K (DrainRectangle K) :=
  if b.time_limit then (true, b)
  else if b.outside then (true, b)
  else drain_loop b b.drain_rectangles

/-- The loop `while(!beam_RK4.is_anihilated()){ step_RK4(); plot_orbit_point(); }`
with a bound on the number of evaluations of the loop condition. The result is
`none` when the bound is used up, otherwise the number of executions of the
loop body and the beam after the loop. -/
def run_loop (sqrt : K → K) :
    Nat → BeamRK4 K (DrainRectangle K) → Option (Nat × BeamRK4 K (DrainRectangle K))
  | 0, _ => none
  | fuel + 1, b =>
    if (is_anihilated b).1 then some (0, (is_anihilated b).2)
    else
      match run_loop sqrt fuel (plot_orbit_point (step_RK4 sqrt (is_anihilated b).2)) with
      | none => none
      | some (n, b') => some (n + 1, b')

/-- The life of one particle in `spectrometer_prototype_momentum`:
`plot_orbit_point()` followed by the loop. -/
def run (sqrt : K → K) (fuel : Nat) (b : BeamRK4 K (DrainRectangle K)) :
    Option (Nat × BeamRK4 K (DrainRectangle K)) :=
  run_loop sqrt fuel (plot_orbit_point b)

end BeamRK4

/-! ## lense/runge_kutta_spectro.cpp -/

namespace lense

variable {K : Type} [LinearOrderedField K]

/-- The class `DrainRectangle` of `lense/runge_kutta_spectro.cpp` and its
subclass `Detector`: `hist` is `none` for a plain rectangle and holds the values
filled into the histogram of a `Detector`, oldest first. -/
structure DrainRectangle (K : Type) where
  x1 : K
  x2 : K
  y1 : K
  y2 : K
  hist : Option (List K)

/-- The virtual method `is_collided`: the returned value and the rectangle
after the call; `Detector::is_collided` fills its histogram with `p.E()` on a
hit. -/
def DrainRectangle.is_collided (r : DrainRectangle K) (beam_RK4 : BeamRK4 K (DrainRectangle K)) :
    Bool × DrainRectangle K :=
  let ret := decide (r.x1 ≤ beam_RK4.x.X ∧ beam_RK4.x.X ≤ r.x2
    ∧ r.y1 ≤ beam_RK4.x.Y ∧ beam_RK4.x.Y ≤ r.y2)
  match r.hist with
  | none => (ret, r)
  | some h => (ret, if ret then { r with hist := some (h ++ [beam_RK4.p.E]) } else r)

/-- The call of `std::any_of` in `is_anihilated`: it stops at the first
rectangle that reports a collision. Returns the value and the rectangles after
the call. -/
def any_of (b : BeamRK4 K (DrainRectangle K)) :
    List (DrainRectangle K) → Bool × List (DrainRectangle K)
  | [] => (false, [])
  | r :: rest =>
    if (r.is_collided b).1 then (true, (r.is_collided b).2 :: rest)
    else ((any_of b rest).1, (r.is_collided b).2 :: (any_of b rest).2)

/-- The method `is_anihilated` of `lense/runge_kutta_spectro.cpp`: the
returned value and the beam after the call, whose `drain_rectangles` carry the
histograms. -/
def is_anihilated (b : BeamRK4 K (DrainRectangle K)) : Bool × BeamRK4 K (DrainRectangle K) :=
  if b.time_limit then (true, b)
  else if b.outside then (true, b)
  else ((any_of b b.drain_rectangles).1,
    { b with drain_rectangles := (any_of b b.drain_rectangles).2 })

end lense

/-! ## runge_kutta.C -/

namespace runge_kutta

variable {K : Type} [LinearOrderedField K]

/-- The constant `c`. -/
def c (K : Type) [LinearOrderedField K] : K := 300 * 1000 * 1000
/-- The constant `Tesla`. -/
def Tesla (K : Type) [LinearOrderedField K] : K := c K
/-- The constant `second`. -/
def second (K : Type) [LinearOrderedField K] : K := c K
/-- The constant `unit::n`. -/
def unit.n (K : Type) [LinearOrderedField K] : K := 0.001 * 0.001 * 0.001
/-- The constant `unit::k`. -/
def unit.k (K : Type) [LinearOrderedField K] : K := 1000
/-- The constant `mass_e`. -/
def mass_e (K : Type) [LinearOrderedField K] : K := 511 * unit.k K
/-- The constant `charge_e`. -/
def charge_e (K : Type) [LinearOrderedField K] : K := -1
/-- The constant `dtau`. -/
def dtau (K : Type) [LinearOrderedField K] : K := 0.01 * unit.n K * second K

/-- The struct `StatePoint`. -/
structure StatePoint (K : Type) where
  x : LorentzVector K
  p : LorentzVector K

/-- The function `lorentz_force`; `magnetic_field` is the method `Interpolate`
of the global `TGraph2D`. -/
def lorentz_force (magnetic_field : K → K → K) (x u : LorentzVector K) : LorentzVector K :=
  charge_e K * magnetic_field x.X x.Y * (⟨u.Y, -u.X, 0, 0⟩ : LorentzVector K)

/-- The function `step_next`. -/
def step_next (magnetic_field : K → K → K) (state_point : StatePoint K) : StatePoint K :=
  let x := state_point.x
  let p := state_point.p
  let dx1 := p / mass_e K * dtau K
  let dp1 := lorentz_force magnetic_field x (p / mass_e K) * dtau K
  let dx2 := (p + dp1 / (2 : K)) / mass_e K * dtau K
  let dp2 := lorentz_force magnetic_field (x + dx1 / (2 : K)) ((p + dp1 / (2 : K)) / mass_e K) * dtau K
  let dx3 := (p + dp2 / (2 : K)) / mass_e K * dtau K
  let dp3 := lorentz_force magnetic_field (x + dx2 / (2 : K)) ((p + dp2 / (2 : K)) / mass_e K) * dtau K
  let dx4 := (p + dp3) / mass_e K * dtau K
  let dp4 := lorentz_force magnetic_field (x + dx3) ((p + dp3) / mass_e K) * dtau K
  let x_next := x + (dx1 + (2 : K) * dx2 + (2 : K) * dx3 + dx4) / (6 : K)
  let p_next := p + (dp1 + (2 : K) * dp2 + (2 : K) * dp3 + dp4) / (6 : K)
  ⟨x_next, p_next⟩

end runge_kutta

/-! ## The classical Runge-Kutta scheme, as the specification words it -/

namespace Spec

variable {K : Type} [LinearOrderedField K]

/-- Sum of two (position, momentum) pairs. -/
def pair_add (s t : LorentzVector K × LorentzVector K) : LorentzVector K × LorentzVector K :=
  (s.1 + t.1, s.2 + t.2)

/-- A (position, momentum) pair scaled by a number. -/
def pair_scale (a : K) (s : LorentzVector K × LorentzVector K) :
    LorentzVector K × LorentzVector K :=
  (a * s.1, a * s.2)

/-- Right-hand side of the equations of motion `dx/dtau = p / m`,
`dp/dtau = q * B(x) * (p_y, -p_x, 0, 0) / m`. -/
def rhs (q m : K) (B : LorentzVector K → K) (s : LorentzVector K × LorentzVector K) :
    LorentzVector K × LorentzVector K :=
  ((1 / m) * s.2, (q * B s.1 / m) * (⟨s.2.Y, -s.2.X, 0, 0⟩ : LorentzVector K))

/-- One step of the classical four-stage Runge-Kutta scheme with step `h` for
`dy/dtau = f y`: `k1 = h f(y)`, `k2 = h f(y + k1/2)`, `k3 = h f(y + k2/2)`,
`k4 = h f(y + k3)` and the result `y + (k1 + 2 k2 + 2 k3 + k4) / 6`. -/
def classical_RK4
    (f : LorentzVector K × LorentzVector K → LorentzVector K × LorentzVector K)
    (h : K) (y : LorentzVector K × LorentzVector K) : LorentzVector K × LorentzVector K :=
  let k1 := pair_scale h (f y)
  let k2 := pair_scale h (f (pair_add y (pair_scale (1 / 2) k1)))
  let k3 := pair_scale h (f (pair_add y (pair_scale (1 / 2) k2)))
  let k4 := pair_scale h (f (pair_add y k3))
  pair_add y (pair_scale (1 / 6)
    (pair_add (pair_add (pair_add k1 (pair_scale 2 k2)) (pair_scale 2 k3)) k4))

/-- The positions at which the four stages of `classical_RK4` evaluate the
right-hand side: those of `y`, `y + k1/2`, `y + k2/2` and `y + k3`. -/
def stage_positions
    (f : LorentzVector K × LorentzVector K → LorentzVector K × LorentzVector K)
    (h : K) (y : LorentzVector K × LorentzVector K) : List (LorentzVector K) :=
  let k1 := pair_scale h (f y)
  let k2 := pair_scale h (f (pair_add y (pair_scale (1 / 2) k1)))
  let k3 := pair_scale h (f (pair_add y (pair_scale (1 / 2) k2)))
  [y.1, (pair_add y (pair_scale (1 / 2) k1)).1, (pair_add y (pair_scale (1 / 2) k2)).1,
    (pair_add y k3).1]

/-- The field in the units of the integrator at a position in world units:
`Interpolate(x.X / length_unit, x.Y / length_unit) * magnetic_field_unit`. -/
def B_of {R : Type} (b : BeamRK4 K R) (x : LorentzVector K) : K :=
  b.magnetic_field.Interpolate (x.X / b.length_unit) (x.Y / b.length_unit)
    * b.magnetic_field_unit

/-- The position of the beam is strictly more than `edge_margin` inside all
four sides of the grid box scaled to world units. -/
def strictly_inside {R : Type} (b : BeamRK4 K R) : Prop :=
  b.magnetic_field.Xmin * b.length_unit + edge_margin K < b.x.X
  ∧ b.x.X < b.magnetic_field.Xmax * b.length_unit - edge_margin K
  ∧ b.magnetic_field.Ymin * b.length_unit + edge_margin K < b.x.Y
  ∧ b.x.Y < b.magnetic_field.Ymax * b.length_unit - edge_margin K

/-- The position `s` lies inside the grid box of the beam scaled to world
units, `[Xmin * L, Xmax * L] × [Ymin * L, Ymax * L]` with `L = length_unit`. -/
def in_box {R : Type} (b : BeamRK4 K R) (s : LorentzVector K) : Prop :=
  b.magnetic_field.Xmin * b.length_unit ≤ s.X ∧ s.X ≤ b.magnetic_field.Xmax * b.length_unit
  ∧ b.magnetic_field.Ymin * b.length_unit ≤ s.Y ∧ s.Y ≤ b.magnetic_field.Ymax * b.length_unit

end Spec

/-! ## Iterated steps and concrete configurations -/

namespace BeamRK4

variable {K : Type} [LinearOrderedField K] {R : Type}

/-- The beam after `n` executions of the loop body `step_RK4(); plot_orbit_point();`. -/
def steps (sqrt : K → K) : Nat → BeamRK4 K R → BeamRK4 K R
  | 0, b => b
  | n + 1, b => steps sqrt n (plot_orbit_point (step_RK4 sqrt b))

end BeamRK4

namespace Examples

variable (K : Type) [LinearOrderedField K]

/-- A field map over the box `[-4, 4] × [-4, 4]` with the value `B` everywhere. -/
def uniform_field (B : K) : TH2D K := ⟨fun _ _ => B, -4, 4, -4, 4⟩

/-- A beam at the origin with momentum `(3, 0, 0)` and energy 5 (mass 4) in
`uniform_field B`, both unit factors 1, no absorbers. -/
def beam (R : Type) (B dtau tau_final : K) : BeamRK4 K R :=
  { x := ⟨0, 0, 0, 0⟩
    p := ⟨3, 0, 0, 5⟩
    charge := 1
    magnetic_field := uniform_field K B
    magnetic_field_unit := 1
    length_unit := 1
    drain_rectangles := []
    orbit := []
    tau_index := 0
    dtau := dtau
    tau_final := tau_final
    anihilation_type := 0
    field_samples := [] }

/-- The beam `beam` after the first `plot_orbit_point()` of its run. -/
def started (R : Type) (B dtau tau_final : K) : BeamRK4 K R :=
  BeamRK4.plot_orbit_point (beam K R B dtau tau_final)

/-- The beam that the constructor builds at the origin from the momentum
`(3, 0, 0)` with mass 4 and charge 1 in `uniform_field B`, with both unit
factors set to 1. -/
def constructed (sqrt : K → K) (R : Type) (B dtau tau_final : K) : BeamRK4 K R :=
  ((BeamRK4.new sqrt ⟨0, 0, 0, 0⟩ ⟨3, 0, 0, 4⟩ 1 (uniform_field K B) dtau
    tau_final).set_magnetic_unit 1).set_length_unit 1

/-- A beam at rest at the origin (energy 1, hence mass 1) in `uniform_field B`,
no absorbers. -/
def at_rest (R : Type) (B dtau tau_final : K) : BeamRK4 K R :=
  { beam K R B dtau tau_final with p := ⟨0, 0, 0, 1⟩ }

/-- Two overlapping rectangles with the tags 7 and 9, in this order. -/
def overlapping : List (DrainRectangle K) :=
  [⟨-1, 1, -1, 1, 1, 7⟩, ⟨0, 5, 0, 5, 1, 9⟩]

/-- A beam at `(x, y)` with the rectangles `overlapping`, checked at step
index `tau_index` with `dtau = 1` and `tau_final = 10`. -/
def probe (x y : K) (tau_index : Int) : BeamRK4 K (DrainRectangle K) :=
  { beam K (DrainRectangle K) 0 1 10 with
    x := ⟨x, y, 0, 0⟩
    drain_rectangles := overlapping K
    tau_index := tau_index }

/-- The rectangles of the lense variant: a plain rectangle and a detector
with an empty histogram, both containing the origin. -/
def lense_rectangles : List (lense.DrainRectangle K) :=
  [⟨-1, 1, -1, 1, none⟩, ⟨-5, 5, -2, 2, some []⟩]

/-- A beam of the lense variant at `(x, y)` with the rectangles
`lense_rectangles`, checked at step index `tau_index` with `dtau = 1` and
`tau_final = 10`. -/
def lense_probe (x y : K) (tau_index : Int) : BeamRK4 K (lense.DrainRectangle K) :=
  { beam K (lense.DrainRectangle K) 0 1 10 with
    x := ⟨x, y, 0, 0⟩
    drain_rectangles := lense_rectangles K
    tau_index := tau_index }

end Examples

/-! ## Further notions used in the statements -/

namespace Spec

variable {K : Type} [LinearOrderedField K]

/-- The point that `plot_orbit_point` records for a beam:
`(X / length_unit, Y / length_unit)` of its position. -/
def orbit_point {R : Type} (b : BeamRK4 K R) : K × K :=
  (b.x.X / b.length_unit, b.x.Y / b.length_unit)

/-- The termination predicate of `spectrometer_prototype_momentum.cpp`: the
time limit is exceeded, or the position is within `edge_margin` of the box or
outside, or some rectangle contains the position. -/
def terminated (b : BeamRK4 K (DrainRectangle K)) : Prop :=
  b.time_limit ∨ b.outside ∨ ∃ r ∈ b.drain_rectangles, r.is_collided b = true

/-- The termination predicate of `lense/runge_kutta_spectro.cpp`. -/
def lense_terminated (b : BeamRK4 K (lense.DrainRectangle K)) : Prop :=
  b.time_limit ∨ b.outside ∨ ∃ r ∈ b.drain_rectangles, (r.is_collided b).1 = true

/-- The strength `charge * B * magnetic_field_unit` with which a field of
value `B` bends the momentum of the beam. -/
def kappa {R : Type} (b : BeamRK4 K R) (B : K) : K :=
  b.charge * B * b.magnetic_field_unit

/-- Centre, in the `(x, y)` plane, of the circle through the position `x`
that is tangent to the momentum `p` there, for the strength `k`:
`(X + p_y / k, Y - p_x / k)`. -/
def centre (k : K) (x p : LorentzVector K) : K × K :=
  (x.X + p.Y / k, x.Y - p.X / k)

/-- Square of the radius `R = |p| / |k|` of that circle. -/
def radius_sq (k : K) (p : LorentzVector K) : K :=
  (p.X ^ 2 + p.Y ^ 2) / k ^ 2

/-- Square of the distance in the `(x, y)` plane between the point `c` and the
position `x`. -/
def dist_sq (c : K × K) (x : LorentzVector K) : K :=
  (x.X - c.1) ^ 2 + (x.Y - c.2) ^ 2

/-- The position `x` lies on the circle with centre `c` and squared radius
`R2` to within the relative tolerance `tol`: its distance `d` from `c`
satisfies `(1 - tol) R <= d <= (1 + tol) R`, stated for the squares. -/
def within_circle (tol : K) (c : K × K) (R2 : K) (x : LorentzVector K) : Prop :=
  (1 - tol) ^ 2 * R2 ≤ dist_sq c x ∧ dist_sq c x ≤ (1 + tol) ^ 2 * R2

/-- The angle `theta = charge * B * magnetic_field_unit * dtau / M` of one
step in a field of value `B`, with `M = p.M()` at the start of the step. -/
def theta {R : Type} (sqrt : K → K) (b : BeamRK4 K R) (B : K) : K :=
  b.charge * B * b.magnetic_field_unit * b.dtau / b.p.M sqrt

end Spec

namespace lense

variable {K : Type} [LinearOrderedField K]

/-- The loop `while(!beam_RK4.is_anihilated()){ step_RK4(); plot_orbit_point(); }`
of `runge_kutta_spectro` with a bound on the number of evaluations of the loop
condition; `none` when the bound is used up, otherwise the number of executions
of the loop body and the beam after the loop. -/
def run_loop (sqrt : K → K) :
    Nat → BeamRK4 K (DrainRectangle K) → Option (Nat × BeamRK4 K (DrainRectangle K))
  | 0, _ => none
  | fuel + 1, b =>
    if (is_anihilated b).1 then some (0, (is_anihilated b).2)
    else
      match run_loop sqrt fuel
        (BeamRK4.plot_orbit_point (BeamRK4.step_RK4 sqrt (is_anihilated b).2)) with
      | none => none
      | some (n, b') => some (n + 1, b')

/-- The life of one particle in `runge_kutta_spectro`. -/
def run (sqrt : K → K) (fuel : Nat) (b : BeamRK4 K (DrainRectangle K)) :
    Option (Nat × BeamRK4 K (DrainRectangle K)) :=
  run_loop sqrt fuel (BeamRK4.plot_orbit_point b)

end lense

/-- The constructor `DrainRectangle::DrainRectangle` of
`spectrometer_prototype_momentum.cpp`: the member initialiser list (the box
`tbox` it also creates is only drawn). -/
def DrainRectangle.new {K : Type} (x1 x2 y1 y2 length_unit : K) (anihilation_type : Int) :
    DrainRectangle K :=
  { x1 := x1, x2 := x2, y1 := y1, y2 := y2, length_unit := length_unit,
    anihilation_type := anihilation_type }

/-- The constructor `DrainRectangle::DrainRectangle` of
`lense/runge_kutta_spectro.cpp`. -/
def lense.DrainRectangle.new {K : Type} (x1 x2 y1 y2 : K) : lense.DrainRectangle K :=
  { x1 := x1, x2 := x2, y1 := y1, y2 := y2, hist := none }

/-- The constructor `Detector::Detector` of `lense/runge_kutta_spectro.cpp`:
a rectangle with a new, empty histogram. -/
def lense.Detector.new {K : Type} (x1 x2 y1 y2 : K) : lense.DrainRectangle K :=
  { x1 := x1, x2 := x2, y1 := y1, y2 := y2, hist := some [] }

/-- The constant `unit::m` of `runge_kutta.C`. -/
def runge_kutta.unit.m (K : Type) [LinearOrderedField K] : K := 0.001

/-- The constant `unit::M` of `runge_kutta.C`. -/
def runge_kutta.unit.M (K : Type) [LinearOrderedField K] : K := 1000 * 1000

/-- The constant `momentum` of `runge_kutta.C`. -/
def runge_kutta.momentum (K : Type) [LinearOrderedField K] : K := 1 * runge_kutta.unit.M K

/-- The constant `b` of `runge_kutta.C`, the field value inside the magnet. -/
def runge_kutta.b (K : Type) [LinearOrderedField K] : K :=
  1 * runge_kutta.unit.m K * runge_kutta.Tesla K

/-- The state after `n` executions of `state_point = step_next(state_point)`
in the loop of `runge_kutta`. -/
def runge_kutta.steps {K : Type} [LinearOrderedField K] (magnetic_field : K → K → K) :
    Nat → runge_kutta.StatePoint K → runge_kutta.StatePoint K
  | 0, s => s
  | n + 1, s => runge_kutta.steps magnetic_field n (runge_kutta.step_next magnetic_field s)

/-! ## The absorbers of `spectrometer_prototype_momentum` -/

namespace spectrometer

variable (K : Type) [LinearOrderedField K]

/-- The local `cm`, initialised with `unit::c`. -/
def cm : K := 0.01

/-- The rectangle `top_collimator_left`. -/
def top_collimator_left : DrainRectangle K :=
  DrainRectangle.new (-2 * cm K) (-1.1 * cm K) (3 * cm K) (4 * cm K) (cm K) 0

/-- The rectangle `top_collimator_right`. -/
def top_collimator_right : DrainRectangle K :=
  DrainRectangle.new (-0.9 * cm K) (0 * cm K) (3 * cm K) (4 * cm K) (cm K) 0

/-- The rectangle `side_collimator_top`. -/
def side_collimator_top : DrainRectangle K :=
  DrainRectangle.new (3 * cm K) (4 * cm K) (-0.9 * cm K) (0 * cm K) (cm K) 0

/-- The rectangle `side_collimator_bottom`. -/
def side_collimator_bottom : DrainRectangle K :=
  DrainRectangle.new (3 * cm K) (4 * cm K) (-2 * cm K) (-1.1 * cm K) (cm K) 0

/-- The rectangle `detector`. -/
def detector : DrainRectangle K :=
  DrainRectangle.new (4.5 * cm K) (5 * cm K) (-1.5 * cm K) (-0.5 * cm K) (cm K) 1

/-- The rectangles of a beam of `spectrometer_prototype_momentum`, in the
order of the five calls of `add_drain_rectangle`. -/
def reference_rectangles : List (DrainRectangle K) :=
  [top_collimator_left K, top_collimator_right K, side_collimator_top K,
    side_collimator_bottom K, detector K]

end spectrometer

/-- The beam `Examples.beam` in a vanishing field placed at `(0.047, -0.01)`,
inside the detector, with the rectangles of `spectrometer_prototype_momentum`. -/
def Examples.on_detector (K : Type) [LinearOrderedField K] : BeamRK4 K (DrainRectangle K) :=
  { Examples.beam K (DrainRectangle K) 0 1 10 with
    x := ⟨0.047, -0.01, 0, 0⟩
    drain_rectangles := spectrometer.reference_rectangles K }

/-! ## Evaluation with the arithmetic of a C++ `double`

The definitions above compute in a field: no rounding, and `x / 0 = 0`. The
definitions of this section evaluate the same methods as the machine does:
every operation rounds its exact result to the nearest binary64 number, and a
division by zero or an overflow produces an infinity or a NaN. The operations
are written in the order in which the C++ expressions evaluate them. -/

/-- A value of a C++ `double` (IEEE 754 binary64): a finite number, an
infinity or a NaN. The two zeros are not distinguished; a zero divisor counts
as `+0`. -/
inductive Double where
  | fin (q : ℚ)
  | inf (negative : Bool)
  | nan
deriving DecidableEq

namespace Double

/-- The integer nearest to `m`, the even one of the two when `m` lies half-way. -/
def round_even (m : ℚ) : ℤ :=
  if m - ⌊m⌋ < 1 / 2 then ⌊m⌋
  else if 1 / 2 < m - ⌊m⌋ then ⌊m⌋ + 1
  else if ⌊m⌋ % 2 = 0 then ⌊m⌋ else ⌊m⌋ + 1

/-- Binary search for the exponent: the largest `e + j` with `0 <= j < 2 ^ k`
and `2 ^ (e + j) <= q`, given `2 ^ e <= q`. -/
def exponent_bits : ℕ → ℚ → ℤ → ℤ
  | 0, _, e => e
  | k + 1, q, e =>
    if (2 : ℚ) ^ (e + 2 ^ k) ≤ q then exponent_bits k q (e + 2 ^ k) else exponent_bits k q e

/-- The binary exponent of `q`, the integer `e` with `2 ^ e <= |q| < 2 ^ (e + 1)`,
for `2 ^ (-2048) <= |q| < 2 ^ 2048`; `-2048` for smaller numbers and for 0. -/
def exponent (q : ℚ) : ℤ := exponent_bits 12 |q| (-2048)

/-- Exponent of the spacing of the binary64 numbers around `q`: 52 below the
exponent of `q`, and `-1074` in the subnormal range. -/
def ulp_exponent (q : ℚ) : ℤ := max (exponent q) (-1022) - 52

/-- The exact number `q` rounded to the nearest multiple of the spacing. -/
def nearest (q : ℚ) : ℚ := (round_even (q / 2 ^ ulp_exponent q) : ℚ) * 2 ^ ulp_exponent q

/-- Rounding of an exact result to binary64, to nearest with ties to even; a
result that rounds to `2 ^ 1024` or beyond overflows to an infinity. -/
def round (q : ℚ) : Double :=
  if 2 ^ 1024 ≤ |nearest q| then inf (decide (q < 0)) else fin (nearest q)

/-- Unary minus. -/
def neg : Double → Double
  | fin q => fin (-q)
  | inf s => inf (!s)
  | nan => nan

/-- The sum `a + b`. -/
def add : Double → Double → Double
  | fin a, fin b => round (a + b)
  | fin _, inf s => inf s
  | inf s, fin _ => inf s
  | inf s, inf t => if s = t then inf s else nan
  | nan, _ => nan
  | _, nan => nan

/-- The difference `a - b`. -/
def sub (a b : Double) : Double := add a (neg b)

/-- The product `a * b`. -/
def mul : Double → Double → Double
  | fin a, fin b => round (a * b)
  | fin a, inf s => if a = 0 then nan else inf (xor s (decide (a < 0)))
  | inf s, fin b => if b = 0 then nan else inf (xor s (decide (b < 0)))
  | inf s, inf t => inf (xor s t)
  | nan, _ => nan
  | _, nan => nan

/-- The quotient `a / b`. -/
def div : Double → Double → Double
  | fin a, fin b =>
    if b = 0 then (if a = 0 then nan else inf (decide (a < 0))) else round (a / b)
  | fin _, inf _ => fin 0
  | inf s, fin b => inf (xor s (decide (b < 0)))
  | inf _, inf _ => nan
  | nan, _ => nan
  | _, nan => nan

/-- The comparison `a <= b`, false when an operand is a NaN. -/
def le : Double → Double → Bool
  | fin a, fin b => decide (a ≤ b)
  | fin _, inf s => !s
  | inf s, fin _ => s
  | inf s, inf t => s || !t
  | nan, _ => false
  | _, nan => false

/-- The comparison `a < b`, false when an operand is a NaN. -/
def lt : Double → Double → Bool
  | fin a, fin b => decide (a < b)
  | fin _, inf s => !s
  | inf s, fin _ => s
  | inf s, inf t => s && !t
  | nan, _ => false
  | _, nan => false

/-- Binary search for the integer square root: the largest `r + j` with
`j < 2 ^ k` whose square is at most `n`, given `r * r <= n`. -/
def isqrt_bits : ℕ → ℕ → ℕ → ℕ
  | 0, _, r => r
  | k + 1, n, r =>
    if (r + 2 ^ k) * (r + 2 ^ k) ≤ n then isqrt_bits k n (r + 2 ^ k) else isqrt_bits k n r

/-- The integer part of the square root of `n`, for `n < 2 ^ 132`. -/
def isqrt (n : ℕ) : ℕ := isqrt_bits 66 n 0

/-- The number of binary places by which `sqrt_rat` scales `q`, so that the
scaled square root has 65 bits. -/
def sqrt_scale (q : ℚ) : ℤ := 64 - Int.fdiv (exponent q) 2

/-- A rational number that rounds like the square root of `q > 0`: the root
itself when it is a multiple of `2 ^ (- sqrt_scale q)`, otherwise a number
strictly between the two neighbouring multiples. -/
def sqrt_rat (q : ℚ) : ℚ :=
  (if (isqrt ⌊q * 4 ^ sqrt_scale q⌋₊ : ℚ) * isqrt ⌊q * 4 ^ sqrt_scale q⌋₊ = q * 4 ^ sqrt_scale q
    then (isqrt ⌊q * 4 ^ sqrt_scale q⌋₊ : ℚ)
    else isqrt ⌊q * 4 ^ sqrt_scale q⌋₊ + 1 / 2) / 2 ^ sqrt_scale q

/-- The function `sqrt` (`TMath::Sqrt`), correctly rounded. -/
def sqrt : Double → Double
  | fin q => if q < 0 then nan else if q = 0 then fin 0 else round (sqrt_rat q)
  | inf s => if s then nan else inf false
  | nan => nan

/-- Conversion of an `int` to `double`. -/
def ofInt (n : ℤ) : Double := round n

/-- Sum of two four-vectors, `v + w`. -/
def vadd (v w : LorentzVector Double) : LorentzVector Double :=
  ⟨add v.X w.X, add v.Y w.Y, add v.Z w.Z, add v.T w.T⟩

/-- The method `Scale(a)` behind `a * v`, `v * a` and `v *= a`: each
coordinate is multiplied by `a`. -/
def Scale (a : Double) (v : LorentzVector Double) : LorentzVector Double :=
  ⟨mul v.X a, mul v.Y a, mul v.Z a, mul v.T a⟩

/-- Division by a scalar, `v / a` and `v /= a`: ROOT scales by the
reciprocal, `Scale(1/a)`. -/
def vdiv (v : LorentzVector Double) (a : Double) : LorentzVector Double :=
  Scale (div (fin 1) a) v

/-- Invariant mass squared `M2()` of a `PxPyPzEVector`. -/
def M2 (v : LorentzVector Double) : Double :=
  sub (sub (sub (mul v.T v.T) (mul v.X v.X)) (mul v.Y v.Y)) (mul v.Z v.Z)

/-- Invariant mass `M()` of a `PxPyPzEVector`. -/
def M (v : LorentzVector Double) : Double :=
  if le (fin 0) (M2 v) then sqrt (M2 v) else neg (sqrt (neg (M2 v)))

/-- Energy squared `E2()` of a `PxPyPzMVector`, clipped at zero. -/
def E2 (v : LorentzP_M Double) : Double :=
  let m2 := if le (fin 0) v.M then mul v.M v.M else neg (mul v.M v.M)
  let e2 := add (add (add (mul v.X v.X) (mul v.Y v.Y)) (mul v.Z v.Z)) m2
  if lt (fin 0) e2 then e2 else fin 0

/-- Conversion of a `PxPyPzMVector` into a `PxPyPzEVector`. -/
def toPxPyPzE (v : LorentzP_M Double) : LorentzVector Double :=
  ⟨v.X, v.Y, v.Z, sqrt (E2 v)⟩

/-- The constant `edge_margin`: the `double` nearest to 0.005. -/
def edge_margin : Double := round 0.005

variable {R : Type}

/-- The constructor `BeamRK4::BeamRK4` with the default member initialisers. -/
def new (initial_x : LorentzVector Double) (initial_p : LorentzP_M Double)
    (particle_charge : Double) (_magnetic_field : TH2D Double) (dtau tau_final : Double) :
    BeamRK4 Double R :=
  { x := initial_x
    p := toPxPyPzE initial_p
    charge := particle_charge
    magnetic_field := _magnetic_field
    magnetic_field_unit := fin 1
    length_unit := fin 1
    drain_rectangles := []
    orbit := []
    tau_index := 0
    dtau := dtau
    tau_final := tau_final
    anihilation_type := 0
    field_samples := [] }

/-- The method `get_dx`. -/
def get_dx (b : BeamRK4 Double R) (p : LorentzVector Double) : LorentzVector Double :=
  Scale b.dtau (vdiv p (M b.p))

/-- The method `get_dp`. -/
def get_dp (b : BeamRK4 Double R) (x p : LorentzVector Double) : LorentzVector Double :=
  Scale b.dtau
    (vdiv
      (Scale
        (mul (mul b.charge
          (b.magnetic_field.Interpolate (div x.X b.length_unit) (div x.Y b.length_unit)))
          b.magnetic_field_unit)
        ⟨p.Y, neg p.X, fin 0, fin 0⟩)
      (M b.p))

/-- The method `step_RK4`. -/
def step_RK4 (b : BeamRK4 Double R) : BeamRK4 Double R :=
  let dx1 := get_dx b b.p
  let dp1 := get_dp b b.x b.p
  let dx2 := get_dx b (vadd b.p (vdiv dp1 (fin 2)))
  let dp2 := get_dp b (vadd b.x (vdiv dx1 (fin 2))) (vadd b.p (vdiv dp1 (fin 2)))
  let dx3 := get_dx b (vadd b.p (vdiv dp2 (fin 2)))
  let dp3 := get_dp b (vadd b.x (vdiv dx2 (fin 2))) (vadd b.p (vdiv dp2 (fin 2)))
  let dx4 := get_dx b (vadd b.p dp3)
  let dp4 := get_dp b (vadd b.x dx3) (vadd b.p dp3)
  { b with
    x := vadd b.x (vdiv (vadd (vadd (vadd dx1 (Scale (fin 2) dx2)) (Scale (fin 2) dx3)) dx4)
      (fin 6))
    p := vadd b.p (vdiv (vadd (vadd (vadd dp1 (Scale (fin 2) dp2)) (Scale (fin 2) dp3)) dp4)
      (fin 6))
    field_samples := b.field_samples ++
      [b.x, vadd b.x (vdiv dx1 (fin 2)), vadd b.x (vdiv dx2 (fin 2)), vadd b.x dx3] }

/-- The time-limit test of `is_anihilated`, `tau_index * dtau > tau_final`. -/
def time_limit (b : BeamRK4 Double R) : Bool :=
  lt b.tau_final (mul (ofInt b.tau_index) b.dtau)

/-- The boundary test of `is_anihilated`. -/
def outside (b : BeamRK4 Double R) : Bool :=
  le (sub b.x.X edge_margin) (mul b.magnetic_field.Xmin b.length_unit)
  || le (mul b.magnetic_field.Xmax b.length_unit) (add b.x.X edge_margin)
  || le (sub b.x.Y edge_margin) (mul b.magnetic_field.Ymin b.length_unit)
  || le (mul b.magnetic_field.Ymax b.length_unit) (add b.x.Y edge_margin)

/-- The method `DrainRectangle::is_collided`. -/
def is_collided (r : DrainRectangle Double) (beam_RK4 : BeamRK4 Double (DrainRectangle Double)) :
    Bool :=
  le r.x1 beam_RK4.x.X && le beam_RK4.x.X r.x2 && le r.y1 beam_RK4.x.Y && le beam_RK4.x.Y r.y2

/-- The `for` loop over `drain_rectangles` at the end of `is_anihilated`. -/
def drain_loop (b : BeamRK4 Double (DrainRectangle Double)) :
    List (DrainRectangle Double) → Bool × BeamRK4 Double (DrainRectangle Double)
  | [] => (false, b)
  | drain_rectangle :: rest =>
    if is_collided drain_rectangle b then
      (true, { b with anihilation_type := drain_rectangle.anihilation_type })
    else drain_loop b rest

/-- The method `is_anihilated` of `spectrometer_prototype_momentum.cpp`. -/
def is_anihilated (b : BeamRK4 Double (DrainRectangle Double)) :
    Bool × BeamRK4 Double (DrainRectangle Double) :=
  if time_limit b then (true, b)
  else if outside b then (true, b)
  else drain_loop b b.drain_rectangles

end Double

namespace Examples

/-- A field map over the box `[-10, 10] × [-10, 10]` with the value `B`
everywhere. -/
def wide_field (B : Double) : TH2D Double :=
  ⟨fun _ _ => B, Double.fin (-10), Double.fin 10, Double.fin (-10), Double.fin 10⟩

/-- The beam that the constructor builds at the origin from the momentum
`(3, 4, 0)` with mass 0 and charge 1 in a vanishing field, `dtau = 1`. -/
def massless : BeamRK4 Double (DrainRectangle Double) :=
  Double.new ⟨Double.fin 0, Double.fin 0, Double.fin 0, Double.fin 0⟩
    ⟨Double.fin 3, Double.fin 4, Double.fin 0, Double.fin 0⟩ (Double.fin 1)
    (wide_field (Double.fin 0)) (Double.fin 1) (Double.fin 10)

/-- The beam that the constructor builds at the origin from the momentum
`(3, 0, 0)` with mass 4 and charge 1 in the uniform field 1, with
`dtau = 2 ^ (-60)`. -/
def short_step : BeamRK4 Double (DrainRectangle Double) :=
  Double.new ⟨Double.fin 0, Double.fin 0, Double.fin 0, Double.fin 0⟩
    ⟨Double.fin 3, Double.fin 0, Double.fin 0, Double.fin 4⟩ (Double.fin 1)
    (wide_field (Double.fin 1)) (Double.fin (1 / 2 ^ 60)) (Double.fin 10)

/-- A beam at `X = -9.995` (the nearest `double`), `Y = 0` in the box
`[-10, 10] × [-10, 10]` with a vanishing field, at the first termination check
of its run, where `tau_index` is 1. -/
def near_edge : BeamRK4 Double (DrainRectangle Double) :=
  { (Double.new ⟨Double.round (-9.995), Double.fin 0, Double.fin 0, Double.fin 0⟩
      ⟨Double.fin 3, Double.fin 0, Double.fin 0, Double.fin 4⟩ (Double.fin 1)
      (wide_field (Double.fin 0)) (Double.fin 1) (Double.fin 10)) with tau_index := 1 }

end Examples

/-! ## Component lemmas -/

namespace LorentzVector

variable {K : Type} [LinearOrderedField K]

@[simp] theorem add_X (v w : LorentzVector K) : (v + w).X = v.X + w.X := rfl
@[simp] theorem add_Y (v w : LorentzVector K) : (v + w).Y = v.Y + w.Y := rfl
@[simp] theorem add_Z (v w : LorentzVector K) : (v + w).Z = v.Z + w.Z := rfl
@[simp] theorem add_T (v w : LorentzVector K) : (v + w).T = v.T + w.T := rfl
@[simp] theorem smul_X (a : K) (v : LorentzVector K) : (a * v).X = a * v.X := rfl
@[simp] theorem smul_Y (a : K) (v : LorentzVector K) : (a * v).Y = a * v.Y := rfl
@[simp] theorem smul_Z (a : K) (v : LorentzVector K) : (a * v).Z = a * v.Z := rfl
@[simp] theorem smul_T (a : K) (v : LorentzVector K) : (a * v).T = a * v.T := rfl
@[simp] theorem mul_X (v : LorentzVector K) (a : K) : (v * a).X = a * v.X := rfl
@[simp] theorem mul_Y (v : LorentzVector K) (a : K) : (v * a).Y = a * v.Y := rfl
@[simp] theorem mul_Z (v : LorentzVector K) (a : K) : (v * a).Z = a * v.Z := rfl
@[simp] theorem mul_T (v : LorentzVector K) (a : K) : (v * a).T = a * v.T := rfl
@[simp] theorem div_X (v : LorentzVector K) (a : K) : (v / a).X = v.X / a := rfl
@[simp] theorem div_Y (v : LorentzVector K) (a : K) : (v / a).Y = v.Y / a := rfl
@[simp] theorem div_Z (v : LorentzVector K) (a : K) : (v / a).Z = v.Z / a := rfl
@[simp] theorem div_T (v : LorentzVector K) (a : K) : (v / a).T = v.T / a := rfl

end LorentzVector

/-! ## Straight-line motion in a vanishing field -/

section ZeroField

variable {K : Type} [LinearOrderedField K] {R : Type}

theorem BeamRK4.get_dp_zero (sqrt : K → K) (b : BeamRK4 K R)
    (h0 : ∀ u v, b.magnetic_field.Interpolate u v = 0) (x p : LorentzVector K) :
    BeamRK4.get_dp sqrt b x p = ⟨0, 0, 0, 0⟩ := by
  ext <;> simp [BeamRK4.get_dp, h0]

theorem BeamRK4.step_RK4_p_zero (sqrt : K → K) (b : BeamRK4 K R)
    (h0 : ∀ u v, b.magnetic_field.Interpolate u v = 0) :
    (BeamRK4.step_RK4 sqrt b).p = b.p := by
  ext <;> simp [BeamRK4.step_RK4, BeamRK4.get_dp_zero sqrt b h0]

theorem BeamRK4.step_RK4_x_zero (sqrt : K → K) (b : BeamRK4 K R)
    (h0 : ∀ u v, b.magnetic_field.Interpolate u v = 0) :
    (BeamRK4.step_RK4 sqrt b).x = b.x + b.p / b.p.M sqrt * b.dtau := by
  ext <;> simp [BeamRK4.step_RK4, BeamRK4.get_dp_zero sqrt b h0, BeamRK4.get_dx] <;> ring

/-- C1: in a field that vanishes everywhere and for a nonzero invariant mass
`M = p.M()`, `step_RK4` moves the position to `x + (p / M) * dtau` in all four
components and leaves the momentum unchanged; `step_next` of `runge_kutta.C`
does the same with `M = mass_e`. -/
theorem C1_zero_field_straight_line (sqrt : K → K) (b : BeamRK4 K R)
    (magnetic_field : K → K → K) (s : runge_kutta.StatePoint K)
    (hM : b.p.M sqrt ≠ 0)
    (h0 : ∀ u v, b.magnetic_field.Interpolate u v = 0)
    (h0' : ∀ u v, magnetic_field u v = 0) :
    ((BeamRK4.step_RK4 sqrt b).x = b.x + b.p / b.p.M sqrt * b.dtau
      ∧ (BeamRK4.step_RK4 sqrt b).p = b.p)
    ∧ ((runge_kutta.step_next magnetic_field s).x
        = s.x + s.p / runge_kutta.mass_e K * runge_kutta.dtau K
      ∧ (runge_kutta.step_next magnetic_field s).p = s.p) := by
  have _ := hM
  refine ⟨⟨BeamRK4.step_RK4_x_zero sqrt b h0, BeamRK4.step_RK4_p_zero sqrt b h0⟩, ?_, ?_⟩
  · ext <;> simp [runge_kutta.step_next, runge_kutta.lorentz_force, h0'] <;> ring
  · ext <;> simp [runge_kutta.step_next, runge_kutta.lorentz_force, h0']

theorem LorentzVector.M_real (v : LorentzVector ℝ) (m : ℝ) (hm : 0 ≤ m)
    (h : v.M2 = m * m) : v.M Real.sqrt = m := by
  unfold LorentzVector.M
  rw [h, if_pos (mul_nonneg hm hm)]
  exact Real.sqrt_mul_self hm

theorem Examples.beam_M (R : Type) (B dtau tau_final : ℝ) :
    (Examples.beam ℝ R B dtau tau_final).p.M Real.sqrt = 4 :=
  LorentzVector.M_real _ 4 (by norm_num) (by norm_num [Examples.beam, LorentzVector.M2])

/-- C1 at a concrete beam over the reals with the real square root: momentum
`(3, 0, 0)`, energy 5, hence mass 4, and `dtau = 8` in a vanishing field; the
position advances by `(3 / 4) * 8` along `x` and the momentum is unchanged. -/
theorem C1_zero_field_straight_line_witness :
    ((BeamRK4.step_RK4 Real.sqrt (Examples.beam ℝ (DrainRectangle ℝ) 0 8 10)).x
        = (Examples.beam ℝ (DrainRectangle ℝ) 0 8 10).x
          + (Examples.beam ℝ (DrainRectangle ℝ) 0 8 10).p / (4 : ℝ) * (8 : ℝ)
      ∧ (BeamRK4.step_RK4 Real.sqrt (Examples.beam ℝ (DrainRectangle ℝ) 0 8 10)).p
        = (Examples.beam ℝ (DrainRectangle ℝ) 0 8 10).p)
    ∧ ((runge_kutta.step_next (fun _ _ => (0 : ℝ)) ⟨⟨-2, 0, 0, 0⟩, ⟨3, 0, 0, 5⟩⟩).x
        = (⟨-2, 0, 0, 0⟩ : LorentzVector ℝ)
          + (⟨3, 0, 0, 5⟩ : LorentzVector ℝ) / runge_kutta.mass_e ℝ * runge_kutta.dtau ℝ
      ∧ (runge_kutta.step_next (fun _ _ => (0 : ℝ)) ⟨⟨-2, 0, 0, 0⟩, ⟨3, 0, 0, 5⟩⟩).p
        = ⟨3, 0, 0, 5⟩) := by
  have h := C1_zero_field_straight_line Real.sqrt (Examples.beam ℝ (DrainRectangle ℝ) 0 8 10)
    (fun _ _ => (0 : ℝ)) ⟨⟨-2, 0, 0, 0⟩, ⟨3, 0, 0, 5⟩⟩
    (by rw [Examples.beam_M]; norm_num) (fun _ _ => rfl) (fun _ _ => rfl)
  rw [Examples.beam_M] at h
  exact h

end ZeroField

/-! ## `step_RK4` is the classical scheme -/

section Classical

variable {K : Type} [LinearOrderedField K] {R : Type}

theorem BeamRK4.get_dx_eq (sqrt : K → K) (b : BeamRK4 K R) (x p : LorentzVector K) :
    BeamRK4.get_dx sqrt b p
      = b.dtau * (Spec.rhs b.charge (b.p.M sqrt) (Spec.B_of b) (x, p)).1 := by
  ext <;>
    simp only [BeamRK4.get_dx, Spec.pair_scale, Spec.rhs, LorentzVector.mul_X,
      LorentzVector.mul_Y, LorentzVector.mul_Z, LorentzVector.mul_T, LorentzVector.div_X,
      LorentzVector.div_Y, LorentzVector.div_Z, LorentzVector.div_T, LorentzVector.smul_X,
      LorentzVector.smul_Y, LorentzVector.smul_Z, LorentzVector.smul_T] <;> ring

theorem BeamRK4.get_dp_eq (sqrt : K → K) (b : BeamRK4 K R) (x p : LorentzVector K) :
    BeamRK4.get_dp sqrt b x p
      = b.dtau * (Spec.rhs b.charge (b.p.M sqrt) (Spec.B_of b) (x, p)).2 := by
  ext <;>
    simp only [BeamRK4.get_dp, Spec.pair_scale, Spec.rhs, Spec.B_of, LorentzVector.mul_X,
      LorentzVector.mul_Y, LorentzVector.mul_Z, LorentzVector.mul_T, LorentzVector.div_X,
      LorentzVector.div_Y, LorentzVector.div_Z, LorentzVector.div_T, LorentzVector.smul_X,
      LorentzVector.smul_Y, LorentzVector.smul_Z, LorentzVector.smul_T] <;> ring

theorem LorentzVector.half_eq (v : LorentzVector K) : v / (2 : K) = ((1 / 2 : K)) * v := by
  ext <;> simp only [LorentzVector.div_X, LorentzVector.div_Y, LorentzVector.div_Z,
    LorentzVector.div_T, LorentzVector.smul_X, LorentzVector.smul_Y, LorentzVector.smul_Z,
    LorentzVector.smul_T] <;> ring

theorem LorentzVector.sixth_eq (v : LorentzVector K) : v / (6 : K) = ((1 / 6 : K)) * v := by
  ext <;> simp only [LorentzVector.div_X, LorentzVector.div_Y, LorentzVector.div_Z,
    LorentzVector.div_T, LorentzVector.smul_X, LorentzVector.smul_Y, LorentzVector.smul_Z,
    LorentzVector.smul_T] <;> ring

theorem BeamRK4.step_RK4_eq_classical (sqrt : K → K) (b : BeamRK4 K R) :
    ((BeamRK4.step_RK4 sqrt b).x, (BeamRK4.step_RK4 sqrt b).p)
        = Spec.classical_RK4 (Spec.rhs b.charge (b.p.M sqrt) (Spec.B_of b)) b.dtau (b.x, b.p)
    ∧ (BeamRK4.step_RK4 sqrt b).field_samples
        = b.field_samples
          ++ Spec.stage_positions (Spec.rhs b.charge (b.p.M sqrt) (Spec.B_of b)) b.dtau
              (b.x, b.p) := by
  simp only [BeamRK4.step_RK4, Spec.classical_RK4, Spec.stage_positions, Spec.pair_add,
    Spec.pair_scale, LorentzVector.half_eq, LorentzVector.sixth_eq]
  rw [BeamRK4.get_dx_eq sqrt b b.x b.p, BeamRK4.get_dp_eq sqrt b b.x b.p]
  generalize Spec.rhs b.charge (b.p.M sqrt) (Spec.B_of b) (b.x, b.p) = f1
  rw [BeamRK4.get_dx_eq sqrt b (b.x + (1 / 2 : K) * (b.dtau * f1.1))
      (b.p + (1 / 2 : K) * (b.dtau * f1.2)),
    BeamRK4.get_dp_eq sqrt b (b.x + (1 / 2 : K) * (b.dtau * f1.1))
      (b.p + (1 / 2 : K) * (b.dtau * f1.2))]
  generalize Spec.rhs b.charge (b.p.M sqrt) (Spec.B_of b)
    (b.x + (1 / 2 : K) * (b.dtau * f1.1), b.p + (1 / 2 : K) * (b.dtau * f1.2)) = f2
  rw [BeamRK4.get_dx_eq sqrt b (b.x + (1 / 2 : K) * (b.dtau * f2.1))
      (b.p + (1 / 2 : K) * (b.dtau * f2.2)),
    BeamRK4.get_dp_eq sqrt b (b.x + (1 / 2 : K) * (b.dtau * f2.1))
      (b.p + (1 / 2 : K) * (b.dtau * f2.2))]
  generalize Spec.rhs b.charge (b.p.M sqrt) (Spec.B_of b)
    (b.x + (1 / 2 : K) * (b.dtau * f2.1), b.p + (1 / 2 : K) * (b.dtau * f2.2)) = f3
  rw [BeamRK4.get_dx_eq sqrt b (b.x + b.dtau * f3.1) (b.p + b.dtau * f3.2),
    BeamRK4.get_dp_eq sqrt b (b.x + b.dtau * f3.1) (b.p + b.dtau * f3.2)]
  exact ⟨rfl, rfl⟩

theorem runge_kutta.dx_eq (magnetic_field : K → K → K) (x p : LorentzVector K) :
    p / runge_kutta.mass_e K * runge_kutta.dtau K
      = runge_kutta.dtau K * (Spec.rhs (runge_kutta.charge_e K) (runge_kutta.mass_e K)
          (fun x => magnetic_field x.X x.Y) (x, p)).1 := by
  ext <;>
    simp only [Spec.rhs, LorentzVector.mul_X,
      LorentzVector.mul_Y, LorentzVector.mul_Z, LorentzVector.mul_T, LorentzVector.div_X,
      LorentzVector.div_Y, LorentzVector.div_Z, LorentzVector.div_T, LorentzVector.smul_X,
      LorentzVector.smul_Y, LorentzVector.smul_Z, LorentzVector.smul_T] <;> ring

theorem runge_kutta.dp_eq (magnetic_field : K → K → K) (x p : LorentzVector K) :
    runge_kutta.lorentz_force magnetic_field x (p / runge_kutta.mass_e K) * runge_kutta.dtau K
      = runge_kutta.dtau K * (Spec.rhs (runge_kutta.charge_e K) (runge_kutta.mass_e K)
          (fun x => magnetic_field x.X x.Y) (x, p)).2 := by
  ext <;>
    simp only [runge_kutta.lorentz_force, Spec.rhs, LorentzVector.mul_X,
      LorentzVector.mul_Y, LorentzVector.mul_Z, LorentzVector.mul_T, LorentzVector.div_X,
      LorentzVector.div_Y, LorentzVector.div_Z, LorentzVector.div_T, LorentzVector.smul_X,
      LorentzVector.smul_Y, LorentzVector.smul_Z, LorentzVector.smul_T] <;> ring

theorem runge_kutta.step_next_eq_classical (magnetic_field : K → K → K)
    (s : runge_kutta.StatePoint K) :
    ((runge_kutta.step_next magnetic_field s).x, (runge_kutta.step_next magnetic_field s).p)
        = Spec.classical_RK4
            (Spec.rhs (runge_kutta.charge_e K) (runge_kutta.mass_e K)
              (fun x => magnetic_field x.X x.Y))
            (runge_kutta.dtau K) (s.x, s.p) := by
  simp only [runge_kutta.step_next, Spec.classical_RK4, Spec.pair_add,
    Spec.pair_scale, LorentzVector.half_eq, LorentzVector.sixth_eq]
  rw [runge_kutta.dx_eq magnetic_field s.x s.p, runge_kutta.dp_eq magnetic_field s.x s.p]
  generalize Spec.rhs (runge_kutta.charge_e K) (runge_kutta.mass_e K)
    (fun x => magnetic_field x.X x.Y) (s.x, s.p) = f1
  rw [runge_kutta.dx_eq magnetic_field (s.x + (1 / 2 : K) * (runge_kutta.dtau K * f1.1))
      (s.p + (1 / 2 : K) * (runge_kutta.dtau K * f1.2)),
    runge_kutta.dp_eq magnetic_field (s.x + (1 / 2 : K) * (runge_kutta.dtau K * f1.1))
      (s.p + (1 / 2 : K) * (runge_kutta.dtau K * f1.2))]
  generalize Spec.rhs (runge_kutta.charge_e K) (runge_kutta.mass_e K)
    (fun x => magnetic_field x.X x.Y) (s.x + (1 / 2 : K) * (runge_kutta.dtau K * f1.1),
      s.p + (1 / 2 : K) * (runge_kutta.dtau K * f1.2)) = f2
  rw [runge_kutta.dx_eq magnetic_field (s.x + (1 / 2 : K) * (runge_kutta.dtau K * f2.1))
      (s.p + (1 / 2 : K) * (runge_kutta.dtau K * f2.2)),
    runge_kutta.dp_eq magnetic_field (s.x + (1 / 2 : K) * (runge_kutta.dtau K * f2.1))
      (s.p + (1 / 2 : K) * (runge_kutta.dtau K * f2.2))]
  generalize Spec.rhs (runge_kutta.charge_e K) (runge_kutta.mass_e K)
    (fun x => magnetic_field x.X x.Y) (s.x + (1 / 2 : K) * (runge_kutta.dtau K * f2.1),
      s.p + (1 / 2 : K) * (runge_kutta.dtau K * f2.2)) = f3
  rw [runge_kutta.dx_eq magnetic_field (s.x + runge_kutta.dtau K * f3.1)
      (s.p + runge_kutta.dtau K * f3.2),
    runge_kutta.dp_eq magnetic_field (s.x + runge_kutta.dtau K * f3.1)
      (s.p + runge_kutta.dtau K * f3.2)]

/-- C2: `step_RK4` is one classical RK4 step of `dx/dtau = p / m`,
`dp/dtau = q * B(x) * (p_y, -p_x, 0, 0) / m` with step `dtau`, where
`B(x) = Interpolate(x.X / length_unit, x.Y / length_unit) * magnetic_field_unit`
and `m` is `p.M()` at the start of the step; it samples the field exactly four
times, at the positions of the four stages. `step_next` of `runge_kutta.C` is
the same scheme with `m = mass_e`, `q = charge_e` and unit factors 1. -/
theorem C2_step_RK4_is_classical_RK4 (sqrt : K → K) (b : BeamRK4 K R)
    (magnetic_field : K → K → K) (s : runge_kutta.StatePoint K) :
    ((BeamRK4.step_RK4 sqrt b).x, (BeamRK4.step_RK4 sqrt b).p)
        = Spec.classical_RK4 (Spec.rhs b.charge (b.p.M sqrt) (Spec.B_of b)) b.dtau (b.x, b.p)
    ∧ (BeamRK4.step_RK4 sqrt b).field_samples
        = b.field_samples
          ++ Spec.stage_positions (Spec.rhs b.charge (b.p.M sqrt) (Spec.B_of b)) b.dtau (b.x, b.p)
    ∧ (BeamRK4.step_RK4 sqrt b).field_samples.length = b.field_samples.length + 4
    ∧ ((runge_kutta.step_next magnetic_field s).x, (runge_kutta.step_next magnetic_field s).p)
        = Spec.classical_RK4
            (Spec.rhs (runge_kutta.charge_e K) (runge_kutta.mass_e K)
              (fun x => magnetic_field x.X x.Y))
            (runge_kutta.dtau K) (s.x, s.p) :=
  ⟨(BeamRK4.step_RK4_eq_classical sqrt b).1, (BeamRK4.step_RK4_eq_classical sqrt b).2,
    by simp [BeamRK4.step_RK4], runge_kutta.step_next_eq_classical magnetic_field s⟩

end Classical

/-! ## The termination predicate -/

section Termination

variable {K : Type} [LinearOrderedField K]

theorem BeamRK4.is_anihilated_time (b : BeamRK4 K (DrainRectangle K)) (h : b.time_limit) :
    b.is_anihilated = (true, b) := by
  simp [BeamRK4.is_anihilated, h]

theorem BeamRK4.is_anihilated_outside (b : BeamRK4 K (DrainRectangle K)) (h : b.outside) :
    b.is_anihilated = (true, b) := by
  by_cases ht : b.time_limit <;> simp [BeamRK4.is_anihilated, h, ht]

theorem BeamRK4.is_anihilated_inside (b : BeamRK4 K (DrainRectangle K))
    (ht : ¬ b.time_limit) (ho : ¬ b.outside) :
    b.is_anihilated = b.drain_loop b.drain_rectangles := by
  simp [BeamRK4.is_anihilated, ho, ht]

theorem lense.anihilated_of_time (b : BeamRK4 K (lense.DrainRectangle K)) (h : b.time_limit) :
    lense.is_anihilated b = (true, b) := by
  simp [lense.is_anihilated, h]

theorem lense.anihilated_of_outside (b : BeamRK4 K (lense.DrainRectangle K)) (h : b.outside) :
    lense.is_anihilated b = (true, b) := by
  by_cases ht : b.time_limit <;> simp [lense.is_anihilated, h, ht]

/-- C3: `is_anihilated` tests the time limit first, then the boundary, then
the absorbers: when `tau_index * dtau > tau_final` it returns true and leaves
the beam as it was, whatever the position and the absorbers; otherwise, when the
position is within `edge_margin` of the box or outside, it returns true and
leaves the beam as it was, whatever the absorbers; so `anihilation_type` is only
changed when neither test holds. The same holds in the lense variant for the
histograms of the detectors. -/
theorem C3_check_priority (b : BeamRK4 K (DrainRectangle K))
    (l : BeamRK4 K (lense.DrainRectangle K)) :
    (b.time_limit → b.is_anihilated = (true, b))
    ∧ (¬ b.time_limit → b.outside → b.is_anihilated = (true, b))
    ∧ (b.is_anihilated.2.anihilation_type ≠ b.anihilation_type →
        ¬ b.time_limit ∧ ¬ b.outside)
    ∧ (l.time_limit → lense.is_anihilated l = (true, l))
    ∧ (¬ l.time_limit → l.outside → lense.is_anihilated l = (true, l))
    ∧ ((lense.is_anihilated l).2.drain_rectangles ≠ l.drain_rectangles →
        ¬ l.time_limit ∧ ¬ l.outside) := by
  refine ⟨BeamRK4.is_anihilated_time b, fun _ h => BeamRK4.is_anihilated_outside b h, ?_,
    lense.anihilated_of_time l, fun _ h => lense.anihilated_of_outside l h, ?_⟩
  · intro hne
    constructor
    · intro h
      exact hne (by rw [BeamRK4.is_anihilated_time b h])
    · intro h
      exact hne (by rw [BeamRK4.is_anihilated_outside b h])
  · intro hne
    constructor
    · intro h
      exact hne (by rw [lense.anihilated_of_time l h])
    · intro h
      exact hne (by rw [lense.anihilated_of_outside l h])

/-- C3 at concrete beams: a beam past the time limit, outside the box and
inside a rectangle is reported with nothing written; so is a beam within the
time limit that sits on the edge of the box inside a rectangle; likewise in the
lense variant, where the detector is not filled; and the beams whose tag or
histogram does change pass both tests. -/
theorem C3_check_priority_witness :
    (Examples.probe ℚ 5 0 11).is_anihilated = (true, Examples.probe ℚ 5 0 11)
    ∧ (Examples.probe ℚ 4 1 1).is_anihilated = (true, Examples.probe ℚ 4 1 1)
    ∧ lense.is_anihilated (Examples.lense_probe ℚ 0 0 11) = (true, Examples.lense_probe ℚ 0 0 11)
    ∧ lense.is_anihilated (Examples.lense_probe ℚ (-4) 0 1)
        = (true, Examples.lense_probe ℚ (-4) 0 1)
    ∧ (¬ (Examples.probe ℚ 1 1 1).time_limit ∧ ¬ (Examples.probe ℚ 1 1 1).outside)
    ∧ (¬ (Examples.lense_probe ℚ (-3) 0 1).time_limit
        ∧ ¬ (Examples.lense_probe ℚ (-3) 0 1).outside) :=
  ⟨(C3_check_priority (Examples.probe ℚ 5 0 11) (Examples.lense_probe ℚ 0 0 11)).1
      (by norm_num [BeamRK4.time_limit, Examples.probe, Examples.beam]),
    (C3_check_priority (Examples.probe ℚ 4 1 1) (Examples.lense_probe ℚ (-4) 0 1)).2.1
      (by norm_num [BeamRK4.time_limit, Examples.probe, Examples.beam])
      (by norm_num [BeamRK4.outside, Examples.probe, Examples.beam, Examples.uniform_field,
        edge_margin]),
    (C3_check_priority (Examples.probe ℚ 5 0 11) (Examples.lense_probe ℚ 0 0 11)).2.2.2.1
      (by norm_num [BeamRK4.time_limit, Examples.lense_probe, Examples.beam]),
    (C3_check_priority (Examples.probe ℚ 4 1 1) (Examples.lense_probe ℚ (-4) 0 1)).2.2.2.2.1
      (by norm_num [BeamRK4.time_limit, Examples.lense_probe, Examples.beam])
      (by norm_num [BeamRK4.outside, Examples.lense_probe, Examples.beam,
        Examples.uniform_field, edge_margin]),
    (C3_check_priority (Examples.probe ℚ 1 1 1) (Examples.lense_probe ℚ (-3) 0 1)).2.2.1
      (by norm_num [BeamRK4.is_anihilated, BeamRK4.drain_loop, DrainRectangle.is_collided,
        BeamRK4.time_limit, BeamRK4.outside, Examples.probe, Examples.beam,
        Examples.uniform_field, Examples.overlapping, edge_margin]),
    (C3_check_priority (Examples.probe ℚ 1 1 1) (Examples.lense_probe ℚ (-3) 0 1)).2.2.2.2.2
      (by norm_num [lense.is_anihilated, lense.any_of, lense.DrainRectangle.is_collided,
        BeamRK4.time_limit, BeamRK4.outside, Examples.lense_probe, Examples.beam,
        Examples.uniform_field, Examples.lense_rectangles, edge_margin, LorentzVector.E])⟩

theorem BeamRK4.drain_loop_find (b : BeamRK4 K (DrainRectangle K))
    (rs : List (DrainRectangle K)) :
    b.drain_loop rs
      = match rs.find? (fun r => r.is_collided b) with
        | some r => (true, { b with anihilation_type := r.anihilation_type })
        | none => (false, b) := by
  induction rs with
  | nil => rfl
  | cons r rs ih =>
    by_cases h : r.is_collided b = true
    · simp [BeamRK4.drain_loop, List.find?, h]
    · simp only [Bool.not_eq_true] at h
      simp [BeamRK4.drain_loop, List.find?, h, ih]

/-- C4: for a beam on which neither the time-limit nor the boundary test
holds, `is_anihilated` returns true and writes the tag of the first rectangle
of `drain_rectangles` that contains the position, if there is one (such a first
rectangle exists as soon as some rectangle contains the position), and returns
false leaving the beam unchanged if there is none; `add_drain_rectangle`
appends, so the order of the list is the order of insertion. -/
theorem C4_first_match (b : BeamRK4 K (DrainRectangle K))
    (ht : ¬ b.time_limit) (ho : ¬ b.outside) :
    (∀ r, b.drain_rectangles.find? (fun r => r.is_collided b) = some r →
        b.is_anihilated = (true, { b with anihilation_type := r.anihilation_type }))
    ∧ ((∃ r ∈ b.drain_rectangles, r.is_collided b = true) →
        ∃ pre r post, b.drain_rectangles = pre ++ r :: post
          ∧ (∀ r' ∈ pre, r'.is_collided b = false) ∧ r.is_collided b = true
          ∧ b.is_anihilated = (true, { b with anihilation_type := r.anihilation_type }))
    ∧ ((∀ r ∈ b.drain_rectangles, r.is_collided b = false) → b.is_anihilated = (false, b))
    ∧ (∀ r, (b.add_drain_rectangle r).drain_rectangles = b.drain_rectangles ++ [r]) := by
  rw [BeamRK4.is_anihilated_inside b ht ho, BeamRK4.drain_loop_find]
  refine ⟨?_, ?_, ?_, fun _ => rfl⟩
  · intro r hr
    rw [hr]
  · rintro ⟨r0, hr0, hc0⟩
    cases hf : b.drain_rectangles.find? (fun r => r.is_collided b) with
    | none =>
      rw [List.find?_eq_none] at hf
      exact absurd hc0 (hf r0 hr0)
    | some r =>
      obtain ⟨hc, pre, post, hsplit, hpre⟩ := List.find?_eq_some.mp hf
      refine ⟨pre, r, post, hsplit, ?_, hc, rfl⟩
      intro r' hr'
      simpa using hpre r' hr'
  · intro hnone
    have hf : b.drain_rectangles.find? (fun r => r.is_collided b) = none := by
      rw [List.find?_eq_none]
      intro r hr
      simp [hnone r hr]
    rw [hf]

/-- C4 at concrete beams with two overlapping rectangles tagged 7 and 9: in
the overlap the tag 7 of the first inserted rectangle is written, and away from
both rectangles the result is false with the beam unchanged. -/
theorem C4_first_match_witness :
    (Examples.probe ℚ (1 / 2) (1 / 2) 1).is_anihilated
        = (true, { Examples.probe ℚ (1 / 2) (1 / 2) 1 with anihilation_type := 7 })
    ∧ (Examples.probe ℚ (-2) (-2) 1).is_anihilated = (false, Examples.probe ℚ (-2) (-2) 1) :=
  ⟨(C4_first_match (Examples.probe ℚ (1 / 2) (1 / 2) 1)
      (by norm_num [BeamRK4.time_limit, Examples.probe, Examples.beam])
      (by norm_num [BeamRK4.outside, Examples.probe, Examples.beam, Examples.uniform_field,
        edge_margin])).1 ⟨-1, 1, -1, 1, 1, 7⟩
      (by norm_num [Examples.probe, Examples.overlapping, List.find?,
        DrainRectangle.is_collided]),
    (C4_first_match (Examples.probe ℚ (-2) (-2) 1)
      (by norm_num [BeamRK4.time_limit, Examples.probe, Examples.beam])
      (by norm_num [BeamRK4.outside, Examples.probe, Examples.beam, Examples.uniform_field,
        edge_margin])).2.2.1
      (by norm_num [Examples.probe, Examples.overlapping, DrainRectangle.is_collided])⟩

theorem BeamRK4.outside_iff {R : Type} (b : BeamRK4 K R) :
    b.outside ↔ ¬ Spec.strictly_inside b := by
  unfold BeamRK4.outside Spec.strictly_inside
  constructor
  · rintro (h | h | h | h) ⟨h1, h2, h3, h4⟩ <;> linarith
  · intro h
    by_contra hc
    simp only [not_or, not_le] at hc
    obtain ⟨c1, c2, c3, c4⟩ := hc
    exact h ⟨by linarith, by linarith, by linarith, by linarith⟩

theorem lense.any_of_none (b : BeamRK4 K (lense.DrainRectangle K))
    (rs : List (lense.DrainRectangle K))
    (h : ∀ r ∈ rs, (r.is_collided b).1 = false) : (lense.any_of b rs).1 = false := by
  induction rs with
  | nil => rfl
  | cons r rs ih =>
    have hr := h r (List.mem_cons_self r rs)
    have ht := ih (fun r' hr' => h r' (List.mem_cons_of_mem r hr'))
    simp [lense.any_of, hr, ht]

theorem BeamRK4.is_anihilated_iff_outside (b : BeamRK4 K (DrainRectangle K))
    (ht : ¬ b.time_limit) (hn : ∀ r ∈ b.drain_rectangles, r.is_collided b = false) :
    b.is_anihilated.1 = true ↔ b.outside := by
  by_cases ho : b.outside
  · simp [BeamRK4.is_anihilated_outside b ho, ho]
  · have hf : b.drain_rectangles.find? (fun r => r.is_collided b) = none := by
      rw [List.find?_eq_none]
      intro r hr
      simp [hn r hr]
    rw [BeamRK4.is_anihilated_inside b ht ho, BeamRK4.drain_loop_find, hf]
    simp [ho]

theorem lense.anihilated_iff_outside (l : BeamRK4 K (lense.DrainRectangle K))
    (ht : ¬ l.time_limit) (hn : ∀ r ∈ l.drain_rectangles, (r.is_collided l).1 = false) :
    (lense.is_anihilated l).1 = true ↔ l.outside := by
  by_cases ho : l.outside
  · simp [lense.anihilated_of_outside l ho, ho]
  · simp [lense.is_anihilated, ht, ho, lense.any_of_none l l.drain_rectangles hn]

/-- C5, as amended: in exact arithmetic, with the time limit not exceeded and
no absorber containing the position, `is_anihilated` returns true exactly when
the position is not strictly more than `edge_margin` inside all four sides of
the box scaled by `length_unit`; a position exactly `edge_margin` inside one
side is reported, and a position at least `edge_margin + eps` inside every
side, `eps > 0`, is not. The same holds for `is_anihilated` of the lense
variant. -/
theorem C5_boundary_margin (b : BeamRK4 K (DrainRectangle K))
    (l : BeamRK4 K (lense.DrainRectangle K))
    (ht : ¬ b.time_limit) (hn : ∀ r ∈ b.drain_rectangles, r.is_collided b = false)
    (ht' : ¬ l.time_limit) (hn' : ∀ r ∈ l.drain_rectangles, (r.is_collided l).1 = false) :
    ((b.is_anihilated.1 = true ↔ ¬ Spec.strictly_inside b)
      ∧ ((b.x.X = b.magnetic_field.Xmin * b.length_unit + edge_margin K
          ∨ b.x.X = b.magnetic_field.Xmax * b.length_unit - edge_margin K
          ∨ b.x.Y = b.magnetic_field.Ymin * b.length_unit + edge_margin K
          ∨ b.x.Y = b.magnetic_field.Ymax * b.length_unit - edge_margin K) →
          b.is_anihilated.1 = true)
      ∧ (∀ eps : K, 0 < eps →
          b.magnetic_field.Xmin * b.length_unit + (edge_margin K + eps) ≤ b.x.X →
          b.x.X ≤ b.magnetic_field.Xmax * b.length_unit - (edge_margin K + eps) →
          b.magnetic_field.Ymin * b.length_unit + (edge_margin K + eps) ≤ b.x.Y →
          b.x.Y ≤ b.magnetic_field.Ymax * b.length_unit - (edge_margin K + eps) →
          b.is_anihilated.1 = false))
    ∧ (((lense.is_anihilated l).1 = true ↔ ¬ Spec.strictly_inside l)
      ∧ ((l.x.X = l.magnetic_field.Xmin * l.length_unit + edge_margin K
          ∨ l.x.X = l.magnetic_field.Xmax * l.length_unit - edge_margin K
          ∨ l.x.Y = l.magnetic_field.Ymin * l.length_unit + edge_margin K
          ∨ l.x.Y = l.magnetic_field.Ymax * l.length_unit - edge_margin K) →
          (lense.is_anihilated l).1 = true)
      ∧ (∀ eps : K, 0 < eps →
          l.magnetic_field.Xmin * l.length_unit + (edge_margin K + eps) ≤ l.x.X →
          l.x.X ≤ l.magnetic_field.Xmax * l.length_unit - (edge_margin K + eps) →
          l.magnetic_field.Ymin * l.length_unit + (edge_margin K + eps) ≤ l.x.Y →
          l.x.Y ≤ l.magnetic_field.Ymax * l.length_unit - (edge_margin K + eps) →
          (lense.is_anihilated l).1 = false)) := by
  have hb := (BeamRK4.is_anihilated_iff_outside b ht hn).trans (BeamRK4.outside_iff b)
  have hl := (lense.anihilated_iff_outside l ht' hn').trans (BeamRK4.outside_iff l)
  refine ⟨⟨hb, ?_, ?_⟩, ⟨hl, ?_, ?_⟩⟩
  · intro h
    rw [hb]
    rintro ⟨h1, h2, h3, h4⟩
    rcases h with h | h | h | h <;> linarith
  · intro eps he h1 h2 h3 h4
    have hin : Spec.strictly_inside b :=
      ⟨by linarith, by linarith, by linarith, by linarith⟩
    cases hv : b.is_anihilated.1 with
    | false => rfl
    | true => exact absurd hin (hb.mp hv)
  · intro h
    rw [hl]
    rintro ⟨h1, h2, h3, h4⟩
    rcases h with h | h | h | h <;> linarith
  · intro eps he h1 h2 h3 h4
    have hin : Spec.strictly_inside l :=
      ⟨by linarith, by linarith, by linarith, by linarith⟩
    cases hv : (lense.is_anihilated l).1 with
    | false => rfl
    | true => exact absurd hin (hl.mp hv)

/-- C5, as amended, at concrete beams in the box `[-4, 4] × [-4, 4]` with `length_unit = 1`:
the position `(-4 + 0.005, -3)`, exactly `edge_margin` inside the left side, is
reported in both variants, and the position `(3, -3)`, more than `edge_margin + 0.5` inside every
side, is not; both are away from the rectangles. -/
theorem C5_boundary_margin_witness :
    (Examples.probe ℚ (-4 + 0.005) (-3) 1).is_anihilated.1 = true
    ∧ (lense.is_anihilated (Examples.lense_probe ℚ (-4 + 0.005) (-3) 1)).1 = true
    ∧ (Examples.probe ℚ 3 (-3) 1).is_anihilated.1 = false :=
  ⟨(C5_boundary_margin (Examples.probe ℚ (-4 + 0.005) (-3) 1)
      (Examples.lense_probe ℚ (-4 + 0.005) (-3) 1)
      (by norm_num [BeamRK4.time_limit, Examples.probe, Examples.beam])
      (by norm_num [Examples.probe, Examples.overlapping, DrainRectangle.is_collided])
      (by norm_num [BeamRK4.time_limit, Examples.lense_probe, Examples.beam])
      (by norm_num [Examples.lense_probe, Examples.lense_rectangles,
        lense.DrainRectangle.is_collided])).1.2.1
      (Or.inl (by norm_num [Examples.probe, Examples.beam, Examples.uniform_field,
        edge_margin])),
    (C5_boundary_margin (Examples.probe ℚ (-4 + 0.005) (-3) 1)
      (Examples.lense_probe ℚ (-4 + 0.005) (-3) 1)
      (by norm_num [BeamRK4.time_limit, Examples.probe, Examples.beam])
      (by norm_num [Examples.probe, Examples.overlapping, DrainRectangle.is_collided])
      (by norm_num [BeamRK4.time_limit, Examples.lense_probe, Examples.beam])
      (by norm_num [Examples.lense_probe, Examples.lense_rectangles,
        lense.DrainRectangle.is_collided])).2.2.1
      (Or.inl (by norm_num [Examples.lense_probe, Examples.beam, Examples.uniform_field,
        edge_margin])),
    (C5_boundary_margin (Examples.probe ℚ 3 (-3) 1) (Examples.lense_probe ℚ (-4 + 0.005) (-3) 1)
      (by norm_num [BeamRK4.time_limit, Examples.probe, Examples.beam])
      (by norm_num [Examples.probe, Examples.overlapping, DrainRectangle.is_collided])
      (by norm_num [BeamRK4.time_limit, Examples.lense_probe, Examples.beam])
      (by norm_num [Examples.lense_probe, Examples.lense_rectangles,
        lense.DrainRectangle.is_collided])).1.2.2 (1 / 2) (by norm_num)
      (by norm_num [Examples.probe, Examples.beam, Examples.uniform_field, edge_margin])
      (by norm_num [Examples.probe, Examples.beam, Examples.uniform_field, edge_margin])
      (by norm_num [Examples.probe, Examples.beam, Examples.uniform_field, edge_margin])
      (by norm_num [Examples.probe, Examples.beam, Examples.uniform_field, edge_margin])⟩

end Termination

/-! ## Where the field is sampled -/

section Samples

variable {K : Type} [LinearOrderedField K]

theorem edge_margin_pos : 0 < edge_margin K := by
  unfold edge_margin
  norm_num

theorem BeamRK4.new_samples {R : Type} (sqrt : K → K) (b : BeamRK4 K R) :
    (BeamRK4.step_RK4 sqrt b).field_samples.drop b.field_samples.length
      = [b.x, b.x + BeamRK4.get_dx sqrt b b.p / (2 : K),
          b.x + BeamRK4.get_dx sqrt b (b.p + BeamRK4.get_dp sqrt b b.x b.p / (2 : K)) / (2 : K),
          b.x + BeamRK4.get_dx sqrt b (b.p + BeamRK4.get_dp sqrt b
            (b.x + BeamRK4.get_dx sqrt b b.p / (2 : K))
            (b.p + BeamRK4.get_dp sqrt b b.x b.p / (2 : K)) / (2 : K))] := by
  simp [BeamRK4.step_RK4]

theorem BeamRK4.near_in_box {R : Type} (b : BeamRK4 K R) (ho : ¬ b.outside)
    (s : LorentzVector K) (hx : |s.X - b.x.X| ≤ edge_margin K)
    (hy : |s.Y - b.x.Y| ≤ edge_margin K) : Spec.in_box b s := by
  have hin : Spec.strictly_inside b := by
    by_contra hc
    exact ho ((BeamRK4.outside_iff b).mpr hc)
  obtain ⟨h1, h2, h3, h4⟩ := hin
  have hx' := abs_le.mp hx
  have hy' := abs_le.mp hy
  exact ⟨by linarith [hx'.1], by linarith [hx'.2], by linarith [hy'.1], by linarith [hy'.2]⟩

/-- C6, as amended: when the termination check does not fire, the first of
the four positions at which the following `step_RK4` samples the field is the
current position and lies more than `edge_margin` inside every side of the grid
box; each of the four positions lies inside the box if it is at most
`edge_margin` away from the current position in `X` and in `Y`. Holds for both
variants of `is_anihilated`. -/
theorem C6_samples_near_position_inside (sqrt : K → K) (b : BeamRK4 K (DrainRectangle K))
    (l : BeamRK4 K (lense.DrainRectangle K))
    (hb : b.is_anihilated.1 = false) (hl : (lense.is_anihilated l).1 = false) :
    ((BeamRK4.step_RK4 sqrt b).field_samples.length = b.field_samples.length + 4
      ∧ ((BeamRK4.step_RK4 sqrt b).field_samples.drop b.field_samples.length).head? = some b.x
      ∧ Spec.strictly_inside b ∧ Spec.in_box b b.x
      ∧ ∀ s ∈ (BeamRK4.step_RK4 sqrt b).field_samples.drop b.field_samples.length,
          |s.X - b.x.X| ≤ edge_margin K → |s.Y - b.x.Y| ≤ edge_margin K → Spec.in_box b s)
    ∧ ((BeamRK4.step_RK4 sqrt l).field_samples.length = l.field_samples.length + 4
      ∧ ((BeamRK4.step_RK4 sqrt l).field_samples.drop l.field_samples.length).head? = some l.x
      ∧ Spec.strictly_inside l ∧ Spec.in_box l l.x
      ∧ ∀ s ∈ (BeamRK4.step_RK4 sqrt l).field_samples.drop l.field_samples.length,
          |s.X - l.x.X| ≤ edge_margin K → |s.Y - l.x.Y| ≤ edge_margin K → Spec.in_box l s) := by
  have hob : ¬ b.outside := by
    intro h
    rw [BeamRK4.is_anihilated_outside b h] at hb
    exact Bool.noConfusion hb
  have hol : ¬ l.outside := by
    intro h
    rw [lense.anihilated_of_outside l h] at hl
    exact Bool.noConfusion hl
  have key : ∀ {R : Type} (c : BeamRK4 K R), ¬ c.outside →
      (BeamRK4.step_RK4 sqrt c).field_samples.length = c.field_samples.length + 4
      ∧ ((BeamRK4.step_RK4 sqrt c).field_samples.drop c.field_samples.length).head? = some c.x
      ∧ Spec.strictly_inside c ∧ Spec.in_box c c.x
      ∧ ∀ s ∈ (BeamRK4.step_RK4 sqrt c).field_samples.drop c.field_samples.length,
          |s.X - c.x.X| ≤ edge_margin K → |s.Y - c.x.Y| ≤ edge_margin K → Spec.in_box c s := by
    intro R c hc
    have hpos : (0 : K) ≤ edge_margin K := le_of_lt edge_margin_pos
    refine ⟨by simp [BeamRK4.step_RK4], by rw [BeamRK4.new_samples]; rfl, ?_, ?_, ?_⟩
    · by_contra hn
      exact hc ((BeamRK4.outside_iff c).mpr hn)
    · exact BeamRK4.near_in_box c hc c.x (by simpa using hpos) (by simpa using hpos)
    · intro s _ hx hy
      exact BeamRK4.near_in_box c hc s hx hy
  exact ⟨key b hob, key l hol⟩

theorem Examples.started_M (R : Type) (B dtau tau_final : ℝ) :
    (Examples.started ℝ R B dtau tau_final).p.M Real.sqrt = 4 :=
  Examples.beam_M R B dtau tau_final

/-- C6 as stated fails: the beam `started` with momentum `(3, 0, 0)`, mass 4
and `dtau = 16` in the box `[-4, 4] × [-4, 4]` passes the termination check at
the origin, and the second sample of the following step is taken at `X = 6`,
outside the box. -/
theorem C6_sample_outside_box :
    (Examples.started ℝ (DrainRectangle ℝ) 0 16 100).is_anihilated.1 = false
    ∧ ∃ s ∈ (BeamRK4.step_RK4 Real.sqrt
          (Examples.started ℝ (DrainRectangle ℝ) 0 16 100)).field_samples.drop
            (Examples.started ℝ (DrainRectangle ℝ) 0 16 100).field_samples.length,
        s.X = 6 ∧ ¬ Spec.in_box (Examples.started ℝ (DrainRectangle ℝ) 0 16 100) s := by
  constructor
  · norm_num [BeamRK4.is_anihilated, BeamRK4.time_limit, BeamRK4.outside, BeamRK4.drain_loop,
      BeamRK4.plot_orbit_point, Examples.started, Examples.beam, Examples.uniform_field,
      edge_margin, wrap32]
  · rw [BeamRK4.new_samples]
    refine ⟨_, List.mem_cons_of_mem _ (List.mem_cons_self _ _), ?_⟩
    have hX : ((Examples.started ℝ (DrainRectangle ℝ) 0 16 100).x
        + BeamRK4.get_dx Real.sqrt (Examples.started ℝ (DrainRectangle ℝ) 0 16 100)
            (Examples.started ℝ (DrainRectangle ℝ) 0 16 100).p / (2 : ℝ)).X = 6 := by
      simp only [BeamRK4.get_dx, Examples.started_M]
      norm_num [BeamRK4.plot_orbit_point, Examples.started, Examples.beam]
    refine ⟨hX, ?_⟩
    unfold Spec.in_box
    rw [hX]
    norm_num [BeamRK4.plot_orbit_point, Examples.started, Examples.beam, Examples.uniform_field]

/-- C6, as amended, at a concrete beam: with `dtau = 1 / 1000` the second
sample of the step is 0.000375 away from the current position and lies inside
the box. -/
theorem C6_samples_near_position_inside_witness :
    Spec.in_box (Examples.started ℝ (DrainRectangle ℝ) 0 (1 / 1000) 10)
      ((Examples.started ℝ (DrainRectangle ℝ) 0 (1 / 1000) 10).x
        + BeamRK4.get_dx Real.sqrt (Examples.started ℝ (DrainRectangle ℝ) 0 (1 / 1000) 10)
            (Examples.started ℝ (DrainRectangle ℝ) 0 (1 / 1000) 10).p / (2 : ℝ)) :=
  (C6_samples_near_position_inside Real.sqrt
    (Examples.started ℝ (DrainRectangle ℝ) 0 (1 / 1000) 10)
    (Examples.started ℝ (lense.DrainRectangle ℝ) 0 (1 / 1000) 10)
    (by norm_num [BeamRK4.is_anihilated, BeamRK4.time_limit, BeamRK4.outside,
      BeamRK4.drain_loop, BeamRK4.plot_orbit_point, Examples.started, Examples.beam,
      Examples.uniform_field, edge_margin, wrap32])
    (by norm_num [lense.is_anihilated, BeamRK4.time_limit, BeamRK4.outside,
      lense.any_of, BeamRK4.plot_orbit_point, Examples.started, Examples.beam,
      Examples.uniform_field, edge_margin, wrap32])).1.2.2.2.2 _
    (by rw [BeamRK4.new_samples]; exact List.mem_cons_of_mem _ (List.mem_cons_self _ _))
    (by
      simp only [BeamRK4.get_dx, Examples.started_M]
      norm_num [BeamRK4.plot_orbit_point, Examples.started, Examples.beam, edge_margin, abs_le])
    (by
      simp only [BeamRK4.get_dx, Examples.started_M]
      norm_num [BeamRK4.plot_orbit_point, Examples.started, Examples.beam, edge_margin, abs_le])

end Samples

/-! ## The mass divisor -/

section Mass

variable {K : Type} [LinearOrderedField K] {R : Type}

theorem BeamRK4.step_RK4_p_T (sqrt : K → K) (b : BeamRK4 K R) :
    (BeamRK4.step_RK4 sqrt b).p.T = b.p.T := by
  simp [BeamRK4.step_RK4, BeamRK4.get_dp]

theorem BeamRK4.step_RK4_p_Z (sqrt : K → K) (b : BeamRK4 K R) :
    (BeamRK4.step_RK4 sqrt b).p.Z = b.p.Z := by
  simp [BeamRK4.step_RK4, BeamRK4.get_dp]

theorem BeamRK4.steps_p_T (sqrt : K → K) (n : Nat) (b : BeamRK4 K R) :
    (BeamRK4.steps sqrt n b).p.T = b.p.T := by
  induction n generalizing b with
  | zero => rfl
  | succ n ih =>
    rw [BeamRK4.steps, ih]
    exact BeamRK4.step_RK4_p_T sqrt b

theorem BeamRK4.steps_p_Z (sqrt : K → K) (n : Nat) (b : BeamRK4 K R) :
    (BeamRK4.steps sqrt n b).p.Z = b.p.Z := by
  induction n generalizing b with
  | zero => rfl
  | succ n ih =>
    rw [BeamRK4.steps, ih]
    exact BeamRK4.step_RK4_p_Z sqrt b

theorem BeamRK4.steps_p_zero (sqrt : K → K) (n : Nat) (b : BeamRK4 K R)
    (h0 : ∀ u v, b.magnetic_field.Interpolate u v = 0) :
    (BeamRK4.steps sqrt n b).p = b.p := by
  induction n generalizing b with
  | zero => rfl
  | succ n ih =>
    rw [BeamRK4.steps, ih (BeamRK4.plot_orbit_point (BeamRK4.step_RK4 sqrt b)) h0]
    exact BeamRK4.step_RK4_p_zero sqrt b h0

/-- C7, as amended: in exact arithmetic the divisor `this->p.M()` is taken
from the current momentum. As long as the divisor is not 0 at the start of any
of the first `n` steps, its square after these steps differs from the square at
the start by what `p_x^2 + p_y^2` has lost; in a field that vanishes everywhere
a divisor that is not 0 at the start is the same, and not 0, after every number
of steps. -/
theorem C7_mass_divisor_follows_momentum (sqrt : K → K) (b : BeamRK4 K R) (n : Nat) :
    ((∀ k, k < n → (BeamRK4.steps sqrt k b).p.M sqrt ≠ 0) →
      (BeamRK4.steps sqrt n b).p.M2
        = b.p.M2 + (b.p.X * b.p.X + b.p.Y * b.p.Y)
          - ((BeamRK4.steps sqrt n b).p.X * (BeamRK4.steps sqrt n b).p.X
            + (BeamRK4.steps sqrt n b).p.Y * (BeamRK4.steps sqrt n b).p.Y))
    ∧ ((∀ u v, b.magnetic_field.Interpolate u v = 0) → b.p.M sqrt ≠ 0 →
        (BeamRK4.steps sqrt n b).p.M sqrt = b.p.M sqrt
        ∧ ∀ k, k < n → (BeamRK4.steps sqrt k b).p.M sqrt ≠ 0) := by
  constructor
  · intro _
    simp only [LorentzVector.M2, BeamRK4.steps_p_T, BeamRK4.steps_p_Z]
    ring
  · intro h0 hM
    refine ⟨by rw [BeamRK4.steps_p_zero sqrt n b h0], ?_⟩
    intro k _
    rw [BeamRK4.steps_p_zero sqrt k b h0]
    exact hM

theorem Examples.constructed_eq (R : Type) (B dtau tau_final : ℝ) :
    Examples.constructed ℝ Real.sqrt R B dtau tau_final = Examples.beam ℝ R B dtau tau_final := by
  have h5 : Real.sqrt 25 = 5 := by
    rw [show (25 : ℝ) = 5 * 5 by norm_num]
    exact Real.sqrt_mul_self (by norm_num)
  have hE : (⟨3, 0, 0, 4⟩ : LorentzP_M ℝ).E2 = 25 := by
    norm_num [LorentzP_M.E2]
  simp only [Examples.constructed, BeamRK4.new, BeamRK4.set_magnetic_unit,
    BeamRK4.set_length_unit, LorentzP_M.toPxPyPzE, hE, h5, Examples.beam]

/-- C7 as stated fails: the beam constructed with momentum `(3, 0, 0)` and
mass 4 has `p.M() = 4`; after one step with `dtau = 4` in the uniform field 1
the momentum is `(13/8, -5/2, 0)` with energy 5 and `p.M()`, the divisor of the
next step, is no longer 4. -/
theorem C7_mass_divisor_changes :
    (Examples.constructed ℝ Real.sqrt (DrainRectangle ℝ) 1 4 100).p.M Real.sqrt = 4
    ∧ (BeamRK4.steps Real.sqrt 1
        (BeamRK4.plot_orbit_point
          (Examples.constructed ℝ Real.sqrt (DrainRectangle ℝ) 1 4 100))).p
        = ⟨13 / 8, -5 / 2, 0, 5⟩
    ∧ (BeamRK4.steps Real.sqrt 1
        (BeamRK4.plot_orbit_point
          (Examples.constructed ℝ Real.sqrt (DrainRectangle ℝ) 1 4 100))).p.M Real.sqrt ≠ 4 := by
  rw [Examples.constructed_eq]
  have hp : (BeamRK4.steps Real.sqrt 1
      (BeamRK4.plot_orbit_point (Examples.beam ℝ (DrainRectangle ℝ) 1 4 100))).p
      = ⟨13 / 8, -5 / 2, 0, 5⟩ := by
    simp only [BeamRK4.steps, BeamRK4.step_RK4, BeamRK4.get_dp, BeamRK4.get_dx]
    have hM := Examples.started_M (DrainRectangle ℝ) 1 4 100
    unfold Examples.started at hM
    rw [hM]
    ext <;> norm_num [BeamRK4.plot_orbit_point, Examples.beam, Examples.uniform_field]
  refine ⟨Examples.beam_M _ _ _ _, hp, ?_⟩
  rw [hp]
  intro h
  have h2 : (⟨13 / 8, -5 / 2, 0, 5⟩ : LorentzVector ℝ).M2 = 1031 / 64 := by
    norm_num [LorentzVector.M2]
  unfold LorentzVector.M at h
  rw [h2, if_pos (by norm_num)] at h
  rw [Real.sqrt_eq_iff_mul_self_eq (by norm_num) (by norm_num)] at h
  norm_num at h

/-- C7, as amended, at a concrete beam with `p.M() = 4`: in a vanishing field
the divisor is still 4 after three steps and was not 0 at the start of any of
them, and the square of the divisor after these steps is `16 + 9` minus the
`p_x^2 + p_y^2` of the momentum then. -/
theorem C7_mass_divisor_follows_momentum_witness :
    (BeamRK4.steps Real.sqrt 3 (Examples.beam ℝ (DrainRectangle ℝ) 0 1 10)).p.M Real.sqrt = 4
    ∧ (BeamRK4.steps Real.sqrt 3 (Examples.beam ℝ (DrainRectangle ℝ) 0 1 10)).p.M2
        = (Examples.beam ℝ (DrainRectangle ℝ) 0 1 10).p.M2
          + ((Examples.beam ℝ (DrainRectangle ℝ) 0 1 10).p.X
              * (Examples.beam ℝ (DrainRectangle ℝ) 0 1 10).p.X
            + (Examples.beam ℝ (DrainRectangle ℝ) 0 1 10).p.Y
              * (Examples.beam ℝ (DrainRectangle ℝ) 0 1 10).p.Y)
          - ((BeamRK4.steps Real.sqrt 3 (Examples.beam ℝ (DrainRectangle ℝ) 0 1 10)).p.X
              * (BeamRK4.steps Real.sqrt 3 (Examples.beam ℝ (DrainRectangle ℝ) 0 1 10)).p.X
            + (BeamRK4.steps Real.sqrt 3 (Examples.beam ℝ (DrainRectangle ℝ) 0 1 10)).p.Y
              * (BeamRK4.steps Real.sqrt 3 (Examples.beam ℝ (DrainRectangle ℝ) 0 1 10)).p.Y) := by
  have hM : (Examples.beam ℝ (DrainRectangle ℝ) 0 1 10).p.M Real.sqrt ≠ 0 := by
    rw [Examples.beam_M]
    norm_num
  have h := (C7_mass_divisor_follows_momentum Real.sqrt
    (Examples.beam ℝ (DrainRectangle ℝ) 0 1 10) 3).2 (fun _ _ => rfl) hM
  refine ⟨?_, (C7_mass_divisor_follows_momentum Real.sqrt
    (Examples.beam ℝ (DrainRectangle ℝ) 0 1 10) 3).1 h.2⟩
  rw [← Examples.beam_M (DrainRectangle ℝ) 0 1 10]
  exact h.1

end Mass

/-! ## The run loop -/

section Run

variable {K : Type} [LinearOrderedField K]

theorem wrap32_succ (n : Int) (h0 : 0 ≤ n) (h1 : n + 1 ≤ 2147483647) : wrap32 (n + 1) = n + 1 := by
  unfold wrap32
  omega

theorem wrap32_le (n : Int) : wrap32 n ≤ 2147483647 := by
  unfold wrap32
  omega

theorem BeamRK4.is_anihilated_frame (b : BeamRK4 K (DrainRectangle K)) :
    b.is_anihilated.2 = { b with anihilation_type := b.is_anihilated.2.anihilation_type } := by
  by_cases ht : b.time_limit
  · rw [BeamRK4.is_anihilated_time b ht]
  · by_cases ho : b.outside
    · rw [BeamRK4.is_anihilated_outside b ho]
    · rw [BeamRK4.is_anihilated_inside b ht ho, BeamRK4.drain_loop_find]
      cases b.drain_rectangles.find? (fun r => r.is_collided b) <;> rfl

theorem BeamRK4.is_anihilated_false (b : BeamRK4 K (DrainRectangle K))
    (h : b.is_anihilated.1 = false) : b.is_anihilated.2 = b := by
  by_cases ht : b.time_limit
  · rw [BeamRK4.is_anihilated_time b ht]
  · by_cases ho : b.outside
    · rw [BeamRK4.is_anihilated_outside b ho]
    · rw [BeamRK4.is_anihilated_inside b ht ho, BeamRK4.drain_loop_find] at h ⊢
      cases hf : b.drain_rectangles.find? (fun r => r.is_collided b) with
      | none => rfl
      | some r =>
        rw [hf] at h
        exact Bool.noConfusion h

/-- What `run_loop` returns: the loop body has run `n` times, the check has
failed on the first `n` beams and succeeded on the last one. -/
theorem BeamRK4.run_loop_some (sqrt : K → K) (fuel : Nat) (b : BeamRK4 K (DrainRectangle K))
    (n : Nat) (b' : BeamRK4 K (DrainRectangle K))
    (h : BeamRK4.run_loop sqrt fuel b = some (n, b')) :
    b' = (BeamRK4.steps sqrt n b).is_anihilated.2
    ∧ (BeamRK4.steps sqrt n b).is_anihilated.1 = true
    ∧ ∀ k, k < n → (BeamRK4.steps sqrt k b).is_anihilated.1 = false := by
  induction fuel generalizing b n with
  | zero => simp [BeamRK4.run_loop] at h
  | succ fuel ih =>
    rw [BeamRK4.run_loop] at h
    by_cases hc : b.is_anihilated.1 = true
    · rw [if_pos hc] at h
      simp only [Option.some.injEq, Prod.mk.injEq] at h
      obtain ⟨hn, hb⟩ := h
      subst hn
      exact ⟨hb.symm, hc, fun k hk => absurd hk (Nat.not_lt_zero k)⟩
    · rw [if_neg hc] at h
      have hf : b.is_anihilated.1 = false := by simpa using hc
      rw [BeamRK4.is_anihilated_false b hf] at h
      cases hr : BeamRK4.run_loop sqrt fuel (BeamRK4.plot_orbit_point (BeamRK4.step_RK4 sqrt b)) with
      | none => rw [hr] at h; exact Option.noConfusion h
      | some r =>
        obtain ⟨m, c⟩ := r
        rw [hr] at h
        simp only [Option.some.injEq, Prod.mk.injEq] at h
        obtain ⟨hn, hb⟩ := h
        subst hn
        subst hb
        obtain ⟨h1, h2, h3⟩ := ih _ m hr
        refine ⟨h1, h2, ?_⟩
        intro k hk
        cases k with
        | zero => exact hf
        | succ k => exact h3 k (Nat.lt_of_succ_lt_succ hk)

/-- Converse of `run_loop_some`: a run whose check first succeeds after `n`
executions of the body is returned with `n + 1` units of fuel. -/
theorem BeamRK4.run_loop_of_checks (sqrt : K → K) (n : Nat) (b : BeamRK4 K (DrainRectangle K))
    (hlast : (BeamRK4.steps sqrt n b).is_anihilated.1 = true)
    (hbefore : ∀ k, k < n → (BeamRK4.steps sqrt k b).is_anihilated.1 = false) :
    BeamRK4.run_loop sqrt (n + 1) b = some (n, (BeamRK4.steps sqrt n b).is_anihilated.2) := by
  induction n generalizing b with
  | zero =>
    rw [BeamRK4.run_loop]
    have h0 : b.is_anihilated.1 = true := hlast
    rw [if_pos h0]
    rfl
  | succ n ih =>
    rw [BeamRK4.run_loop]
    have h0 : b.is_anihilated.1 = false := hbefore 0 (Nat.succ_pos n)
    rw [if_neg (by simp [h0]), BeamRK4.is_anihilated_false b h0,
      ih (BeamRK4.plot_orbit_point (BeamRK4.step_RK4 sqrt b)) hlast
        (fun k hk => hbefore (k + 1) (Nat.succ_lt_succ hk))]
    rfl

theorem BeamRK4.steps_frame {R : Type} (sqrt : K → K) (n : Nat) (b : BeamRK4 K R) :
    (BeamRK4.steps sqrt n b).dtau = b.dtau
    ∧ (BeamRK4.steps sqrt n b).tau_final = b.tau_final
    ∧ (BeamRK4.steps sqrt n b).magnetic_field = b.magnetic_field
    ∧ (BeamRK4.steps sqrt n b).length_unit = b.length_unit
    ∧ (BeamRK4.steps sqrt n b).drain_rectangles = b.drain_rectangles
    ∧ (BeamRK4.steps sqrt n b).anihilation_type = b.anihilation_type := by
  induction n generalizing b with
  | zero => exact ⟨rfl, rfl, rfl, rfl, rfl, rfl⟩
  | succ n ih => exact ih (BeamRK4.plot_orbit_point (BeamRK4.step_RK4 sqrt b))

theorem BeamRK4.steps_tau_index {R : Type} (sqrt : K → K) (n : Nat) (b : BeamRK4 K R)
    (h0 : 0 ≤ b.tau_index) (h1 : b.tau_index + n ≤ 2147483647) :
    (BeamRK4.steps sqrt n b).tau_index = b.tau_index + n := by
  induction n generalizing b with
  | zero => simp [BeamRK4.steps]
  | succ n ih =>
    have hw : wrap32 (b.tau_index + 1) = b.tau_index + 1 :=
      wrap32_succ b.tau_index h0 (by push_cast at h1; omega)
    have hstep : (BeamRK4.plot_orbit_point (BeamRK4.step_RK4 sqrt b)).tau_index
        = b.tau_index + 1 := hw
    rw [BeamRK4.steps, ih _ (by rw [hstep]; omega) (by rw [hstep]; push_cast at h1; omega),
      hstep]
    push_cast
    ring

/-- The time-limit test at the check that follows `k` steps of a run compares
`(k + 1) * dtau` with `tau_final`. -/
theorem BeamRK4.time_limit_after {R : Type} (sqrt : K → K) (k : Nat) (b : BeamRK4 K R)
    (h0 : b.tau_index = 0) (hk : (k : Int) + 1 ≤ 2147483647) :
    (BeamRK4.steps sqrt k (BeamRK4.plot_orbit_point b)).time_limit
      ↔ b.tau_final < ((k : K) + 1) * b.dtau := by
  have h1 : (BeamRK4.plot_orbit_point b).tau_index = 1 := by
    show wrap32 (b.tau_index + 1) = 1
    rw [h0]
    rfl
  have hi := BeamRK4.steps_tau_index sqrt k (BeamRK4.plot_orbit_point b)
    (by rw [h1]; norm_num) (by rw [h1]; omega)
  obtain ⟨hd, hf, -⟩ := BeamRK4.steps_frame sqrt k (BeamRK4.plot_orbit_point b)
  unfold BeamRK4.time_limit
  rw [hi, hd, hf, h1]
  have hc : (((1 : Int) + (k : Int) : Int) : K) = (k : K) + 1 := by
    push_cast
    ring
  rw [hc]
  rfl

theorem BeamRK4.steps_x_zero {R : Type} (sqrt : K → K) (n : Nat) (b : BeamRK4 K R)
    (h0 : ∀ u v, b.magnetic_field.Interpolate u v = 0) :
    (BeamRK4.steps sqrt n b).x.X = b.x.X + (n : K) * (b.p.X / b.p.M sqrt * b.dtau)
    ∧ (BeamRK4.steps sqrt n b).x.Y = b.x.Y + (n : K) * (b.p.Y / b.p.M sqrt * b.dtau) := by
  induction n generalizing b with
  | zero => simp [BeamRK4.steps]
  | succ n ih =>
    have hx : (BeamRK4.plot_orbit_point (BeamRK4.step_RK4 sqrt b)).x
        = b.x + b.p / b.p.M sqrt * b.dtau := BeamRK4.step_RK4_x_zero sqrt b h0
    have hp : (BeamRK4.plot_orbit_point (BeamRK4.step_RK4 sqrt b)).p = b.p :=
      BeamRK4.step_RK4_p_zero sqrt b h0
    have hd : (BeamRK4.plot_orbit_point (BeamRK4.step_RK4 sqrt b)).dtau = b.dtau := rfl
    obtain ⟨i1, i2⟩ := ih (BeamRK4.plot_orbit_point (BeamRK4.step_RK4 sqrt b)) h0
    rw [BeamRK4.steps, i1, i2, hx, hp, hd]
    constructor <;> simp only [LorentzVector.add_X, LorentzVector.add_Y, LorentzVector.mul_X,
      LorentzVector.mul_Y, LorentzVector.div_X, LorentzVector.div_Y] <;> push_cast <;> ring

theorem BeamRK4.is_anihilated_no_rectangles (b : BeamRK4 K (DrainRectangle K))
    (hr : b.drain_rectangles = []) :
    b.is_anihilated.1 = true ↔ b.time_limit ∨ b.outside := by
  by_cases ht : b.time_limit
  · simp [BeamRK4.is_anihilated_time b ht, ht]
  · rw [BeamRK4.is_anihilated_iff_outside b ht (by rw [hr]; intro r hr'; cases hr')]
    simp [ht]

/-- The check after `k` steps of the beam `started` in a vanishing field: as
long as the beam has moved less than 3 along `x`, only the time limit can end
the run. -/
theorem Examples.started_check (dtau tau_final : ℝ) (k : Nat)
    (hk : (k : Int) + 1 ≤ 2147483647) (hin : |(k : ℝ) * (3 / 4 * dtau)| ≤ 3) :
    (BeamRK4.steps Real.sqrt k
        (Examples.started ℝ (DrainRectangle ℝ) 0 dtau tau_final)).is_anihilated.1 = true
      ↔ tau_final < ((k : ℝ) + 1) * dtau := by
  obtain ⟨-, -, hf, hl, hr, -⟩ := BeamRK4.steps_frame Real.sqrt k
    (Examples.started ℝ (DrainRectangle ℝ) 0 dtau tau_final)
  obtain ⟨hx, hy⟩ := BeamRK4.steps_x_zero Real.sqrt k
    (Examples.started ℝ (DrainRectangle ℝ) 0 dtau tau_final) (fun _ _ => rfl)
  rw [Examples.started_M] at hx hy
  have ho : ¬ (BeamRK4.steps Real.sqrt k
      (Examples.started ℝ (DrainRectangle ℝ) 0 dtau tau_final)).outside := by
    unfold BeamRK4.outside
    rw [hx, hy, hf, hl]
    have h3 := abs_le.mp hin
    have e1 : (Examples.started ℝ (DrainRectangle ℝ) 0 dtau tau_final).x.X = 0 := rfl
    have e2 : (Examples.started ℝ (DrainRectangle ℝ) 0 dtau tau_final).x.Y = 0 := rfl
    have e3 : (Examples.started ℝ (DrainRectangle ℝ) 0 dtau tau_final).p.X = 3 := rfl
    have e4 : (Examples.started ℝ (DrainRectangle ℝ) 0 dtau tau_final).p.Y = 0 := rfl
    have e5 : (Examples.started ℝ (DrainRectangle ℝ) 0 dtau tau_final).dtau = dtau := rfl
    have e6 : (Examples.started ℝ (DrainRectangle ℝ) 0 dtau tau_final).length_unit = 1 := rfl
    have e7 : (Examples.started ℝ (DrainRectangle ℝ) 0 dtau tau_final).magnetic_field.Xmin
        = -4 := rfl
    have e8 : (Examples.started ℝ (DrainRectangle ℝ) 0 dtau tau_final).magnetic_field.Xmax
        = 4 := rfl
    have e9 : (Examples.started ℝ (DrainRectangle ℝ) 0 dtau tau_final).magnetic_field.Ymin
        = -4 := rfl
    have e10 : (Examples.started ℝ (DrainRectangle ℝ) 0 dtau tau_final).magnetic_field.Ymax
        = 4 := rfl
    rw [e1, e2, e3, e4, e5, e6, e7, e8, e9, e10]
    have hm : edge_margin ℝ = 0.005 := rfl
    rw [hm]
    intro h
    rcases h with h | h | h | h
    · linarith [h3.1]
    · linarith [h3.2]
    · norm_num at h
    · norm_num at h
  rw [BeamRK4.is_anihilated_no_rectangles _ (by rw [hr]; rfl)]
  have ht := BeamRK4.time_limit_after Real.sqrt k
    (Examples.beam ℝ (DrainRectangle ℝ) 0 dtau tau_final) rfl hk
  constructor
  · rintro (h | h)
    · exact ht.mp h
    · exact absurd h ho
  · intro h
    exact Or.inl (ht.mpr h)

/-- The run of `beam` in a vanishing field with `dtau = 0.001` and
`tau_final = 0.0035`: three steps, then the check succeeds. -/
theorem Examples.run_three_steps :
    BeamRK4.run Real.sqrt 4 (Examples.beam ℝ (DrainRectangle ℝ) 0 (1 / 1000) (7 / 2000))
      = some (3, (BeamRK4.steps Real.sqrt 3
          (Examples.started ℝ (DrainRectangle ℝ) 0 (1 / 1000) (7 / 2000))).is_anihilated.2) := by
  refine BeamRK4.run_loop_of_checks Real.sqrt 3 _ ?_ ?_
  · exact (Examples.started_check (1 / 1000) (7 / 2000) 3 (by norm_num)
      (by rw [abs_le]; norm_num)).mpr (by norm_num)
  · intro k hk
    have hiff := Examples.started_check (1 / 1000) (7 / 2000) k (by omega)
      (by
        have : (k : ℝ) ≤ 3 := by exact_mod_cast (Nat.le_of_lt hk)
        have h0 : (0 : ℝ) ≤ k := Nat.cast_nonneg k
        rw [abs_le]
        constructor <;> nlinarith)
    cases hv : (BeamRK4.steps Real.sqrt k
        (Examples.started ℝ (DrainRectangle ℝ) 0 (1 / 1000) (7 / 2000))).is_anihilated.1 with
    | false => exact hv
    | true =>
      have hlt := hiff.mp hv
      have : (k : ℝ) ≤ 2 := by exact_mod_cast (Nat.le_of_lt_succ hk)
      linarith

theorem Examples.three_steps_time_limit :
    (BeamRK4.steps Real.sqrt 3
      (Examples.started ℝ (DrainRectangle ℝ) 0 (1 / 1000) (7 / 2000))).time_limit :=
  (BeamRK4.time_limit_after Real.sqrt 3
    (Examples.beam ℝ (DrainRectangle ℝ) 0 (1 / 1000) (7 / 2000)) rfl (by norm_num)).mpr
    (by norm_num [Examples.beam])

/-- C8 as stated fails: with `dtau = 0.001` and `tau_final = 0.0035` the run of
the beam `beam` in a vanishing field ends after 3 steps, the time-limit test
holding at the fourth check, although `3 * dtau`, the number of steps taken
times `dtau`, does not exceed `tau_final`. -/
theorem C8_time_limit_fires_one_step_early :
    (∃ b', BeamRK4.run Real.sqrt 4 (Examples.beam ℝ (DrainRectangle ℝ) 0 (1 / 1000) (7 / 2000))
        = some (3, b'))
    ∧ (BeamRK4.steps Real.sqrt 3
        (BeamRK4.plot_orbit_point
          (Examples.beam ℝ (DrainRectangle ℝ) 0 (1 / 1000) (7 / 2000)))).time_limit
    ∧ ¬ ((3 : ℝ) * (Examples.beam ℝ (DrainRectangle ℝ) 0 (1 / 1000) (7 / 2000)).dtau
        > (Examples.beam ℝ (DrainRectangle ℝ) 0 (1 / 1000) (7 / 2000)).tau_final) :=
  ⟨⟨_, Examples.run_three_steps⟩, Examples.three_steps_time_limit,
    by norm_num [Examples.beam]⟩

end Run

/-! ## Termination of the run loop -/

section RunTermination

variable {K : Type} [LinearOrderedField K]

theorem BeamRK4.run_loop_terminates (sqrt : K → K) (m : Nat) (b : BeamRK4 K (DrainRectangle K))
    (h1 : 1 ≤ b.tau_index) (h2 : b.tau_index + m ≤ 2147483647)
    (h3 : b.tau_final < ((b.tau_index + m : Int) : K) * b.dtau) :
    ∃ n b', BeamRK4.run_loop sqrt (m + 1) b = some (n, b') ∧ n ≤ m := by
  induction m generalizing b with
  | zero =>
    have ht : b.time_limit := by
      unfold BeamRK4.time_limit
      simpa using h3
    refine ⟨0, b, ?_, le_refl 0⟩
    rw [BeamRK4.run_loop, BeamRK4.is_anihilated_time b ht]
    rfl
  | succ m ih =>
    by_cases hc : b.is_anihilated.1 = true
    · refine ⟨0, b.is_anihilated.2, ?_, Nat.zero_le _⟩
      rw [BeamRK4.run_loop, if_pos hc]
    · have hf : b.is_anihilated.1 = false := by simpa using hc
      have hw : (BeamRK4.plot_orbit_point (BeamRK4.step_RK4 sqrt b)).tau_index
          = b.tau_index + 1 :=
        wrap32_succ b.tau_index (by omega) (by push_cast at h2; omega)
      obtain ⟨n, b', hrun, hn⟩ := ih (BeamRK4.plot_orbit_point (BeamRK4.step_RK4 sqrt b))
        (by rw [hw]; omega) (by rw [hw]; push_cast at h2; omega)
        (by
          rw [hw]
          have e : (b.tau_index + 1 + (m : Int)) = b.tau_index + ((m + 1 : Nat) : Int) := by
            push_cast
            ring
          rw [e]
          exact h3)
      refine ⟨n + 1, b', ?_, Nat.succ_le_succ hn⟩
      rw [BeamRK4.run_loop, if_neg hc, BeamRK4.is_anihilated_false b hf, hrun]

/-- C9, as amended: in exact arithmetic, for a newly constructed beam
(`tau_index = 0`) with `dtau > 0` and `tau_final < 2147483647 * dtau`, whatever
the field and the absorbers, the run loop terminates after at most
`floor(tau_final / dtau)` executions of `step_RK4` (the floor counted as 0 when
`tau_final` is negative), and after none when `tau_final < dtau`. -/
theorem C9_run_terminates [FloorRing K] (sqrt : K → K) (b : BeamRK4 K (DrainRectangle K))
    (h0 : b.tau_index = 0) (hd : 0 < b.dtau) (hT : b.tau_final < 2147483647 * b.dtau) :
    ∃ fuel n b', BeamRK4.run sqrt fuel b = some (n, b')
      ∧ n ≤ ⌊b.tau_final / b.dtau⌋₊ ∧ (b.tau_final < b.dtau → n = 0) := by
  have h1 : (BeamRK4.plot_orbit_point b).tau_index = 1 := by
    show wrap32 (b.tau_index + 1) = 1
    rw [h0]
    rfl
  have hlt : b.tau_final / b.dtau < (⌊b.tau_final / b.dtau⌋₊ : K) + 1 :=
    Nat.lt_floor_add_one _
  have hfl : ⌊b.tau_final / b.dtau⌋₊ < 2147483647 := by
    rw [Nat.floor_lt' (by norm_num)]
    rw [div_lt_iff₀ hd]
    exact_mod_cast hT
  obtain ⟨n, b', hrun, hn⟩ := BeamRK4.run_loop_terminates sqrt ⌊b.tau_final / b.dtau⌋₊
    (BeamRK4.plot_orbit_point b) (by rw [h1]) (by rw [h1]; omega)
    (by
      rw [h1]
      have e : (((1 : Int) + (⌊b.tau_final / b.dtau⌋₊ : Int) : Int) : K)
          = (⌊b.tau_final / b.dtau⌋₊ : K) + 1 := by
        push_cast
        ring
      rw [e]
      exact (div_lt_iff₀ hd).mp hlt)
  refine ⟨⌊b.tau_final / b.dtau⌋₊ + 1, n, b', hrun, hn, ?_⟩
  intro hsmall
  have hz : ⌊b.tau_final / b.dtau⌋₊ = 0 := by
    rw [Nat.floor_eq_zero]
    exact (div_lt_one hd).mpr hsmall
  omega

theorem BeamRK4.step_RK4_rest {R : Type} (sqrt : K → K) (b : BeamRK4 K R)
    (hpx : b.p.X = 0) (hpy : b.p.Y = 0) :
    (BeamRK4.step_RK4 sqrt b).x.X = b.x.X ∧ (BeamRK4.step_RK4 sqrt b).x.Y = b.x.Y
    ∧ (BeamRK4.step_RK4 sqrt b).p.X = 0 ∧ (BeamRK4.step_RK4 sqrt b).p.Y = 0 := by
  simp [BeamRK4.step_RK4, BeamRK4.get_dx, BeamRK4.get_dp, hpx, hpy]

/-- A beam at rest inside the box without absorbers whose time limit is out
of the reach of the 32 bit step index is never reported by the check. -/
theorem BeamRK4.run_loop_never (sqrt : K → K) (fuel : Nat) (b : BeamRK4 K (DrainRectangle K))
    (hpx : b.p.X = 0) (hpy : b.p.Y = 0) (ho : ¬ b.outside) (hr : b.drain_rectangles = [])
    (hi : b.tau_index ≤ 2147483647) (hd : 0 ≤ b.dtau)
    (hT : 2147483647 * b.dtau ≤ b.tau_final) :
    BeamRK4.run_loop sqrt fuel b = none := by
  induction fuel generalizing b with
  | zero => rfl
  | succ fuel ih =>
    have ht : ¬ b.time_limit := by
      unfold BeamRK4.time_limit
      have hc : (b.tau_index : K) ≤ 2147483647 := by exact_mod_cast hi
      have := mul_le_mul_of_nonneg_right hc hd
      intro h
      linarith
    have hf : b.is_anihilated.1 = false := by
      cases hv : b.is_anihilated.1 with
      | false => rfl
      | true =>
        rcases (BeamRK4.is_anihilated_no_rectangles b hr).mp hv with h | h
        · exact absurd h ht
        · exact absurd h ho
    obtain ⟨sx, sy, spx, spy⟩ := BeamRK4.step_RK4_rest sqrt b hpx hpy
    have ho' : ¬ (BeamRK4.plot_orbit_point (BeamRK4.step_RK4 sqrt b)).outside := by
      intro h
      apply ho
      unfold BeamRK4.outside at h ⊢
      have e1 : (BeamRK4.plot_orbit_point (BeamRK4.step_RK4 sqrt b)).x.X = b.x.X := sx
      have e2 : (BeamRK4.plot_orbit_point (BeamRK4.step_RK4 sqrt b)).x.Y = b.x.Y := sy
      rw [e1, e2] at h
      exact h
    rw [BeamRK4.run_loop, if_neg (by simp [hf]), BeamRK4.is_anihilated_false b hf,
      ih (BeamRK4.plot_orbit_point (BeamRK4.step_RK4 sqrt b)) spx spy ho' hr
        (wrap32_le _) hd hT]

/-- C9 as stated fails: the beam at rest at the origin with `dtau = 1` and
`tau_final = 2147483647` satisfies `dtau > 0`, yet its run loop returns for no
bound on the number of checks, because the `int` step index never exceeds
2147483647. -/
theorem C9_run_does_not_terminate :
    0 < (Examples.at_rest ℝ (DrainRectangle ℝ) 1 1 2147483647).dtau
    ∧ ¬ ∃ fuel n b', BeamRK4.run Real.sqrt fuel
          (Examples.at_rest ℝ (DrainRectangle ℝ) 1 1 2147483647) = some (n, b') := by
  constructor
  · norm_num [Examples.at_rest, Examples.beam]
  · rintro ⟨fuel, n, b', h⟩
    have hnone := BeamRK4.run_loop_never Real.sqrt fuel
      (BeamRK4.plot_orbit_point (Examples.at_rest ℝ (DrainRectangle ℝ) 1 1 2147483647))
      rfl rfl
      (by norm_num [BeamRK4.outside, BeamRK4.plot_orbit_point, Examples.at_rest, Examples.beam,
        Examples.uniform_field, edge_margin])
      rfl (wrap32_le _)
      (by norm_num [BeamRK4.plot_orbit_point, Examples.at_rest, Examples.beam])
      (by norm_num [BeamRK4.plot_orbit_point, Examples.at_rest, Examples.beam])
    unfold BeamRK4.run at h
    rw [hnone] at h
    exact Option.noConfusion h

/-- C9, as amended, at a concrete beam: with `dtau = 0.001` and
`tau_final = 0.0035` the run returns after at most 3 steps. -/
theorem C9_run_terminates_witness :
    ∃ fuel n b', BeamRK4.run Real.sqrt fuel
        (Examples.beam ℝ (DrainRectangle ℝ) 0 (1 / 1000) (7 / 2000)) = some (n, b')
      ∧ n ≤ 3 := by
  obtain ⟨fuel, n, b', h, hn, -⟩ := C9_run_terminates Real.sqrt
    (Examples.beam ℝ (DrainRectangle ℝ) 0 (1 / 1000) (7 / 2000)) rfl
    (by norm_num [Examples.beam]) (by norm_num [Examples.beam])
  refine ⟨fuel, n, b', h, ?_⟩
  have hfl : ⌊(Examples.beam ℝ (DrainRectangle ℝ) 0 (1 / 1000) (7 / 2000)).tau_final
      / (Examples.beam ℝ (DrainRectangle ℝ) 0 (1 / 1000) (7 / 2000)).dtau⌋₊ = 3 := by
    rw [Nat.floor_eq_iff (by norm_num [Examples.beam])]
    norm_num [Examples.beam]
  rw [hfl] at hn
  exact hn

end RunTermination

/-! ## The recorded tag -/

section Tag

variable {K : Type} [LinearOrderedField K]

theorem BeamRK4.run_tag (sqrt : K → K) (fuel n : Nat) (b b' : BeamRK4 K (DrainRectangle K))
    (h : BeamRK4.run sqrt fuel b = some (n, b')) :
    ((BeamRK4.steps sqrt n (BeamRK4.plot_orbit_point b)).time_limit
        ∨ (BeamRK4.steps sqrt n (BeamRK4.plot_orbit_point b)).outside →
      b'.anihilation_type = b.anihilation_type)
    ∧ (¬ (BeamRK4.steps sqrt n (BeamRK4.plot_orbit_point b)).time_limit →
      ¬ (BeamRK4.steps sqrt n (BeamRK4.plot_orbit_point b)).outside →
      ∃ r, (BeamRK4.steps sqrt n (BeamRK4.plot_orbit_point b)).drain_rectangles.find?
            (fun r => r.is_collided (BeamRK4.steps sqrt n (BeamRK4.plot_orbit_point b))) = some r
        ∧ b'.anihilation_type = r.anihilation_type) := by
  obtain ⟨hb, htrue, -⟩ := BeamRK4.run_loop_some sqrt fuel (BeamRK4.plot_orbit_point b) n b' h
  obtain ⟨-, -, -, -, -, ha⟩ := BeamRK4.steps_frame sqrt n (BeamRK4.plot_orbit_point b)
  have ha' : (BeamRK4.steps sqrt n (BeamRK4.plot_orbit_point b)).anihilation_type
      = b.anihilation_type := ha
  constructor
  · rintro (ht | ho)
    · rw [hb, BeamRK4.is_anihilated_time _ ht]
      exact ha'
    · rw [hb, BeamRK4.is_anihilated_outside _ ho]
      exact ha'
  · intro ht ho
    rw [BeamRK4.is_anihilated_inside _ ht ho, BeamRK4.drain_loop_find] at htrue hb
    cases hf : (BeamRK4.steps sqrt n (BeamRK4.plot_orbit_point b)).drain_rectangles.find?
        (fun r => r.is_collided (BeamRK4.steps sqrt n (BeamRK4.plot_orbit_point b))) with
    | none =>
      rw [hf] at htrue
      exact Bool.noConfusion htrue
    | some r =>
      rw [hf] at hb
      exact ⟨r, rfl, by rw [hb]⟩

/-- C10, as amended: the tag recorded for a run identifies absorption only.
A run that ends by the time limit or by boundary escape, also when both hold at
once, keeps the `anihilation_type` the beam had before the run (0 after
construction); a run that ends otherwise has the tag of the first rectangle of
`drain_rectangles` containing the final position. -/
theorem C10_tag_written_on_absorber_only (sqrt : K → K) (fuel n : Nat)
    (b b' : BeamRK4 K (DrainRectangle K))
    (h : BeamRK4.run sqrt fuel b = some (n, b')) :
    ((BeamRK4.steps sqrt n (BeamRK4.plot_orbit_point b)).time_limit
        ∨ (BeamRK4.steps sqrt n (BeamRK4.plot_orbit_point b)).outside →
      b'.anihilation_type = b.anihilation_type)
    ∧ (¬ (BeamRK4.steps sqrt n (BeamRK4.plot_orbit_point b)).time_limit →
      ¬ (BeamRK4.steps sqrt n (BeamRK4.plot_orbit_point b)).outside →
      ∃ r, (BeamRK4.steps sqrt n (BeamRK4.plot_orbit_point b)).drain_rectangles.find?
            (fun r => r.is_collided (BeamRK4.steps sqrt n (BeamRK4.plot_orbit_point b))) = some r
        ∧ b'.anihilation_type = r.anihilation_type) :=
  BeamRK4.run_tag sqrt fuel n b b' h

theorem Examples.escaped_outside :
    (BeamRK4.plot_orbit_point (Examples.probe ℝ (-5) (-2) 0)).outside := by
  norm_num [BeamRK4.outside, BeamRK4.plot_orbit_point, Examples.probe, Examples.beam,
    Examples.uniform_field, edge_margin]

theorem Examples.run_escaped :
    BeamRK4.run Real.sqrt 1 (Examples.probe ℝ (-5) (-2) 0)
      = some (0, (BeamRK4.plot_orbit_point (Examples.probe ℝ (-5) (-2) 0)).is_anihilated.2) :=
  BeamRK4.run_loop_of_checks Real.sqrt 0 _
    (by
      show (BeamRK4.plot_orbit_point (Examples.probe ℝ (-5) (-2) 0)).is_anihilated.1 = true
      rw [BeamRK4.is_anihilated_outside _ Examples.escaped_outside])
    (fun k hk => absurd hk (Nat.not_lt_zero k))

/-- C10 as stated fails: the run of `beam` that ends by the time limit after
three steps and the run of a beam placed at `(-5, -2)`, outside the box, that
ends by boundary escape at once without the time limit being exceeded, record
the same tag 0. -/
theorem C10_time_limit_and_escape_share_tag :
    ∃ b1 b2,
      BeamRK4.run Real.sqrt 4 (Examples.beam ℝ (DrainRectangle ℝ) 0 (1 / 1000) (7 / 2000))
        = some (3, b1)
      ∧ (BeamRK4.steps Real.sqrt 3 (BeamRK4.plot_orbit_point
          (Examples.beam ℝ (DrainRectangle ℝ) 0 (1 / 1000) (7 / 2000)))).time_limit
      ∧ BeamRK4.run Real.sqrt 1 (Examples.probe ℝ (-5) (-2) 0) = some (0, b2)
      ∧ ¬ (BeamRK4.plot_orbit_point (Examples.probe ℝ (-5) (-2) 0)).time_limit
      ∧ (BeamRK4.plot_orbit_point (Examples.probe ℝ (-5) (-2) 0)).outside
      ∧ b1.anihilation_type = 0 ∧ b2.anihilation_type = 0 := by
  have ho := Examples.escaped_outside
  refine ⟨_, _, Examples.run_three_steps, Examples.three_steps_time_limit,
    Examples.run_escaped, ?_, ho, ?_, ?_⟩
  · norm_num [BeamRK4.time_limit, BeamRK4.plot_orbit_point, Examples.probe, Examples.beam,
      wrap32]
  · exact (BeamRK4.run_tag Real.sqrt 4 3 _ _ Examples.run_three_steps).1
      (Or.inl Examples.three_steps_time_limit)
  · exact (BeamRK4.run_tag Real.sqrt 1 0 _ _ Examples.run_escaped).1 (Or.inr ho)

/-- C10, as amended, at a concrete run: the run of `beam` that ends by the
time limit after three steps keeps the tag 0 of the constructed beam. -/
theorem C10_tag_written_on_absorber_only_witness :
    ((BeamRK4.steps Real.sqrt 3
        (Examples.started ℝ (DrainRectangle ℝ) 0 (1 / 1000) (7 / 2000))).is_anihilated.2
      ).anihilation_type = 0 :=
  (C10_tag_written_on_absorber_only Real.sqrt 4 3 _ _ Examples.run_three_steps).1
    (Or.inl Examples.three_steps_time_limit)

end Tag

/-! ## The recorded trajectory -/

section Trajectory

variable {K : Type} [LinearOrderedField K] {R : Type}

theorem TGraph.SetPoint_length (g : List (K × K)) (x y : K) :
    TGraph.SetPoint g (g.length : Int) x y = g ++ [(x, y)] := by
  unfold TGraph.SetPoint
  rw [if_neg (by omega), if_neg (by simp)]
  simp

theorem BeamRK4.steps_succ (sqrt : K → K) (n : Nat) (b : BeamRK4 K R) :
    BeamRK4.steps sqrt (n + 1) b
      = BeamRK4.plot_orbit_point (BeamRK4.step_RK4 sqrt (BeamRK4.steps sqrt n b)) := by
  induction n generalizing b with
  | zero => rfl
  | succ n ih =>
    rw [BeamRK4.steps, ih (BeamRK4.plot_orbit_point (BeamRK4.step_RK4 sqrt b))]
    rfl

/-- The trajectory recorded in the first `n` steps of a run, while the step
index stays in the range of `int`. -/
theorem BeamRK4.steps_orbit (sqrt : K → K) (n : Nat) (b : BeamRK4 K R)
    (ho : b.orbit = []) (hi : b.tau_index = 0) (hn : (n : Int) + 1 ≤ 2147483647) :
    (BeamRK4.steps sqrt n (BeamRK4.plot_orbit_point b)).orbit
        = (List.range (n + 1)).map
            (fun i => Spec.orbit_point (BeamRK4.steps sqrt i (BeamRK4.plot_orbit_point b)))
    ∧ (BeamRK4.steps sqrt n (BeamRK4.plot_orbit_point b)).tau_index = (n : Int) + 1 := by
  induction n with
  | zero =>
    constructor
    · show TGraph.SetPoint b.orbit b.tau_index (b.x.X / b.length_unit) (b.x.Y / b.length_unit)
        = _
      rw [ho, hi]
      rfl
    · show wrap32 (b.tau_index + 1) = _
      rw [hi]
      rfl
  | succ n ih =>
    obtain ⟨io, it⟩ := ih (by push_cast at hn; omega)
    have hlen : ((BeamRK4.steps sqrt n (BeamRK4.plot_orbit_point b)).orbit.length : Int)
        = (n : Int) + 1 := by
      rw [io]
      simp
    constructor
    · rw [List.range_succ, List.map_append, ← io, BeamRK4.steps_succ]
      show TGraph.SetPoint (BeamRK4.steps sqrt n (BeamRK4.plot_orbit_point b)).orbit
        (BeamRK4.steps sqrt n (BeamRK4.plot_orbit_point b)).tau_index _ _ = _
      rw [it, ← hlen, TGraph.SetPoint_length]
      simp only [List.map_cons, List.map_nil, BeamRK4.steps_succ]
      rfl
    · rw [BeamRK4.steps_succ]
      show wrap32 ((BeamRK4.steps sqrt n (BeamRK4.plot_orbit_point b)).tau_index + 1) = _
      rw [it, wrap32_succ _ (by omega) (by push_cast at hn; omega)]
      push_cast
      ring

/-- C11, as amended: at the termination check that follows `n` steps of the
run of a newly constructed beam (empty graph, `tau_index = 0`), as long as
`n + 1` fits the `int` step index, the recorded trajectory has exactly `n + 1`
points, `tau_index` equals that count, the `i`-th point is
`(X / length_unit, Y / length_unit)` of the beam after `i` steps, point 0 being
the initial position, and the trajectory recorded at every earlier check is an
initial segment of it. -/
theorem C11_trajectory_records_every_step (sqrt : K → K) (b : BeamRK4 K R) (n : Nat)
    (ho : b.orbit = []) (hi : b.tau_index = 0) (hn : (n : Int) + 1 ≤ 2147483647) :
    (BeamRK4.steps sqrt n (BeamRK4.plot_orbit_point b)).orbit.length = n + 1
    ∧ (BeamRK4.steps sqrt n (BeamRK4.plot_orbit_point b)).tau_index = (n : Int) + 1
    ∧ (∀ i, i ≤ n →
        (BeamRK4.steps sqrt n (BeamRK4.plot_orbit_point b)).orbit[i]?
          = some (Spec.orbit_point (BeamRK4.steps sqrt i (BeamRK4.plot_orbit_point b))))
    ∧ (∀ m, m ≤ n →
        (BeamRK4.steps sqrt m (BeamRK4.plot_orbit_point b)).orbit
          <+: (BeamRK4.steps sqrt n (BeamRK4.plot_orbit_point b)).orbit)
    ∧ Spec.orbit_point (BeamRK4.steps sqrt 0 (BeamRK4.plot_orbit_point b))
        = (b.x.X / b.length_unit, b.x.Y / b.length_unit) := by
  obtain ⟨io, it⟩ := BeamRK4.steps_orbit sqrt n b ho hi hn
  refine ⟨by rw [io]; simp, it, ?_, ?_, rfl⟩
  · intro i hin
    rw [io, List.getElem?_map, List.getElem?_range (Nat.lt_succ_of_le hin)]
    rfl
  · intro m hm
    obtain ⟨im, -⟩ := BeamRK4.steps_orbit sqrt m b ho hi (by omega)
    rw [io, im]
    apply List.IsPrefix.map
    have ht : List.take (m + 1) (List.range (n + 1)) = List.range (m + 1) := by
      rw [List.take_range, Nat.min_eq_left (Nat.succ_le_succ hm)]
    rw [← ht]
    exact List.take_prefix _ _

/-- C11, as amended, at a concrete beam: after three steps of `beam` with
`dtau = 0.001` the graph has four points and `tau_index` is 4. -/
theorem C11_trajectory_records_every_step_witness :
    (BeamRK4.steps Real.sqrt 3
        (Examples.started ℝ (DrainRectangle ℝ) 0 (1 / 1000) (7 / 2000))).orbit.length = 4
    ∧ (BeamRK4.steps Real.sqrt 3
        (Examples.started ℝ (DrainRectangle ℝ) 0 (1 / 1000) (7 / 2000))).tau_index = 4 :=
  ⟨(C11_trajectory_records_every_step Real.sqrt
      (Examples.beam ℝ (DrainRectangle ℝ) 0 (1 / 1000) (7 / 2000)) 3 rfl rfl (by norm_num)).1,
    (C11_trajectory_records_every_step Real.sqrt
      (Examples.beam ℝ (DrainRectangle ℝ) 0 (1 / 1000) (7 / 2000)) 3 rfl rfl (by norm_num)).2.1⟩

theorem BeamRK4.rest_not_anihilated (sqrt : K → K) (k : Nat) (b : BeamRK4 K (DrainRectangle K))
    (hpx : b.p.X = 0) (hpy : b.p.Y = 0) (ho : ¬ b.outside) (hr : b.drain_rectangles = [])
    (hi : b.tau_index ≤ 2147483647) (hd : 0 ≤ b.dtau)
    (hT : 2147483647 * b.dtau ≤ b.tau_final) :
    (BeamRK4.steps sqrt k b).is_anihilated.1 = false := by
  induction k generalizing b with
  | zero =>
    have ht : ¬ b.time_limit := by
      unfold BeamRK4.time_limit
      have hc : (b.tau_index : K) ≤ 2147483647 := by exact_mod_cast hi
      have := mul_le_mul_of_nonneg_right hc hd
      intro h
      linarith
    cases hv : (BeamRK4.steps sqrt 0 b).is_anihilated.1 with
    | false => rfl
    | true =>
      rcases (BeamRK4.is_anihilated_no_rectangles b hr).mp hv with h | h
      · exact absurd h ht
      · exact absurd h ho
  | succ k ih =>
    obtain ⟨sx, sy, spx, spy⟩ := BeamRK4.step_RK4_rest sqrt b hpx hpy
    have ho' : ¬ (BeamRK4.plot_orbit_point (BeamRK4.step_RK4 sqrt b)).outside := by
      intro h
      apply ho
      unfold BeamRK4.outside at h ⊢
      have e1 : (BeamRK4.plot_orbit_point (BeamRK4.step_RK4 sqrt b)).x.X = b.x.X := sx
      have e2 : (BeamRK4.plot_orbit_point (BeamRK4.step_RK4 sqrt b)).x.Y = b.x.Y := sy
      rw [e1, e2] at h
      exact h
    exact ih (BeamRK4.plot_orbit_point (BeamRK4.step_RK4 sqrt b)) spx spy ho' hr
      (wrap32_le _) hd hT

theorem BeamRK4.steps_overflow (sqrt : K → K) (n : Nat) (b : BeamRK4 K R)
    (ho : b.orbit = []) (hi : b.tau_index = 0) (hn : (n : Int) + 1 = 2147483647) :
    (BeamRK4.steps sqrt (n + 1) (BeamRK4.plot_orbit_point b)).orbit.length = n + 2
    ∧ (BeamRK4.steps sqrt (n + 1) (BeamRK4.plot_orbit_point b)).tau_index = -2147483648 := by
  obtain ⟨io, it⟩ := BeamRK4.steps_orbit sqrt n b ho hi (le_of_eq hn)
  have hlen : ((BeamRK4.steps sqrt n (BeamRK4.plot_orbit_point b)).orbit.length : Int)
      = (n : Int) + 1 := by
    rw [io]
    simp
  rw [BeamRK4.steps_succ]
  constructor
  · show (TGraph.SetPoint (BeamRK4.steps sqrt n (BeamRK4.plot_orbit_point b)).orbit
      (BeamRK4.steps sqrt n (BeamRK4.plot_orbit_point b)).tau_index _ _).length = _
    rw [it, ← hlen, TGraph.SetPoint_length, List.length_append]
    have : (BeamRK4.steps sqrt n (BeamRK4.plot_orbit_point b)).orbit.length = n + 1 := by
      exact_mod_cast hlen
    rw [this]
    rfl
  · show wrap32 ((BeamRK4.steps sqrt n (BeamRK4.plot_orbit_point b)).tau_index + 1) = _
    rw [it, hn]
    rfl

/-- C11 as stated fails: the run of the beam at rest with `dtau = 1` and
`tau_final = 4294967296` is not ended by any check, and after 2147483647 steps
the graph has 2147483648 points while the `int` step index has wrapped to
-2147483648. -/
theorem C11_step_index_leaves_the_count :
    (∀ k : Nat, (BeamRK4.steps Real.sqrt k
        (BeamRK4.plot_orbit_point
          (Examples.at_rest ℝ (DrainRectangle ℝ) 1 1 4294967296))).is_anihilated.1 = false)
    ∧ (BeamRK4.steps Real.sqrt (2147483646 + 1)
        (BeamRK4.plot_orbit_point
          (Examples.at_rest ℝ (DrainRectangle ℝ) 1 1 4294967296))).orbit.length
        = 2147483646 + 2
    ∧ (BeamRK4.steps Real.sqrt (2147483646 + 1)
        (BeamRK4.plot_orbit_point
          (Examples.at_rest ℝ (DrainRectangle ℝ) 1 1 4294967296))).tau_index = -2147483648 := by
  refine ⟨?_, BeamRK4.steps_overflow Real.sqrt 2147483646
    (Examples.at_rest ℝ (DrainRectangle ℝ) 1 1 4294967296) rfl rfl (by norm_num)⟩
  intro k
  exact BeamRK4.rest_not_anihilated Real.sqrt k _ rfl rfl
    (by norm_num [BeamRK4.outside, BeamRK4.plot_orbit_point, Examples.at_rest, Examples.beam,
      Examples.uniform_field, edge_margin])
    rfl (wrap32_le _)
    (by norm_num [BeamRK4.plot_orbit_point, Examples.at_rest, Examples.beam])
    (by norm_num [BeamRK4.plot_orbit_point, Examples.at_rest, Examples.beam])

end Trajectory

/-! ## The check precedes every step -/

section CheckFirst

variable {K : Type} [LinearOrderedField K]

theorem BeamRK4.is_anihilated_iff_terminated (b : BeamRK4 K (DrainRectangle K)) :
    b.is_anihilated.1 = true ↔ Spec.terminated b := by
  unfold Spec.terminated
  by_cases ht : b.time_limit
  · simp [BeamRK4.is_anihilated_time b ht, ht]
  · by_cases ho : b.outside
    · simp [BeamRK4.is_anihilated_outside b ho, ho]
    · rw [BeamRK4.is_anihilated_inside b ht ho, BeamRK4.drain_loop_find]
      cases hf : b.drain_rectangles.find? (fun r => r.is_collided b) with
      | none =>
        rw [List.find?_eq_none] at hf
        simp only [ht, ho, false_or]
        constructor
        · intro h
          exact Bool.noConfusion h
        · rintro ⟨r, hr, hc⟩
          exact absurd hc (hf r hr)
      | some r =>
        simp only [ht, ho, false_or, true_iff]
        exact ⟨r, List.mem_of_find?_eq_some hf, by simpa using (List.find?_eq_some.mp hf).1⟩

theorem lense.any_of_false (b : BeamRK4 K (lense.DrainRectangle K))
    (rs : List (lense.DrainRectangle K)) (h : (lense.any_of b rs).1 = false) :
    (lense.any_of b rs).2 = rs ∧ ∀ r ∈ rs, (r.is_collided b).1 = false := by
  induction rs with
  | nil => exact ⟨rfl, fun r hr => by cases hr⟩
  | cons r rs ih =>
    by_cases hc : (r.is_collided b).1 = true
    · simp [lense.any_of, hc] at h
    · have hcf : (r.is_collided b).1 = false := by simpa using hc
      have h' : (lense.any_of b rs).1 = false := by
        simpa [lense.any_of, hcf] using h
      obtain ⟨i1, i2⟩ := ih h'
      have hr2 : (r.is_collided b).2 = r := by
        unfold lense.DrainRectangle.is_collided at hcf ⊢
        cases hh : r.hist with
        | none => simp [hh]
        | some l =>
          simp only [hh] at hcf ⊢
          simp only [hcf]
          rfl
      constructor
      · simp [lense.any_of, hcf, i1, hr2]
      · intro r' hr'
        rcases List.mem_cons.mp hr' with e | e
        · rw [e]; exact hcf
        · exact i2 r' e

theorem lense.any_of_true (b : BeamRK4 K (lense.DrainRectangle K))
    (rs : List (lense.DrainRectangle K)) (h : (lense.any_of b rs).1 = true) :
    ∃ r ∈ rs, (r.is_collided b).1 = true := by
  induction rs with
  | nil => exact Bool.noConfusion h
  | cons r rs ih =>
    by_cases hc : (r.is_collided b).1 = true
    · exact ⟨r, List.mem_cons_self r rs, hc⟩
    · have hcf : (r.is_collided b).1 = false := by simpa using hc
      have h' : (lense.any_of b rs).1 = true := by
        simpa [lense.any_of, hcf] using h
      obtain ⟨r', hr', hc'⟩ := ih h'
      exact ⟨r', List.mem_cons_of_mem r hr', hc'⟩

theorem lense.anihilated_iff_terminated (b : BeamRK4 K (lense.DrainRectangle K)) :
    (lense.is_anihilated b).1 = true ↔ Spec.lense_terminated b := by
  unfold Spec.lense_terminated
  by_cases ht : b.time_limit
  · simp [lense.anihilated_of_time b ht, ht]
  · by_cases ho : b.outside
    · simp [lense.anihilated_of_outside b ho, ho]
    · simp only [ht, ho, false_or]
      have e : (lense.is_anihilated b).1 = (lense.any_of b b.drain_rectangles).1 := by
        simp [lense.is_anihilated, ht, ho]
      rw [e]
      constructor
      · exact lense.any_of_true b b.drain_rectangles
      · rintro ⟨r, hr, hc⟩
        cases hv : (lense.any_of b b.drain_rectangles).1 with
        | true => rfl
        | false =>
          have := (lense.any_of_false b b.drain_rectangles hv).2 r hr
          rw [this] at hc
          exact Bool.noConfusion hc

theorem lense.anihilated_false (b : BeamRK4 K (lense.DrainRectangle K))
    (h : (lense.is_anihilated b).1 = false) : (lense.is_anihilated b).2 = b := by
  by_cases ht : b.time_limit
  · rw [lense.anihilated_of_time b ht]
  · by_cases ho : b.outside
    · rw [lense.anihilated_of_outside b ho]
    · have e : (lense.is_anihilated b).1 = (lense.any_of b b.drain_rectangles).1 := by
        simp [lense.is_anihilated, ht, ho]
      rw [e] at h
      have h2 := (lense.any_of_false b b.drain_rectangles h).1
      simp only [lense.is_anihilated, ht, ho, if_false, h2]

theorem lense.anihilated_frame (b : BeamRK4 K (lense.DrainRectangle K)) :
    (lense.is_anihilated b).2
      = { b with drain_rectangles := (lense.is_anihilated b).2.drain_rectangles } := by
  by_cases ht : b.time_limit
  · rw [lense.anihilated_of_time b ht]
  · by_cases ho : b.outside
    · rw [lense.anihilated_of_outside b ho]
    · simp only [lense.is_anihilated, ht, ho, if_false]

theorem lense.lense_run_loop_some (sqrt : K → K) (fuel : Nat)
    (b : BeamRK4 K (lense.DrainRectangle K)) (n : Nat) (b' : BeamRK4 K (lense.DrainRectangle K))
    (h : lense.run_loop sqrt fuel b = some (n, b')) :
    b' = (lense.is_anihilated (BeamRK4.steps sqrt n b)).2
    ∧ (lense.is_anihilated (BeamRK4.steps sqrt n b)).1 = true
    ∧ ∀ k, k < n → (lense.is_anihilated (BeamRK4.steps sqrt k b)).1 = false := by
  induction fuel generalizing b n with
  | zero => simp [lense.run_loop] at h
  | succ fuel ih =>
    rw [lense.run_loop] at h
    by_cases hc : (lense.is_anihilated b).1 = true
    · rw [if_pos hc] at h
      simp only [Option.some.injEq, Prod.mk.injEq] at h
      obtain ⟨hn, hb⟩ := h
      subst hn
      exact ⟨hb.symm, hc, fun k hk => absurd hk (Nat.not_lt_zero k)⟩
    · rw [if_neg hc] at h
      have hf : (lense.is_anihilated b).1 = false := by simpa using hc
      rw [lense.anihilated_false b hf] at h
      cases hr : lense.run_loop sqrt fuel
          (BeamRK4.plot_orbit_point (BeamRK4.step_RK4 sqrt b)) with
      | none => rw [hr] at h; exact Option.noConfusion h
      | some r =>
        obtain ⟨m, c⟩ := r
        rw [hr] at h
        simp only [Option.some.injEq, Prod.mk.injEq] at h
        obtain ⟨hn, hb⟩ := h
        subst hn
        subst hb
        obtain ⟨h1, h2, h3⟩ := ih _ m hr
        refine ⟨h1, h2, ?_⟩
        intro k hk
        cases k with
        | zero => exact hf
        | succ k => exact h3 k (Nat.lt_of_succ_lt_succ hk)

/-- C12: in a run that returns after `n` steps, the termination predicate
fails on the beam from which each of the `n` steps is taken (the beam after
`k < n` steps), it holds on the beam after `n` steps, and the returned beam is
that beam, apart from the tag written by the last check (in the lense variant:
apart from the histogram filled by it); so the run ends on the first beam of the
sequence that satisfies the predicate. Holds for both run loops. -/
theorem C12_check_precedes_every_step (sqrt : K → K) (fuel n : Nat)
    (b b' : BeamRK4 K (DrainRectangle K)) (fuel' m : Nat)
    (l l' : BeamRK4 K (lense.DrainRectangle K))
    (hb : BeamRK4.run sqrt fuel b = some (n, b'))
    (hl : lense.run sqrt fuel' l = some (m, l')) :
    ((∀ k, k < n → ¬ Spec.terminated (BeamRK4.steps sqrt k (BeamRK4.plot_orbit_point b)))
      ∧ Spec.terminated (BeamRK4.steps sqrt n (BeamRK4.plot_orbit_point b))
      ∧ b' = { BeamRK4.steps sqrt n (BeamRK4.plot_orbit_point b) with
                anihilation_type := b'.anihilation_type })
    ∧ ((∀ k, k < m → ¬ Spec.lense_terminated (BeamRK4.steps sqrt k (BeamRK4.plot_orbit_point l)))
      ∧ Spec.lense_terminated (BeamRK4.steps sqrt m (BeamRK4.plot_orbit_point l))
      ∧ l' = { BeamRK4.steps sqrt m (BeamRK4.plot_orbit_point l) with
                drain_rectangles := l'.drain_rectangles }) := by
  obtain ⟨b1, b2, b3⟩ := BeamRK4.run_loop_some sqrt fuel _ n b' hb
  obtain ⟨l1, l2, l3⟩ := lense.lense_run_loop_some sqrt fuel' _ m l' hl
  refine ⟨⟨?_, (BeamRK4.is_anihilated_iff_terminated _).mp b2, ?_⟩,
    ⟨?_, (lense.anihilated_iff_terminated _).mp l2, ?_⟩⟩
  · intro k hk ht
    have := (BeamRK4.is_anihilated_iff_terminated _).mpr ht
    rw [b3 k hk] at this
    exact Bool.noConfusion this
  · rw [b1]
    exact BeamRK4.is_anihilated_frame _
  · intro k hk ht
    have := (lense.anihilated_iff_terminated _).mpr ht
    rw [l3 k hk] at this
    exact Bool.noConfusion this
  · rw [l1]
    exact lense.anihilated_frame _

theorem Examples.lense_run_escaped :
    lense.run Real.sqrt 1 (Examples.lense_probe ℝ (-5) (-3) 0)
      = some (0, (lense.is_anihilated
          (BeamRK4.plot_orbit_point (Examples.lense_probe ℝ (-5) (-3) 0))).2) := by
  have ho : (BeamRK4.plot_orbit_point (Examples.lense_probe ℝ (-5) (-3) 0)).outside := by
    norm_num [BeamRK4.outside, BeamRK4.plot_orbit_point, Examples.lense_probe, Examples.beam,
      Examples.uniform_field, edge_margin]
  rw [lense.run, lense.run_loop, if_pos (by rw [lense.anihilated_of_outside _ ho])]

/-- C12 at concrete runs: the run of `beam` with `dtau = 0.001` and
`tau_final = 0.0035` takes its three steps from beams on which the predicate
fails and ends on a beam on which it holds; the run of the lense beam placed
outside the box ends at once. -/
theorem C12_check_precedes_every_step_witness :
    ((∀ k, k < 3 → ¬ Spec.terminated (BeamRK4.steps Real.sqrt k
        (BeamRK4.plot_orbit_point (Examples.beam ℝ (DrainRectangle ℝ) 0 (1 / 1000) (7 / 2000)))))
      ∧ Spec.terminated (BeamRK4.steps Real.sqrt 3
        (BeamRK4.plot_orbit_point (Examples.beam ℝ (DrainRectangle ℝ) 0 (1 / 1000) (7 / 2000)))))
    ∧ Spec.lense_terminated (BeamRK4.steps Real.sqrt 0
        (BeamRK4.plot_orbit_point (Examples.lense_probe ℝ (-5) (-3) 0))) :=
  ⟨⟨(C12_check_precedes_every_step Real.sqrt 4 3 _ _ 1 0 _ _ Examples.run_three_steps
        Examples.lense_run_escaped).1.1,
      (C12_check_precedes_every_step Real.sqrt 4 3 _ _ 1 0 _ _ Examples.run_three_steps
        Examples.lense_run_escaped).1.2.1⟩,
    (C12_check_precedes_every_step Real.sqrt 4 3 _ _ 1 0 _ _ Examples.run_three_steps
      Examples.lense_run_escaped).2.2.1⟩

end CheckFirst

/-! ## Construction -/

section Construction

variable {K : Type} [LinearOrderedField K]

theorem BeamRK4.run_zero_steps (sqrt : K → K) (b : BeamRK4 K (DrainRectangle K))
    (hi : b.tau_index = 0) (h : b.tau_final < b.dtau) :
    BeamRK4.run sqrt 1 b = some (0, BeamRK4.plot_orbit_point b) := by
  have ht : (BeamRK4.plot_orbit_point b).time_limit := by
    show ((wrap32 (b.tau_index + 1) : Int) : K) * b.dtau > b.tau_final
    rw [hi]
    have : wrap32 (0 + 1) = 1 := rfl
    rw [this]
    simpa using h
  rw [BeamRK4.run, BeamRK4.run_loop, BeamRK4.is_anihilated_time _ ht]
  rfl

/-- C13, as amended: no configuration is rejected. The constructor of
`DrainRectangle` returns a rectangle holding the given bounds and tag, also
when `x1 > x2` or `y1 > y2`, and such a rectangle reports no collision for any
beam; the constructor of `BeamRK4` returns a beam holding the given momentum,
`dtau` and `tau_final`, whatever the mass and also when `dtau >= tau_final`,
and when `tau_final < dtau` its run ends at the first check without a step. -/
theorem C13_constructors_accept_everything (sqrt : K → K)
    (x1 x2 y1 y2 length_unit : K) (anihilation_type : Int)
    (initial_x : LorentzVector K) (initial_p : LorentzP_M K) (particle_charge : K)
    (magnetic_field : TH2D K) (dtau tau_final : K) :
    ((DrainRectangle.new x1 x2 y1 y2 length_unit anihilation_type).x1 = x1
      ∧ (DrainRectangle.new x1 x2 y1 y2 length_unit anihilation_type).x2 = x2
      ∧ (DrainRectangle.new x1 x2 y1 y2 length_unit anihilation_type).y1 = y1
      ∧ (DrainRectangle.new x1 x2 y1 y2 length_unit anihilation_type).y2 = y2
      ∧ (DrainRectangle.new x1 x2 y1 y2 length_unit anihilation_type).anihilation_type
          = anihilation_type
      ∧ (x2 < x1 ∨ y2 < y1 → ∀ beam : BeamRK4 K (DrainRectangle K),
          (DrainRectangle.new x1 x2 y1 y2 length_unit anihilation_type).is_collided beam
            = false))
    ∧ ((BeamRK4.new sqrt initial_x initial_p particle_charge magnetic_field dtau tau_final
          : BeamRK4 K (DrainRectangle K)).p
          = ⟨initial_p.X, initial_p.Y, initial_p.Z, sqrt initial_p.E2⟩
      ∧ (BeamRK4.new sqrt initial_x initial_p particle_charge magnetic_field dtau tau_final
          : BeamRK4 K (DrainRectangle K)).dtau = dtau
      ∧ (BeamRK4.new sqrt initial_x initial_p particle_charge magnetic_field dtau tau_final
          : BeamRK4 K (DrainRectangle K)).tau_final = tau_final
      ∧ (tau_final < dtau →
          BeamRK4.run sqrt 1
              (BeamRK4.new sqrt initial_x initial_p particle_charge magnetic_field dtau tau_final)
            = some (0, BeamRK4.plot_orbit_point
                (BeamRK4.new sqrt initial_x initial_p particle_charge magnetic_field dtau
                  tau_final)))) := by
  refine ⟨⟨rfl, rfl, rfl, rfl, rfl, ?_⟩, rfl, rfl, rfl, ?_⟩
  · intro h beam
    simp only [DrainRectangle.is_collided, DrainRectangle.new, decide_eq_false_iff_not]
    rintro ⟨h1, h2, h3, h4⟩
    rcases h with h | h
    · exact absurd (le_trans h1 h2) (not_le.mpr h)
    · exact absurd (le_trans h3 h4) (not_le.mpr h)
  · intro h
    exact BeamRK4.run_zero_steps sqrt _ rfl h

/-- C13 as stated fails: the constructors return a rectangle with the bounds
`x1 = 1 > x2 = 0`, `y1 = 1 > y2 = 0` and a beam with mass `-4` and
`dtau = 2 >= tau_final = 1`, and the run of that beam returns. -/
theorem C13_invalid_configuration_is_constructed :
    (DrainRectangle.new (1 : ℝ) 0 1 0 1 7).x1 = 1
    ∧ (DrainRectangle.new (1 : ℝ) 0 1 0 1 7).x2 = 0
    ∧ (DrainRectangle.new (1 : ℝ) 0 1 0 1 7).y1 = 1
    ∧ (DrainRectangle.new (1 : ℝ) 0 1 0 1 7).y2 = 0
    ∧ (BeamRK4.new Real.sqrt ⟨0, 0, 0, 0⟩ ⟨3, 0, 0, -4⟩ 1 (Examples.uniform_field ℝ 1) 2 1
        : BeamRK4 ℝ (DrainRectangle ℝ)).dtau = 2
    ∧ (BeamRK4.new Real.sqrt ⟨0, 0, 0, 0⟩ ⟨3, 0, 0, -4⟩ 1 (Examples.uniform_field ℝ 1) 2 1
        : BeamRK4 ℝ (DrainRectangle ℝ)).tau_final = 1
    ∧ BeamRK4.run Real.sqrt 1
        (BeamRK4.new Real.sqrt ⟨0, 0, 0, 0⟩ ⟨3, 0, 0, -4⟩ 1 (Examples.uniform_field ℝ 1) 2 1)
      = some (0, BeamRK4.plot_orbit_point
          (BeamRK4.new Real.sqrt ⟨0, 0, 0, 0⟩ ⟨3, 0, 0, -4⟩ 1 (Examples.uniform_field ℝ 1) 2 1)) :=
  ⟨rfl, rfl, rfl, rfl, rfl, rfl,
    BeamRK4.run_zero_steps Real.sqrt _ rfl (by norm_num [BeamRK4.new])⟩

/-- C13, as amended, at concrete arguments: the rectangle built with
`x1 = 1 > x2 = 0` does not report the beam `beam`, and the run of the beam built
with `dtau = 2 > tau_final = 1` ends without a step. -/
theorem C13_constructors_accept_everything_witness :
    (DrainRectangle.new (1 : ℝ) 0 1 0 1 7).is_collided
        (Examples.beam ℝ (DrainRectangle ℝ) 0 1 10) = false
    ∧ BeamRK4.run Real.sqrt 1
        (BeamRK4.new Real.sqrt ⟨0, 0, 0, 0⟩ ⟨3, 0, 0, -4⟩ 1 (Examples.uniform_field ℝ 1) 2 1)
      = some (0, BeamRK4.plot_orbit_point
          (BeamRK4.new Real.sqrt ⟨0, 0, 0, 0⟩ ⟨3, 0, 0, -4⟩ 1 (Examples.uniform_field ℝ 1) 2 1)) :=
  ⟨(C13_constructors_accept_everything Real.sqrt 1 0 1 0 1 7 ⟨0, 0, 0, 0⟩ ⟨3, 0, 0, -4⟩ 1
      (Examples.uniform_field ℝ 1) 2 1).1.2.2.2.2.2 (Or.inl (by norm_num))
      (Examples.beam ℝ (DrainRectangle ℝ) 0 1 10),
    (C13_constructors_accept_everything Real.sqrt 1 0 1 0 1 7 ⟨0, 0, 0, 0⟩ ⟨3, 0, 0, -4⟩ 1
      (Examples.uniform_field ℝ 1) 2 1).2.2.2.2 (by norm_num)⟩

end Construction

/-! ## Planar motion, collisions and the energy -/

section Planar

variable {K : Type} [LinearOrderedField K]

theorem runge_kutta.mass_e_ne_zero : runge_kutta.mass_e K ≠ 0 := by
  norm_num [runge_kutta.mass_e, runge_kutta.unit.k]

theorem Examples.beam_M_ne_zero (R : Type) (B dtau tau_final : ℝ) :
    (Examples.beam ℝ R B dtau tau_final).p.M Real.sqrt ≠ 0 := by
  rw [Examples.beam_M]
  norm_num

/-- In a vanishing field the divisor of `beam` is 4, hence not 0, at the start
of every step. -/
theorem Examples.steps_M_ne_zero (R : Type) (dtau tau_final : ℝ) (n : Nat) :
    ∀ k, k < n →
      (BeamRK4.steps Real.sqrt k (Examples.beam ℝ R 0 dtau tau_final)).p.M Real.sqrt ≠ 0 := by
  intro k _
  rw [BeamRK4.steps_p_zero Real.sqrt k _ (fun _ _ => rfl)]
  exact Examples.beam_M_ne_zero R 0 dtau tau_final

theorem BeamRK4.step_RK4_planar {R : Type} (sqrt : K → K) (b : BeamRK4 K R)
    (hz : b.x.Z = 0) (hpz : b.p.Z = 0) :
    (BeamRK4.step_RK4 sqrt b).x.Z = 0 ∧ (BeamRK4.step_RK4 sqrt b).p.Z = 0 := by
  simp [BeamRK4.step_RK4, BeamRK4.get_dx, BeamRK4.get_dp, hz, hpz]

theorem BeamRK4.steps_planar {R : Type} (sqrt : K → K) (n : Nat) (b : BeamRK4 K R)
    (hz : b.x.Z = 0) (hpz : b.p.Z = 0) :
    (BeamRK4.steps sqrt n b).x.Z = 0 ∧ (BeamRK4.steps sqrt n b).p.Z = 0 := by
  induction n generalizing b with
  | zero => exact ⟨hz, hpz⟩
  | succ n ih =>
    obtain ⟨h1, h2⟩ := BeamRK4.step_RK4_planar sqrt b hz hpz
    exact ih (BeamRK4.plot_orbit_point (BeamRK4.step_RK4 sqrt b)) h1 h2

theorem runge_kutta.step_next_planar (magnetic_field : K → K → K)
    (s : runge_kutta.StatePoint K) (hz : s.x.Z = 0) (hpz : s.p.Z = 0) :
    (runge_kutta.step_next magnetic_field s).x.Z = 0
    ∧ (runge_kutta.step_next magnetic_field s).p.Z = 0 := by
  simp [runge_kutta.step_next, runge_kutta.lorentz_force, hz, hpz]

theorem runge_kutta.iterated_next_planar (magnetic_field : K → K → K) (n : Nat)
    (s : runge_kutta.StatePoint K) (hz : s.x.Z = 0) (hpz : s.p.Z = 0) :
    (runge_kutta.steps magnetic_field n s).x.Z = 0
    ∧ (runge_kutta.steps magnetic_field n s).p.Z = 0 := by
  induction n generalizing s with
  | zero => exact ⟨hz, hpz⟩
  | succ n ih =>
    obtain ⟨h1, h2⟩ := runge_kutta.step_next_planar magnetic_field s hz hpz
    exact ih (runge_kutta.step_next magnetic_field s) h1 h2

/-- C15, as amended: in exact arithmetic, for every field and step size, a
beam with `z = 0` and `p_z = 0` whose divisor `p.M()` is not 0 still has `z = 0`
and `p_z = 0` after `step_RK4`, and after `n` executions of the loop body when
the divisor is not 0 at the start of any of them; the same holds for
`step_next` of `runge_kutta.C`, whose divisor is the constant `mass_e`,
different from 0. -/
theorem C15_motion_is_planar {R : Type} (sqrt : K → K) (b : BeamRK4 K R) (n : Nat)
    (magnetic_field : K → K → K) (s : runge_kutta.StatePoint K)
    (hz : b.x.Z = 0) (hpz : b.p.Z = 0) (hz' : s.x.Z = 0) (hpz' : s.p.Z = 0) :
    (b.p.M sqrt ≠ 0 →
      (BeamRK4.step_RK4 sqrt b).x.Z = 0 ∧ (BeamRK4.step_RK4 sqrt b).p.Z = 0)
    ∧ ((∀ k, k < n → (BeamRK4.steps sqrt k b).p.M sqrt ≠ 0) →
      (BeamRK4.steps sqrt n b).x.Z = 0 ∧ (BeamRK4.steps sqrt n b).p.Z = 0)
    ∧ runge_kutta.mass_e K ≠ 0
    ∧ ((runge_kutta.step_next magnetic_field s).x.Z = 0
      ∧ (runge_kutta.step_next magnetic_field s).p.Z = 0)
    ∧ ((runge_kutta.steps magnetic_field n s).x.Z = 0
      ∧ (runge_kutta.steps magnetic_field n s).p.Z = 0) :=
  ⟨fun _ => BeamRK4.step_RK4_planar sqrt b hz hpz,
    fun _ => BeamRK4.steps_planar sqrt n b hz hpz,
    runge_kutta.mass_e_ne_zero,
    runge_kutta.step_next_planar magnetic_field s hz' hpz',
    runge_kutta.iterated_next_planar magnetic_field n s hz' hpz'⟩

/-- C15, as amended, at concrete states: the beam `beam` with `p.M() = 4`
stays in the plane in one step in the uniform field 1 and in 5 steps in a
vanishing field, where the divisor stays 4; the initial state of `runge_kutta`
stays in the plane for 5 steps. -/
theorem C15_motion_is_planar_witness :
    ((BeamRK4.step_RK4 Real.sqrt (Examples.beam ℝ (DrainRectangle ℝ) 1 1 10)).x.Z = 0
      ∧ (BeamRK4.step_RK4 Real.sqrt (Examples.beam ℝ (DrainRectangle ℝ) 1 1 10)).p.Z = 0)
    ∧ ((BeamRK4.steps Real.sqrt 5 (Examples.beam ℝ (DrainRectangle ℝ) 0 1 10)).x.Z = 0
      ∧ (BeamRK4.steps Real.sqrt 5 (Examples.beam ℝ (DrainRectangle ℝ) 0 1 10)).p.Z = 0)
    ∧ ((runge_kutta.steps (fun _ _ => (1 : ℝ)) 5 ⟨⟨-2, 0, 0, 0⟩, ⟨3, 0, 0, 5⟩⟩).x.Z = 0
      ∧ (runge_kutta.steps (fun _ _ => (1 : ℝ)) 5 ⟨⟨-2, 0, 0, 0⟩, ⟨3, 0, 0, 5⟩⟩).p.Z = 0) :=
  ⟨(C15_motion_is_planar Real.sqrt (Examples.beam ℝ (DrainRectangle ℝ) 1 1 10) 5
      (fun _ _ => (1 : ℝ)) ⟨⟨-2, 0, 0, 0⟩, ⟨3, 0, 0, 5⟩⟩ rfl rfl rfl rfl).1
      (Examples.beam_M_ne_zero _ 1 1 10),
    (C15_motion_is_planar Real.sqrt (Examples.beam ℝ (DrainRectangle ℝ) 0 1 10) 5
      (fun _ _ => (1 : ℝ)) ⟨⟨-2, 0, 0, 0⟩, ⟨3, 0, 0, 5⟩⟩ rfl rfl rfl rfl).2.1
      (Examples.steps_M_ne_zero _ 1 10 5),
    (C15_motion_is_planar Real.sqrt (Examples.beam ℝ (DrainRectangle ℝ) 1 1 10) 5
      (fun _ _ => (1 : ℝ)) ⟨⟨-2, 0, 0, 0⟩, ⟨3, 0, 0, 5⟩⟩ rfl rfl rfl rfl).2.2.2.2⟩

/-- C16: `is_collided` is true exactly when `x1 <= X <= x2` and
`y1 <= Y <= y2` for the position of the beam, all bounds inclusive; it gives the
same answer for two beams with the same `X` and `Y`, whatever their momentum,
`z`, `t` and step index; a rectangle with `x1 > x2` or `y1 > y2` never reports a
collision. The same holds for the value returned by `is_collided` of the lense
variant, for a plain rectangle and for a `Detector`. -/
theorem C16_is_collided_closed_rectangle (r : DrainRectangle K)
    (b b' : BeamRK4 K (DrainRectangle K)) (q : lense.DrainRectangle K)
    (l l' : BeamRK4 K (lense.DrainRectangle K)) :
    ((r.is_collided b = true ↔ r.x1 ≤ b.x.X ∧ b.x.X ≤ r.x2 ∧ r.y1 ≤ b.x.Y ∧ b.x.Y ≤ r.y2)
      ∧ (b.x.X = b'.x.X → b.x.Y = b'.x.Y → r.is_collided b = r.is_collided b')
      ∧ (r.x2 < r.x1 ∨ r.y2 < r.y1 → r.is_collided b = false))
    ∧ (((q.is_collided l).1 = true
          ↔ q.x1 ≤ l.x.X ∧ l.x.X ≤ q.x2 ∧ q.y1 ≤ l.x.Y ∧ l.x.Y ≤ q.y2)
      ∧ (l.x.X = l'.x.X → l.x.Y = l'.x.Y → (q.is_collided l).1 = (q.is_collided l').1)
      ∧ (q.x2 < q.x1 ∨ q.y2 < q.y1 → (q.is_collided l).1 = false)) := by
  have hq : ∀ c : BeamRK4 K (lense.DrainRectangle K), (q.is_collided c).1
      = decide (q.x1 ≤ c.x.X ∧ c.x.X ≤ q.x2 ∧ q.y1 ≤ c.x.Y ∧ c.x.Y ≤ q.y2) := by
    intro c
    unfold lense.DrainRectangle.is_collided
    cases q.hist <;> rfl
  refine ⟨⟨?_, ?_, ?_⟩, ⟨?_, ?_, ?_⟩⟩
  · simp [DrainRectangle.is_collided]
  · intro hx hy
    simp only [DrainRectangle.is_collided, hx, hy]
  · intro h
    simp only [DrainRectangle.is_collided, decide_eq_false_iff_not]
    rintro ⟨h1, h2, h3, h4⟩
    rcases h with h | h
    · exact absurd (le_trans h1 h2) (not_le.mpr h)
    · exact absurd (le_trans h3 h4) (not_le.mpr h)
  · rw [hq]
    simp
  · intro hx hy
    rw [hq, hq, hx, hy]
  · intro h
    rw [hq]
    simp only [decide_eq_false_iff_not]
    rintro ⟨h1, h2, h3, h4⟩
    rcases h with h | h
    · exact absurd (le_trans h1 h2) (not_le.mpr h)
    · exact absurd (le_trans h3 h4) (not_le.mpr h)

/-- C16 at concrete beams: a beam on the corner `(1, 1)` of the rectangle
`[-1, 1] × [-1, 1]` collides, beams with equal `X` and `Y` but different step
index get the same answer, and the rectangle built with `x1 = 1 > x2 = 0`
reports nothing; likewise for the detector of the lense variant. -/
theorem C16_is_collided_closed_rectangle_witness :
    (DrainRectangle.new (-1 : ℚ) 1 (-1) 1 1 7).is_collided (Examples.probe ℚ 1 1 1) = true
    ∧ (DrainRectangle.new (-1 : ℚ) 1 (-1) 1 1 7).is_collided (Examples.probe ℚ 1 1 1)
        = (DrainRectangle.new (-1 : ℚ) 1 (-1) 1 1 7).is_collided (Examples.probe ℚ 1 1 11)
    ∧ (DrainRectangle.new (1 : ℚ) 0 (-1) 1 1 7).is_collided (Examples.probe ℚ 1 1 1) = false
    ∧ ((lense.Detector.new (-1 : ℚ) 1 (-1) 1).is_collided (Examples.lense_probe ℚ 1 1 1)).1
        = true
    ∧ ((lense.DrainRectangle.new (-1 : ℚ) 1 1 0).is_collided
        (Examples.lense_probe ℚ 1 1 1)).1 = false :=
  ⟨(C16_is_collided_closed_rectangle (DrainRectangle.new (-1 : ℚ) 1 (-1) 1 1 7)
      (Examples.probe ℚ 1 1 1) (Examples.probe ℚ 1 1 11) (lense.Detector.new (-1 : ℚ) 1 (-1) 1)
      (Examples.lense_probe ℚ 1 1 1) (Examples.lense_probe ℚ 1 1 11)).1.1.mpr
      (by norm_num [DrainRectangle.new, Examples.probe]),
    (C16_is_collided_closed_rectangle (DrainRectangle.new (-1 : ℚ) 1 (-1) 1 1 7)
      (Examples.probe ℚ 1 1 1) (Examples.probe ℚ 1 1 11) (lense.Detector.new (-1 : ℚ) 1 (-1) 1)
      (Examples.lense_probe ℚ 1 1 1) (Examples.lense_probe ℚ 1 1 11)).1.2.1 rfl rfl,
    (C16_is_collided_closed_rectangle (DrainRectangle.new (1 : ℚ) 0 (-1) 1 1 7)
      (Examples.probe ℚ 1 1 1) (Examples.probe ℚ 1 1 11) (lense.Detector.new (-1 : ℚ) 1 (-1) 1)
      (Examples.lense_probe ℚ 1 1 1) (Examples.lense_probe ℚ 1 1 11)).1.2.2
      (Or.inl (by norm_num [DrainRectangle.new])),
    (C16_is_collided_closed_rectangle (DrainRectangle.new (-1 : ℚ) 1 (-1) 1 1 7)
      (Examples.probe ℚ 1 1 1) (Examples.probe ℚ 1 1 11) (lense.Detector.new (-1 : ℚ) 1 (-1) 1)
      (Examples.lense_probe ℚ 1 1 1) (Examples.lense_probe ℚ 1 1 11)).2.1.mpr
      (by norm_num [lense.Detector.new, Examples.lense_probe]),
    (C16_is_collided_closed_rectangle (DrainRectangle.new (-1 : ℚ) 1 (-1) 1 1 7)
      (Examples.probe ℚ 1 1 1) (Examples.probe ℚ 1 1 11)
      (lense.DrainRectangle.new (-1 : ℚ) 1 1 0)
      (Examples.lense_probe ℚ 1 1 1) (Examples.lense_probe ℚ 1 1 11)).2.2.2
      (Or.inr (by norm_num [lense.DrainRectangle.new]))⟩

end Planar

/-! ## Conservation of the energy component -/

section Energy

variable {K : Type} [LinearOrderedField K]

theorem BeamRK4.get_dp_T {R : Type} (sqrt : K → K) (b : BeamRK4 K R) (x p : LorentzVector K) :
    (BeamRK4.get_dp sqrt b x p).T = 0 := by
  simp [BeamRK4.get_dp]

theorem runge_kutta.step_next_p_T (magnetic_field : K → K → K) (s : runge_kutta.StatePoint K) :
    (runge_kutta.step_next magnetic_field s).p.T = s.p.T := by
  simp [runge_kutta.step_next, runge_kutta.lorentz_force]

theorem runge_kutta.steps_p_energy (magnetic_field : K → K → K) (n : Nat)
    (s : runge_kutta.StatePoint K) :
    (runge_kutta.steps magnetic_field n s).p.T = s.p.T := by
  induction n generalizing s with
  | zero => rfl
  | succ n ih =>
    rw [runge_kutta.steps, ih]
    exact runge_kutta.step_next_p_T magnetic_field s

theorem LorentzP_M.E2_of_nonneg (v : LorentzP_M K) (hm : 0 ≤ v.M) :
    v.E2 = v.M * v.M + (v.X * v.X + v.Y * v.Y + v.Z * v.Z) := by
  unfold LorentzP_M.E2
  simp only [hm, if_true]
  have h0 : 0 ≤ v.X * v.X + v.Y * v.Y + v.Z * v.Z + v.M * v.M := by
    nlinarith [mul_self_nonneg v.X, mul_self_nonneg v.Y, mul_self_nonneg v.Z,
      mul_self_nonneg v.M]
  by_cases hp : 0 < v.X * v.X + v.Y * v.Y + v.Z * v.Z + v.M * v.M
  · rw [if_pos hp]
    ring
  · rw [if_neg hp]
    have : v.X * v.X + v.Y * v.Y + v.Z * v.Z + v.M * v.M = 0 :=
      le_antisymm (not_lt.mp hp) h0
    linarith

/-- C17, as amended: in exact arithmetic `step_RK4` leaves the energy
component `p.E()` unchanged, for every field, charge and `dtau` and every beam
whose divisor `p.M()` is not 0, because every increment returned by `get_dp`
then has the `E` component 0; hence the beam returned by a run, at the start of
none of whose steps the divisor was 0, has the energy of the beam the run
started with, which for a beam constructed from a momentum `(p_x, p_y, p_z)`
with mass `m >= 0` is the square root of `m^2 + |p|^2`. `step_next` of
`runge_kutta.C`, whose lorentz_force does not divide, leaves `p.E()` unchanged
too, for any number of steps. -/
theorem C17_energy_is_unchanged (sqrt : K → K) (b b' : BeamRK4 K (DrainRectangle K))
    (fuel n : Nat) (x p : LorentzVector K)
    (initial_x : LorentzVector K) (initial_p : LorentzP_M K) (particle_charge : K)
    (field : TH2D K) (dtau tau_final : K)
    (magnetic_field : K → K → K) (s : runge_kutta.StatePoint K) (k : Nat) :
    (b.p.M sqrt ≠ 0 → (BeamRK4.get_dp sqrt b x p).E = 0)
    ∧ (b.p.M sqrt ≠ 0 → (BeamRK4.step_RK4 sqrt b).p.E = b.p.E)
    ∧ ((∀ j, j < k → (BeamRK4.steps sqrt j b).p.M sqrt ≠ 0) →
        (BeamRK4.steps sqrt k b).p.E = b.p.E)
    ∧ (BeamRK4.run sqrt fuel b = some (n, b') →
        (∀ j, j < n →
          (BeamRK4.steps sqrt j (BeamRK4.plot_orbit_point b)).p.M sqrt ≠ 0) →
        b'.p.E = b.p.E)
    ∧ (0 ≤ initial_p.M →
        (BeamRK4.new sqrt initial_x initial_p particle_charge field dtau tau_final
          : BeamRK4 K (DrainRectangle K)).p.E
          = sqrt (initial_p.M * initial_p.M
              + (initial_p.X * initial_p.X + initial_p.Y * initial_p.Y
                + initial_p.Z * initial_p.Z)))
    ∧ (runge_kutta.step_next magnetic_field s).p.E = s.p.E
    ∧ (runge_kutta.steps magnetic_field k s).p.E = s.p.E := by
  refine ⟨fun _ => BeamRK4.get_dp_T sqrt b x p, fun _ => BeamRK4.step_RK4_p_T sqrt b,
    fun _ => BeamRK4.steps_p_T sqrt k b, ?_, ?_, runge_kutta.step_next_p_T magnetic_field s,
    runge_kutta.steps_p_energy magnetic_field k s⟩
  · intro h _
    obtain ⟨hb, -, -⟩ := BeamRK4.run_loop_some sqrt fuel _ n b' h
    have hf := BeamRK4.is_anihilated_frame (BeamRK4.steps sqrt n (BeamRK4.plot_orbit_point b))
    rw [← hb] at hf
    rw [hf]
    exact BeamRK4.steps_p_T sqrt n (BeamRK4.plot_orbit_point b)
  · intro hm
    show sqrt initial_p.E2 = _
    rw [LorentzP_M.E2_of_nonneg initial_p hm]

/-- C17, as amended, at a concrete run: the beam `beam` has `p.M() = 4`, in a
vanishing field at the start of every step; one step in the uniform field 1
leaves its energy 5, the beam returned by its run with `dtau = 0.001` and
`tau_final = 0.0035` in a vanishing field has the energy 5 it started with,
and the beam constructed from the momentum `(3, 0, 0)` with mass 4 has the
energy `sqrt (4 * 4 + (3 * 3 + 0 * 0 + 0 * 0))`. -/
theorem C17_energy_is_unchanged_witness :
    (BeamRK4.step_RK4 Real.sqrt (Examples.beam ℝ (DrainRectangle ℝ) 1 1 10)).p.E
      = (Examples.beam ℝ (DrainRectangle ℝ) 1 1 10).p.E
    ∧ ((BeamRK4.steps Real.sqrt 3
        (Examples.started ℝ (DrainRectangle ℝ) 0 (1 / 1000) (7 / 2000))).is_anihilated.2).p.E
      = (Examples.beam ℝ (DrainRectangle ℝ) 0 (1 / 1000) (7 / 2000)).p.E
    ∧ (Examples.constructed ℝ Real.sqrt (DrainRectangle ℝ) 0 (1 / 1000) (7 / 2000)).p.E
      = Real.sqrt (4 * 4 + (3 * 3 + 0 * 0 + 0 * 0)) :=
  ⟨(C17_energy_is_unchanged Real.sqrt
      (Examples.beam ℝ (DrainRectangle ℝ) 1 1 10)
      (Examples.beam ℝ (DrainRectangle ℝ) 1 1 10) 4 3 ⟨0, 0, 0, 0⟩
      ⟨0, 0, 0, 0⟩ ⟨0, 0, 0, 0⟩ ⟨3, 0, 0, 4⟩ 1 (Examples.uniform_field ℝ 0) (1 / 1000)
      (7 / 2000) (fun _ _ => 0) ⟨⟨0, 0, 0, 0⟩, ⟨0, 0, 0, 0⟩⟩ 0).2.1
      (Examples.beam_M_ne_zero _ 1 1 10),
    (C17_energy_is_unchanged Real.sqrt
      (Examples.beam ℝ (DrainRectangle ℝ) 0 (1 / 1000) (7 / 2000)) _ 4 3 ⟨0, 0, 0, 0⟩
      ⟨0, 0, 0, 0⟩ ⟨0, 0, 0, 0⟩ ⟨3, 0, 0, 4⟩ 1 (Examples.uniform_field ℝ 0) (1 / 1000)
      (7 / 2000) (fun _ _ => 0) ⟨⟨0, 0, 0, 0⟩, ⟨0, 0, 0, 0⟩⟩ 0).2.2.2.1
      Examples.run_three_steps
      (fun j _ => by
        rw [BeamRK4.steps_p_zero Real.sqrt j _ (fun _ _ => rfl)]
        exact Examples.beam_M_ne_zero (DrainRectangle ℝ) 0 (1 / 1000) (7 / 2000)),
    (C17_energy_is_unchanged Real.sqrt
      (Examples.beam ℝ (DrainRectangle ℝ) 0 (1 / 1000) (7 / 2000))
      (Examples.beam ℝ (DrainRectangle ℝ) 0 (1 / 1000) (7 / 2000)) 4 3 ⟨0, 0, 0, 0⟩
      ⟨0, 0, 0, 0⟩ ⟨0, 0, 0, 0⟩ ⟨3, 0, 0, 4⟩ 1 (Examples.uniform_field ℝ 0) (1 / 1000)
      (7 / 2000) (fun _ _ => 0) ⟨⟨0, 0, 0, 0⟩, ⟨0, 0, 0, 0⟩⟩ 0).2.2.2.2.1 (by norm_num)⟩

end Energy

/-! ## One step in a uniform field -/

section Uniform

variable {K : Type} [LinearOrderedField K] {R : Type}

theorem BeamRK4.get_dp_uniform (sqrt : K → K) (b : BeamRK4 K R) (B : K)
    (hB : ∀ u v, b.magnetic_field.Interpolate u v = B) (x p : LorentzVector K) :
    BeamRK4.get_dp sqrt b x p
      = ⟨Spec.theta sqrt b B * p.Y, - (Spec.theta sqrt b B * p.X), 0, 0⟩ := by
  ext <;> simp [BeamRK4.get_dp, hB, Spec.theta] <;> ring

theorem BeamRK4.step_RK4_p_uniform (sqrt : K → K) (b : BeamRK4 K R) (B : K)
    (hB : ∀ u v, b.magnetic_field.Interpolate u v = B) :
    (BeamRK4.step_RK4 sqrt b).p.X
        = (1 - Spec.theta sqrt b B ^ 2 / 2 + Spec.theta sqrt b B ^ 4 / 24) * b.p.X
          + (Spec.theta sqrt b B - Spec.theta sqrt b B ^ 3 / 6) * b.p.Y
    ∧ (BeamRK4.step_RK4 sqrt b).p.Y
        = (1 - Spec.theta sqrt b B ^ 2 / 2 + Spec.theta sqrt b B ^ 4 / 24) * b.p.Y
          + (Spec.theta sqrt b B - Spec.theta sqrt b B ^ 3 / 6) * (- b.p.X) := by
  simp only [BeamRK4.step_RK4, BeamRK4.get_dp_uniform sqrt b B hB, LorentzVector.add_X,
    LorentzVector.add_Y, LorentzVector.div_X, LorentzVector.div_Y, LorentzVector.smul_X,
    LorentzVector.smul_Y]
  generalize Spec.theta sqrt b B = t
  constructor <;> ring

theorem Spec.factor_lt_one (t : K) (h0 : 0 < t ^ 2) (h8 : t ^ 2 < 8) :
    1 - t ^ 6 / 72 + t ^ 8 / 576 < 1 := by
  have h6 : 0 < t ^ 6 := by
    have : t ^ 6 = (t ^ 2) ^ 3 := by ring
    rw [this]
    positivity
  have : t ^ 8 / 576 < t ^ 6 / 72 := by
    have e : t ^ 8 = t ^ 6 * t ^ 2 := by ring
    rw [e]
    have : t ^ 6 * t ^ 2 < t ^ 6 * 8 := mul_lt_mul_of_pos_left h8 h6
    linarith
  linarith

/-- C18, as amended: in exact arithmetic, in a field of the same value `B`
everywhere and for a beam whose divisor `M = p.M()` is not 0, with
`theta = charge * B * magnetic_field_unit * dtau / M`, `step_RK4` maps the planar
momentum to `(1 - theta^2/2 + theta^4/24) (p_x, p_y) + (theta - theta^3/6) (p_y, -p_x)`,
so `p_x^2 + p_y^2` is multiplied by exactly `1 - theta^6/72 + theta^8/576`, which is
less than 1 when `0 < theta^2 < 8`; `plot_orbit_point`, the rest of the loop
body, leaves the momentum as the step made it. -/
theorem C18_momentum_magnitude_shrinks (sqrt : K → K) (b : BeamRK4 K R) (B : K)
    (hB : ∀ u v, b.magnetic_field.Interpolate u v = B) (_hM : b.p.M sqrt ≠ 0) :
    ((BeamRK4.step_RK4 sqrt b).p.X
        = (1 - Spec.theta sqrt b B ^ 2 / 2 + Spec.theta sqrt b B ^ 4 / 24) * b.p.X
          + (Spec.theta sqrt b B - Spec.theta sqrt b B ^ 3 / 6) * b.p.Y
      ∧ (BeamRK4.step_RK4 sqrt b).p.Y
        = (1 - Spec.theta sqrt b B ^ 2 / 2 + Spec.theta sqrt b B ^ 4 / 24) * b.p.Y
          + (Spec.theta sqrt b B - Spec.theta sqrt b B ^ 3 / 6) * (- b.p.X))
    ∧ (BeamRK4.step_RK4 sqrt b).p.X ^ 2 + (BeamRK4.step_RK4 sqrt b).p.Y ^ 2
        = (1 - Spec.theta sqrt b B ^ 6 / 72 + Spec.theta sqrt b B ^ 8 / 576)
          * (b.p.X ^ 2 + b.p.Y ^ 2)
    ∧ (0 < Spec.theta sqrt b B ^ 2 → Spec.theta sqrt b B ^ 2 < 8 →
        1 - Spec.theta sqrt b B ^ 6 / 72 + Spec.theta sqrt b B ^ 8 / 576 < 1)
    ∧ (BeamRK4.plot_orbit_point (BeamRK4.step_RK4 sqrt b)).p = (BeamRK4.step_RK4 sqrt b).p := by
  obtain ⟨hx, hy⟩ := BeamRK4.step_RK4_p_uniform sqrt b B hB
  refine ⟨⟨hx, hy⟩, ?_, Spec.factor_lt_one _, rfl⟩
  rw [hx, hy]
  ring

/-- C18, as amended, at a concrete beam: momentum `(3, 0, 0)`, `p.M() = 4`,
`dtau = 4` in the uniform field 1, hence `theta = 1`: after the step
`p_x^2 + p_y^2` is `(1 - 1/72 + 1/576) * 9`, and the factor is less than 1. -/
theorem C18_momentum_magnitude_shrinks_witness :
    (BeamRK4.step_RK4 Real.sqrt (Examples.beam ℝ (DrainRectangle ℝ) 1 4 100)).p.X ^ 2
        + (BeamRK4.step_RK4 Real.sqrt (Examples.beam ℝ (DrainRectangle ℝ) 1 4 100)).p.Y ^ 2
      = (1 - (1 : ℝ) ^ 6 / 72 + 1 ^ 8 / 576) * (3 ^ 2 + 0 ^ 2)
    ∧ 1 - (1 : ℝ) ^ 6 / 72 + 1 ^ 8 / 576 < 1 := by
  have ht : Spec.theta Real.sqrt (Examples.beam ℝ (DrainRectangle ℝ) 1 4 100) 1 = 1 := by
    unfold Spec.theta
    rw [Examples.beam_M]
    norm_num [Examples.beam]
  have h := C18_momentum_magnitude_shrinks Real.sqrt
    (Examples.beam ℝ (DrainRectangle ℝ) 1 4 100) 1 (fun _ _ => rfl)
    (by rw [Examples.beam_M]; norm_num)
  rw [ht] at h
  exact ⟨h.2.1, h.2.2.1 (by norm_num) (by norm_num)⟩

end Uniform

/-! ## The tag at the end of a run -/

section FinalTag

variable {K : Type} [LinearOrderedField K]

theorem spectrometer.find_detector (c : BeamRK4 K (DrainRectangle K))
    (r : DrainRectangle K)
    (h : (spectrometer.reference_rectangles K).find? (fun r => r.is_collided c) = some r) :
    r.anihilation_type = 1
      ↔ (spectrometer.detector K).is_collided c = true
        ∧ (spectrometer.top_collimator_left K).is_collided c = false
        ∧ (spectrometer.top_collimator_right K).is_collided c = false
        ∧ (spectrometer.side_collimator_top K).is_collided c = false
        ∧ (spectrometer.side_collimator_bottom K).is_collided c = false := by
  unfold spectrometer.reference_rectangles at h
  cases h1 : (spectrometer.top_collimator_left K).is_collided c <;>
  cases h2 : (spectrometer.top_collimator_right K).is_collided c <;>
  cases h3 : (spectrometer.side_collimator_top K).is_collided c <;>
  cases h4 : (spectrometer.side_collimator_bottom K).is_collided c <;>
  cases h5 : (spectrometer.detector K).is_collided c <;>
  simp only [List.find?, h1, h2, h3, h4, h5, Option.some.injEq] at h <;>
  first
  | exact Option.noConfusion h
  | (subst h
     simp [spectrometer.top_collimator_left, spectrometer.top_collimator_right,
       spectrometer.side_collimator_top, spectrometer.side_collimator_bottom,
       spectrometer.detector, DrainRectangle.new])

/-- C19: for a run of `spectrometer_prototype_momentum` that starts with
`anihilation_type = 0`, the recorded tag is nonzero exactly when the last check
passed the time-limit and the boundary test and the first rectangle of
`drain_rectangles` containing the final position carries that nonzero tag; a run
ended by the time limit or by boundary escape records 0, the tag of the
collimators; with the five rectangles of the program the tag is 1 exactly when
the last check passed both tests and the final position lies in the detector and
in none of the four collimators inserted before it. -/
theorem C19_final_tag (sqrt : K → K) (fuel n : Nat) (b b' : BeamRK4 K (DrainRectangle K))
    (h0 : b.anihilation_type = 0) (h : BeamRK4.run sqrt fuel b = some (n, b')) :
    (b'.anihilation_type ≠ 0
      ↔ ¬ (BeamRK4.steps sqrt n (BeamRK4.plot_orbit_point b)).time_limit
        ∧ ¬ (BeamRK4.steps sqrt n (BeamRK4.plot_orbit_point b)).outside
        ∧ ∃ r, (BeamRK4.steps sqrt n (BeamRK4.plot_orbit_point b)).drain_rectangles.find?
              (fun r => r.is_collided (BeamRK4.steps sqrt n (BeamRK4.plot_orbit_point b)))
              = some r
          ∧ r.anihilation_type = b'.anihilation_type ∧ r.anihilation_type ≠ 0)
    ∧ ((BeamRK4.steps sqrt n (BeamRK4.plot_orbit_point b)).time_limit
        ∨ (BeamRK4.steps sqrt n (BeamRK4.plot_orbit_point b)).outside →
      b'.anihilation_type = 0)
    ∧ (b.drain_rectangles = spectrometer.reference_rectangles K →
      (b'.anihilation_type = 1
        ↔ ¬ (BeamRK4.steps sqrt n (BeamRK4.plot_orbit_point b)).time_limit
          ∧ ¬ (BeamRK4.steps sqrt n (BeamRK4.plot_orbit_point b)).outside
          ∧ (spectrometer.detector K).is_collided
              (BeamRK4.steps sqrt n (BeamRK4.plot_orbit_point b)) = true
          ∧ (spectrometer.top_collimator_left K).is_collided
              (BeamRK4.steps sqrt n (BeamRK4.plot_orbit_point b)) = false
          ∧ (spectrometer.top_collimator_right K).is_collided
              (BeamRK4.steps sqrt n (BeamRK4.plot_orbit_point b)) = false
          ∧ (spectrometer.side_collimator_top K).is_collided
              (BeamRK4.steps sqrt n (BeamRK4.plot_orbit_point b)) = false
          ∧ (spectrometer.side_collimator_bottom K).is_collided
              (BeamRK4.steps sqrt n (BeamRK4.plot_orbit_point b)) = false)) := by
  obtain ⟨t1, t2⟩ := BeamRK4.run_tag sqrt fuel n b b' h
  have hzero : (BeamRK4.steps sqrt n (BeamRK4.plot_orbit_point b)).time_limit
      ∨ (BeamRK4.steps sqrt n (BeamRK4.plot_orbit_point b)).outside →
      b'.anihilation_type = 0 := fun hc => by rw [t1 hc, h0]
  refine ⟨?_, hzero, ?_⟩
  · constructor
    · intro hne
      have ht : ¬ (BeamRK4.steps sqrt n (BeamRK4.plot_orbit_point b)).time_limit :=
        fun hc => hne (hzero (Or.inl hc))
      have ho : ¬ (BeamRK4.steps sqrt n (BeamRK4.plot_orbit_point b)).outside :=
        fun hc => hne (hzero (Or.inr hc))
      obtain ⟨r, hf, hr⟩ := t2 ht ho
      exact ⟨ht, ho, r, hf, hr.symm, by rw [← hr]; exact hne⟩
    · rintro ⟨-, -, r, -, hr, hne⟩
      rw [← hr]
      exact hne
  · intro hrect
    have hl : (BeamRK4.steps sqrt n (BeamRK4.plot_orbit_point b)).drain_rectangles
        = spectrometer.reference_rectangles K := by
      rw [(BeamRK4.steps_frame sqrt n (BeamRK4.plot_orbit_point b)).2.2.2.2.1]
      exact hrect
    constructor
    · intro h1
      have ht : ¬ (BeamRK4.steps sqrt n (BeamRK4.plot_orbit_point b)).time_limit := by
        intro hc
        have := hzero (Or.inl hc)
        omega
      have ho : ¬ (BeamRK4.steps sqrt n (BeamRK4.plot_orbit_point b)).outside := by
        intro hc
        have := hzero (Or.inr hc)
        omega
      obtain ⟨r, hf, hr⟩ := t2 ht ho
      rw [hl] at hf
      exact ⟨ht, ho, (spectrometer.find_detector _ r hf).mp (by rw [← hr]; exact h1)⟩
    · rintro ⟨ht, ho, hd⟩
      obtain ⟨r, hf, hr⟩ := t2 ht ho
      rw [hl] at hf
      rw [hr]
      exact (spectrometer.find_detector _ r hf).mpr hd

theorem Examples.run_on_detector :
    BeamRK4.run Real.sqrt 1 (Examples.on_detector ℝ)
      = some (0, (BeamRK4.plot_orbit_point (Examples.on_detector ℝ)).is_anihilated.2) :=
  BeamRK4.run_loop_of_checks Real.sqrt 0 _
    (by
      show (BeamRK4.plot_orbit_point (Examples.on_detector ℝ)).is_anihilated.1 = true
      norm_num [BeamRK4.is_anihilated, BeamRK4.time_limit, BeamRK4.outside, BeamRK4.drain_loop,
        DrainRectangle.is_collided, BeamRK4.plot_orbit_point, Examples.on_detector,
        Examples.beam, Examples.uniform_field, edge_margin, wrap32,
        spectrometer.reference_rectangles, spectrometer.top_collimator_left,
        spectrometer.top_collimator_right, spectrometer.side_collimator_top,
        spectrometer.side_collimator_bottom, spectrometer.detector, spectrometer.cm,
        DrainRectangle.new])
    (fun k hk => absurd hk (Nat.not_lt_zero k))

/-- C19 at concrete runs: the run of the beam placed inside the detector
records the tag 1, and the run of `beam` that ends by the time limit after three
steps records 0. -/
theorem C19_final_tag_witness :
    ((BeamRK4.plot_orbit_point (Examples.on_detector ℝ)).is_anihilated.2).anihilation_type = 1
    ∧ ((BeamRK4.steps Real.sqrt 3
        (Examples.started ℝ (DrainRectangle ℝ) 0 (1 / 1000) (7 / 2000))).is_anihilated.2
      ).anihilation_type = 0 :=
  ⟨((C19_final_tag Real.sqrt 1 0 (Examples.on_detector ℝ) _ rfl
      Examples.run_on_detector).2.2 rfl).mpr
      ⟨by norm_num [BeamRK4.steps, BeamRK4.time_limit, BeamRK4.plot_orbit_point,
          Examples.on_detector, Examples.beam, wrap32],
        by norm_num [BeamRK4.steps, BeamRK4.outside, BeamRK4.plot_orbit_point,
          Examples.on_detector, Examples.beam, Examples.uniform_field, edge_margin],
        by norm_num [BeamRK4.steps, DrainRectangle.is_collided, BeamRK4.plot_orbit_point,
          Examples.on_detector, spectrometer.detector, spectrometer.cm, DrainRectangle.new],
        by norm_num [BeamRK4.steps, DrainRectangle.is_collided, BeamRK4.plot_orbit_point,
          Examples.on_detector, spectrometer.top_collimator_left, spectrometer.cm,
          DrainRectangle.new],
        by norm_num [BeamRK4.steps, DrainRectangle.is_collided, BeamRK4.plot_orbit_point,
          Examples.on_detector, spectrometer.top_collimator_right, spectrometer.cm,
          DrainRectangle.new],
        by norm_num [BeamRK4.steps, DrainRectangle.is_collided, BeamRK4.plot_orbit_point,
          Examples.on_detector, spectrometer.side_collimator_top, spectrometer.cm,
          DrainRectangle.new],
        by norm_num [BeamRK4.steps, DrainRectangle.is_collided, BeamRK4.plot_orbit_point,
          Examples.on_detector, spectrometer.side_collimator_bottom, spectrometer.cm,
          DrainRectangle.new]⟩,
    (C19_final_tag Real.sqrt 4 3 (Examples.beam ℝ (DrainRectangle ℝ) 0 (1 / 1000) (7 / 2000)) _
      rfl Examples.run_three_steps).2.1 (Or.inl Examples.three_steps_time_limit)⟩

end FinalTag

/-! ## The orbit in a uniform field -/

section Circle

variable {K : Type} [LinearOrderedField K] {R : Type}

theorem BeamRK4.step_RK4_conserved (sqrt : K → K) (b : BeamRK4 K R) (B : K)
    (hB : ∀ u v, b.magnetic_field.Interpolate u v = B) :
    Spec.kappa b B * (BeamRK4.step_RK4 sqrt b).x.X + (BeamRK4.step_RK4 sqrt b).p.Y
        = Spec.kappa b B * b.x.X + b.p.Y
    ∧ Spec.kappa b B * (BeamRK4.step_RK4 sqrt b).x.Y - (BeamRK4.step_RK4 sqrt b).p.X
        = Spec.kappa b B * b.x.Y - b.p.X := by
  simp only [BeamRK4.step_RK4, BeamRK4.get_dp_uniform sqrt b B hB, BeamRK4.get_dx,
    LorentzVector.add_X, LorentzVector.add_Y, LorentzVector.div_X, LorentzVector.div_Y,
    LorentzVector.smul_X, LorentzVector.smul_Y, LorentzVector.mul_X, LorentzVector.mul_Y,
    Spec.theta, Spec.kappa]
  constructor <;> ring

theorem BeamRK4.steps_frame_charge (sqrt : K → K) (n : Nat) (b : BeamRK4 K R) :
    (BeamRK4.steps sqrt n b).charge = b.charge
    ∧ (BeamRK4.steps sqrt n b).magnetic_field_unit = b.magnetic_field_unit := by
  induction n generalizing b with
  | zero => exact ⟨rfl, rfl⟩
  | succ n ih => exact ih (BeamRK4.plot_orbit_point (BeamRK4.step_RK4 sqrt b))

theorem BeamRK4.steps_conserved (sqrt : K → K) (n : Nat) (b : BeamRK4 K R) (B : K)
    (hB : ∀ u v, b.magnetic_field.Interpolate u v = B) :
    Spec.kappa b B * (BeamRK4.steps sqrt n b).x.X + (BeamRK4.steps sqrt n b).p.Y
        = Spec.kappa b B * b.x.X + b.p.Y
    ∧ Spec.kappa b B * (BeamRK4.steps sqrt n b).x.Y - (BeamRK4.steps sqrt n b).p.X
        = Spec.kappa b B * b.x.Y - b.p.X := by
  induction n generalizing b with
  | zero => exact ⟨rfl, rfl⟩
  | succ n ih =>
    obtain ⟨i1, i2⟩ := ih (BeamRK4.plot_orbit_point (BeamRK4.step_RK4 sqrt b)) hB
    obtain ⟨s1, s2⟩ := BeamRK4.step_RK4_conserved sqrt b B hB
    exact ⟨i1.trans s1, i2.trans s2⟩

/-- In a uniform field the squared distance of the beam from the centre of
the circle of the initial state is `(p_x^2 + p_y^2) / k^2` of the current
momentum, after any number of steps. -/
theorem BeamRK4.steps_dist_sq (sqrt : K → K) (n : Nat) (b : BeamRK4 K R) (B : K)
    (hB : ∀ u v, b.magnetic_field.Interpolate u v = B) (hk : Spec.kappa b B ≠ 0) :
    Spec.dist_sq (Spec.centre (Spec.kappa b B) b.x b.p) (BeamRK4.steps sqrt n b).x
      = Spec.radius_sq (Spec.kappa b B) (BeamRK4.steps sqrt n b).p := by
  obtain ⟨c1, c2⟩ := BeamRK4.steps_conserved sqrt n b B hB
  have e1 : (BeamRK4.steps sqrt n b).x.X - (b.x.X + b.p.Y / Spec.kappa b B)
      = - (BeamRK4.steps sqrt n b).p.Y / Spec.kappa b B := by
    field_simp
    linear_combination c1
  have e2 : (BeamRK4.steps sqrt n b).x.Y - (b.x.Y - b.p.X / Spec.kappa b B)
      = (BeamRK4.steps sqrt n b).p.X / Spec.kappa b B := by
    field_simp
    linear_combination c2
  simp only [Spec.dist_sq, Spec.centre, Spec.radius_sq, e1, e2]
  field_simp
  ring

theorem Spec.factor_bounds (t : K) (ht : t ^ 2 ≤ 1 / 100) :
    1 - 1 / 72000000 ≤ 1 - t ^ 6 / 72 + t ^ 8 / 576
    ∧ 1 - t ^ 6 / 72 + t ^ 8 / 576 ≤ 1 := by
  have h2 : 0 ≤ t ^ 2 := sq_nonneg t
  have h6 : t ^ 6 ≤ 1 / 1000000 := by
    have e : t ^ 6 = (t ^ 2) ^ 3 := by ring
    rw [e]
    calc (t ^ 2) ^ 3 ≤ (1 / 100 : K) ^ 3 := pow_le_pow_left₀ h2 ht 3
      _ = 1 / 1000000 := by norm_num
  have h6' : 0 ≤ t ^ 6 := by
    have e : t ^ 6 = (t ^ 3) ^ 2 := by ring
    rw [e]
    exact sq_nonneg _
  have h8 : 0 ≤ t ^ 8 := by
    have e : t ^ 8 = (t ^ 4) ^ 2 := by ring
    rw [e]
    exact sq_nonneg _
  have h8' : t ^ 8 ≤ t ^ 6 * (1 / 100) := by
    have e : t ^ 8 = t ^ 6 * t ^ 2 := by ring
    rw [e]
    exact mul_le_mul_of_nonneg_left ht h6'
  constructor <;> linarith

theorem Spec.power_bound (n : Nat) (hn : n ≤ 10000) :
    ((1 : K) - 1 / 1000) ^ 2 ≤ (1 - 1 / 72000000) ^ n := by
  have hb : (1 : K) + (n : K) * (-(1 / 72000000)) ≤ (1 + -(1 / 72000000)) ^ n :=
    one_add_mul_le_pow (by norm_num) n
  have hn' : (n : K) ≤ 10000 := by exact_mod_cast hn
  have e : (1 : K) + -(1 / 72000000) = 1 - 1 / 72000000 := by ring
  rw [e] at hb
  have : ((1 : K) - 1 / 1000) ^ 2 ≤ 1 + (n : K) * (-(1 / 72000000)) := by
    nlinarith
  linarith

theorem BeamRK4.step_RK4_sq_uniform (sqrt : K → K) (b : BeamRK4 K R) (B : K)
    (hB : ∀ u v, b.magnetic_field.Interpolate u v = B) :
    (BeamRK4.step_RK4 sqrt b).p.X ^ 2 + (BeamRK4.step_RK4 sqrt b).p.Y ^ 2
      = (1 - Spec.theta sqrt b B ^ 6 / 72 + Spec.theta sqrt b B ^ 8 / 576)
        * (b.p.X ^ 2 + b.p.Y ^ 2) := by
  obtain ⟨hx, hy⟩ := BeamRK4.step_RK4_p_uniform sqrt b B hB
  rw [hx, hy]
  ring

theorem LorentzVector.M_real_sq (v : LorentzVector ℝ) (h : 0 ≤ v.M2) :
    0 ≤ v.M Real.sqrt ∧ v.M Real.sqrt ^ 2 = v.M2 := by
  unfold LorentzVector.M
  rw [if_pos h]
  exact ⟨Real.sqrt_nonneg _, Real.sq_sqrt h⟩

/-- Over the reals, in a uniform field with `|k * dtau| <= M / 10` for a
beam of positive `M2()`, each step multiplies `p_x^2 + p_y^2` by a factor
between `1 - 1/72000000` and 1. -/
theorem BeamRK4.steps_shrink (n : Nat) (b : BeamRK4 ℝ R) (B : ℝ)
    (hB : ∀ u v, b.magnetic_field.Interpolate u v = B) (hM : 0 < b.p.M2)
    (hθ : |Spec.kappa b B * b.dtau| ≤ b.p.M Real.sqrt / 10) :
    (1 - 1 / 72000000) ^ n * (b.p.X ^ 2 + b.p.Y ^ 2)
        ≤ (BeamRK4.steps Real.sqrt n b).p.X ^ 2 + (BeamRK4.steps Real.sqrt n b).p.Y ^ 2
    ∧ (BeamRK4.steps Real.sqrt n b).p.X ^ 2 + (BeamRK4.steps Real.sqrt n b).p.Y ^ 2
        ≤ b.p.X ^ 2 + b.p.Y ^ 2 := by
  induction n with
  | zero => simp [BeamRK4.steps]
  | succ n ih =>
    obtain ⟨lo, hi⟩ := ih
    obtain ⟨fd, -, ff, -, -, -⟩ := BeamRK4.steps_frame Real.sqrt n b
    obtain ⟨fc, fu⟩ := BeamRK4.steps_frame_charge Real.sqrt n b
    have hB' : ∀ u v, (BeamRK4.steps Real.sqrt n b).magnetic_field.Interpolate u v = B := by
      rw [ff]
      exact hB
    have hT := BeamRK4.steps_p_T Real.sqrt n b
    have hZ := BeamRK4.steps_p_Z Real.sqrt n b
    have hM2 : b.p.M2 ≤ (BeamRK4.steps Real.sqrt n b).p.M2 := by
      simp only [LorentzVector.M2, hT, hZ]
      nlinarith
    have hM2pos : 0 < (BeamRK4.steps Real.sqrt n b).p.M2 := lt_of_lt_of_le hM hM2
    obtain ⟨m0, m0sq⟩ := LorentzVector.M_real_sq b.p (le_of_lt hM)
    obtain ⟨mc, mcsq⟩ := LorentzVector.M_real_sq (BeamRK4.steps Real.sqrt n b).p
      (le_of_lt hM2pos)
    have hkd : (Spec.kappa b B * b.dtau) ^ 2 ≤ b.p.M2 / 100 := by
      have h1 : (Spec.kappa b B * b.dtau) ^ 2 ≤ (b.p.M Real.sqrt / 10) ^ 2 :=
        sq_le_sq' (by linarith [(abs_le.mp hθ).1]) (abs_le.mp hθ).2
      rw [div_pow, m0sq] at h1
      linarith
    have hth : Spec.theta Real.sqrt (BeamRK4.steps Real.sqrt n b) B ^ 2 ≤ 1 / 100 := by
      have e : Spec.theta Real.sqrt (BeamRK4.steps Real.sqrt n b) B
          = Spec.kappa b B * b.dtau / (BeamRK4.steps Real.sqrt n b).p.M Real.sqrt := by
        simp only [Spec.theta, Spec.kappa, fc, fu, fd]
      rw [e, div_pow, mcsq, div_le_iff₀ hM2pos]
      linarith
    obtain ⟨flo, fhi⟩ := Spec.factor_bounds _ hth
    have hs := BeamRK4.step_RK4_sq_uniform Real.sqrt (BeamRK4.steps Real.sqrt n b) B hB'
    have hS0 : 0 ≤ (BeamRK4.steps Real.sqrt n b).p.X ^ 2
        + (BeamRK4.steps Real.sqrt n b).p.Y ^ 2 := by positivity
    rw [BeamRK4.steps_succ]
    have hp : (BeamRK4.plot_orbit_point
        (BeamRK4.step_RK4 Real.sqrt (BeamRK4.steps Real.sqrt n b))).p
        = (BeamRK4.step_RK4 Real.sqrt (BeamRK4.steps Real.sqrt n b)).p := rfl
    rw [hp, hs]
    constructor
    · rw [pow_succ]
      have h1 : (1 - 1 / 72000000 : ℝ) * ((1 - 1 / 72000000) ^ n * (b.p.X ^ 2 + b.p.Y ^ 2))
          ≤ (1 - 1 / 72000000) * ((BeamRK4.steps Real.sqrt n b).p.X ^ 2
            + (BeamRK4.steps Real.sqrt n b).p.Y ^ 2) :=
        mul_le_mul_of_nonneg_left lo (by norm_num)
      have h2 := mul_le_mul_of_nonneg_right flo hS0
      linarith
    · have h2 := mul_le_mul_of_nonneg_right fhi hS0
      linarith

theorem Spec.within_of_bounds (k S0 Sn : K) (n : Nat) (c : K × K) (x : LorentzVector K)
    (hk : k ≠ 0) (hn : n ≤ 10000) (hd : Spec.dist_sq c x = Sn / k ^ 2)
    (lo : (1 - 1 / 72000000) ^ n * S0 ≤ Sn) (hi : Sn ≤ S0) (h0 : 0 ≤ S0) :
    Spec.within_circle (1 / 1000) c (S0 / k ^ 2) x := by
  have hk2 : 0 < k ^ 2 := by positivity
  have hp := Spec.power_bound (K := K) n hn
  unfold Spec.within_circle
  rw [hd]
  constructor
  · rw [← mul_div_assoc, div_le_div_iff_of_pos_right hk2]
    have := mul_le_mul_of_nonneg_right hp h0
    linarith
  · rw [← mul_div_assoc, div_le_div_iff_of_pos_right hk2]
    nlinarith

theorem runge_kutta.lorentz_force_uniform (magnetic_field : K → K → K) (B : K)
    (hB : ∀ u v, magnetic_field u v = B) (x u : LorentzVector K) :
    runge_kutta.lorentz_force magnetic_field x u
      = ⟨runge_kutta.charge_e K * B * u.Y, - (runge_kutta.charge_e K * B * u.X), 0, 0⟩ := by
  ext <;> simp [runge_kutta.lorentz_force, hB]

theorem runge_kutta.step_next_uniform (magnetic_field : K → K → K) (B : K)
    (hB : ∀ u v, magnetic_field u v = B) (s : runge_kutta.StatePoint K) :
    (runge_kutta.charge_e K * B * (runge_kutta.step_next magnetic_field s).x.X
        + (runge_kutta.step_next magnetic_field s).p.Y
        = runge_kutta.charge_e K * B * s.x.X + s.p.Y
      ∧ runge_kutta.charge_e K * B * (runge_kutta.step_next magnetic_field s).x.Y
        - (runge_kutta.step_next magnetic_field s).p.X
        = runge_kutta.charge_e K * B * s.x.Y - s.p.X)
    ∧ (runge_kutta.step_next magnetic_field s).p.X ^ 2
        + (runge_kutta.step_next magnetic_field s).p.Y ^ 2
      = (1 - (runge_kutta.charge_e K * B * runge_kutta.dtau K / runge_kutta.mass_e K) ^ 6 / 72
          + (runge_kutta.charge_e K * B * runge_kutta.dtau K / runge_kutta.mass_e K) ^ 8 / 576)
        * (s.p.X ^ 2 + s.p.Y ^ 2) := by
  simp only [runge_kutta.step_next, runge_kutta.lorentz_force_uniform magnetic_field B hB,
    LorentzVector.add_X, LorentzVector.add_Y, LorentzVector.div_X, LorentzVector.div_Y,
    LorentzVector.smul_X, LorentzVector.smul_Y, LorentzVector.mul_X, LorentzVector.mul_Y]
  generalize runge_kutta.charge_e K = q
  generalize runge_kutta.dtau K = h
  generalize runge_kutta.mass_e K = m
  refine ⟨⟨?_, ?_⟩, ?_⟩ <;> ring

theorem runge_kutta.steps_uniform (magnetic_field : K → K → K) (B : K)
    (hB : ∀ u v, magnetic_field u v = B) (n : Nat) (s : runge_kutta.StatePoint K) :
    (runge_kutta.charge_e K * B * (runge_kutta.steps magnetic_field n s).x.X
        + (runge_kutta.steps magnetic_field n s).p.Y
        = runge_kutta.charge_e K * B * s.x.X + s.p.Y
      ∧ runge_kutta.charge_e K * B * (runge_kutta.steps magnetic_field n s).x.Y
        - (runge_kutta.steps magnetic_field n s).p.X
        = runge_kutta.charge_e K * B * s.x.Y - s.p.X)
    ∧ (runge_kutta.steps magnetic_field n s).p.X ^ 2
        + (runge_kutta.steps magnetic_field n s).p.Y ^ 2
      = (1 - (runge_kutta.charge_e K * B * runge_kutta.dtau K / runge_kutta.mass_e K) ^ 6 / 72
          + (runge_kutta.charge_e K * B * runge_kutta.dtau K / runge_kutta.mass_e K) ^ 8 / 576)
          ^ n * (s.p.X ^ 2 + s.p.Y ^ 2) := by
  induction n generalizing s with
  | zero => simp [runge_kutta.steps]
  | succ n ih =>
    obtain ⟨⟨i1, i2⟩, i3⟩ := ih (runge_kutta.step_next magnetic_field s)
    obtain ⟨⟨s1, s2⟩, s3⟩ := runge_kutta.step_next_uniform magnetic_field B hB s
    refine ⟨⟨i1.trans s1, i2.trans s2⟩, ?_⟩
    rw [runge_kutta.steps, i3, s3, pow_succ]
    ring

theorem Spec.dist_sq_of_conserved (k : K) (x0 p0 x p : LorentzVector K) (hk : k ≠ 0)
    (c1 : k * x.X + p.Y = k * x0.X + p0.Y) (c2 : k * x.Y - p.X = k * x0.Y - p0.X) :
    Spec.dist_sq (Spec.centre k x0 p0) x = (p.X ^ 2 + p.Y ^ 2) / k ^ 2 := by
  have e1 : x.X - (x0.X + p0.Y / k) = - p.Y / k := by
    field_simp
    linear_combination c1
  have e2 : x.Y - (x0.Y - p0.X / k) = p.X / k := by
    field_simp
    linear_combination c2
  simp only [Spec.dist_sq, Spec.centre, e1, e2]
  field_simp
  ring

/-- C14, as amended: over the reals, in a field of the same nonzero value
everywhere, for a beam of positive `M2()` with
`|charge * B * magnetic_field_unit * dtau| <= M / 10` (so `|theta| <= 1/10` in every
step), every position reached by at most 10000 executions of `step_RK4` lies on
the circle of radius `R = |p| / |charge * B * magnetic_field_unit|` through the
initial position and tangent to the initial momentum, to within the relative
tolerance `1e-3`. The same holds for `step_next` of `runge_kutta.C` when
`(charge_e * B * dtau / mass_e)^2 <= 1/100`. -/
theorem C14_orbit_near_circle (b : BeamRK4 ℝ R) (B : ℝ) (n : Nat)
    (magnetic_field : ℝ → ℝ → ℝ) (s : runge_kutta.StatePoint ℝ) (B' : ℝ)
    (hB : ∀ u v, b.magnetic_field.Interpolate u v = B) (hk : Spec.kappa b B ≠ 0)
    (hM : 0 < b.p.M2) (hθ : |Spec.kappa b B * b.dtau| ≤ b.p.M Real.sqrt / 10)
    (hn : n ≤ 10000)
    (hB' : ∀ u v, magnetic_field u v = B') (hk' : B' ≠ 0)
    (hθ' : (runge_kutta.charge_e ℝ * B' * runge_kutta.dtau ℝ / runge_kutta.mass_e ℝ) ^ 2
      ≤ 1 / 100) :
    (Spec.within_circle (1 / 1000) (Spec.centre (Spec.kappa b B) b.x b.p)
        (Spec.radius_sq (Spec.kappa b B) b.p) (BeamRK4.steps Real.sqrt n b).x
      ∧ Spec.dist_sq (Spec.centre (Spec.kappa b B) b.x b.p) b.x
          = Spec.radius_sq (Spec.kappa b B) b.p
      ∧ (b.x.X - (Spec.centre (Spec.kappa b B) b.x b.p).1) * b.p.X
          + (b.x.Y - (Spec.centre (Spec.kappa b B) b.x b.p).2) * b.p.Y = 0)
    ∧ Spec.within_circle (1 / 1000) (Spec.centre (runge_kutta.charge_e ℝ * B') s.x s.p)
        (Spec.radius_sq (runge_kutta.charge_e ℝ * B') s.p)
        (runge_kutta.steps magnetic_field n s).x := by
  refine ⟨⟨?_, ?_, ?_⟩, ?_⟩
  · obtain ⟨lo, hi⟩ := BeamRK4.steps_shrink n b B hB hM hθ
    exact Spec.within_of_bounds (Spec.kappa b B) _ _ n _ _ hk hn
      (BeamRK4.steps_dist_sq Real.sqrt n b B hB hk) lo hi (by positivity)
  · exact BeamRK4.steps_dist_sq Real.sqrt 0 b B hB hk
  · simp only [Spec.centre]
    field_simp
    ring
  · have hq : runge_kutta.charge_e ℝ * B' ≠ 0 :=
      mul_ne_zero (by norm_num [runge_kutta.charge_e]) hk'
    obtain ⟨⟨c1, c2⟩, c3⟩ := runge_kutta.steps_uniform magnetic_field B' hB' n s
    obtain ⟨flo, fhi⟩ := Spec.factor_bounds _ hθ'
    have hf0 : (0 : ℝ) ≤ 1 - (runge_kutta.charge_e ℝ * B' * runge_kutta.dtau ℝ
        / runge_kutta.mass_e ℝ) ^ 6 / 72 + (runge_kutta.charge_e ℝ * B' * runge_kutta.dtau ℝ
        / runge_kutta.mass_e ℝ) ^ 8 / 576 := le_trans (by norm_num) flo
    have hS : (0 : ℝ) ≤ s.p.X ^ 2 + s.p.Y ^ 2 := by positivity
    refine Spec.within_of_bounds (runge_kutta.charge_e ℝ * B') _ _ n _ _ hq hn
      (Spec.dist_sq_of_conserved _ _ _ _ _ hq c1 c2) ?_ ?_ hS
    · rw [c3]
      exact mul_le_mul_of_nonneg_right (pow_le_pow_left₀ (by norm_num) flo n) hS
    · rw [c3]
      have : (1 - (runge_kutta.charge_e ℝ * B' * runge_kutta.dtau ℝ
          / runge_kutta.mass_e ℝ) ^ 6 / 72 + (runge_kutta.charge_e ℝ * B' * runge_kutta.dtau ℝ
          / runge_kutta.mass_e ℝ) ^ 8 / 576) ^ n ≤ 1 := pow_le_one₀ hf0 fhi
      nlinarith

/-- C14 as stated fails: the beam with momentum `(3, 0, 0)`, mass 4 and
charge 1 in the uniform field `40000 / 3` with the step `dtau = 0.0003` of the
spectrometer programs has `theta = 1`; after one step its squared distance from
the centre of the circle is `569/576` of the squared radius, more than the
relative tolerance `1e-3` inside the circle. -/
theorem C14_strong_field_leaves_circle :
    (∀ u v, (Examples.beam ℝ (DrainRectangle ℝ) (40000 / 3) (3 / 10000)
        100).magnetic_field.Interpolate u v = 40000 / 3)
    ∧ Spec.dist_sq
        (Spec.centre (Spec.kappa (Examples.beam ℝ (DrainRectangle ℝ) (40000 / 3) (3 / 10000) 100)
            (40000 / 3))
          (Examples.beam ℝ (DrainRectangle ℝ) (40000 / 3) (3 / 10000) 100).x
          (Examples.beam ℝ (DrainRectangle ℝ) (40000 / 3) (3 / 10000) 100).p)
        (BeamRK4.steps Real.sqrt 1
          (Examples.beam ℝ (DrainRectangle ℝ) (40000 / 3) (3 / 10000) 100)).x
      = 569 / 576 * Spec.radius_sq
          (Spec.kappa (Examples.beam ℝ (DrainRectangle ℝ) (40000 / 3) (3 / 10000) 100)
            (40000 / 3))
          (Examples.beam ℝ (DrainRectangle ℝ) (40000 / 3) (3 / 10000) 100).p
    ∧ ¬ Spec.within_circle (1 / 1000)
        (Spec.centre (Spec.kappa (Examples.beam ℝ (DrainRectangle ℝ) (40000 / 3) (3 / 10000) 100)
            (40000 / 3))
          (Examples.beam ℝ (DrainRectangle ℝ) (40000 / 3) (3 / 10000) 100).x
          (Examples.beam ℝ (DrainRectangle ℝ) (40000 / 3) (3 / 10000) 100).p)
        (Spec.radius_sq
          (Spec.kappa (Examples.beam ℝ (DrainRectangle ℝ) (40000 / 3) (3 / 10000) 100)
            (40000 / 3))
          (Examples.beam ℝ (DrainRectangle ℝ) (40000 / 3) (3 / 10000) 100).p)
        (BeamRK4.steps Real.sqrt 1
          (Examples.beam ℝ (DrainRectangle ℝ) (40000 / 3) (3 / 10000) 100)).x := by
  have hk : Spec.kappa (Examples.beam ℝ (DrainRectangle ℝ) (40000 / 3) (3 / 10000) 100)
      (40000 / 3) = 40000 / 3 := by
    norm_num [Spec.kappa, Examples.beam]
  have ht : Spec.theta Real.sqrt
      (Examples.beam ℝ (DrainRectangle ℝ) (40000 / 3) (3 / 10000) 100) (40000 / 3) = 1 := by
    unfold Spec.theta
    rw [Examples.beam_M]
    norm_num [Examples.beam]
  have hs := BeamRK4.step_RK4_sq_uniform Real.sqrt
    (Examples.beam ℝ (DrainRectangle ℝ) (40000 / 3) (3 / 10000) 100) (40000 / 3)
    (fun _ _ => rfl)
  rw [ht] at hs
  have hd := BeamRK4.steps_dist_sq Real.sqrt 1
    (Examples.beam ℝ (DrainRectangle ℝ) (40000 / 3) (3 / 10000) 100) (40000 / 3)
    (fun _ _ => rfl) (by rw [hk]; norm_num)
  have hp : (BeamRK4.steps Real.sqrt 1
      (Examples.beam ℝ (DrainRectangle ℝ) (40000 / 3) (3 / 10000) 100)).p
      = (BeamRK4.step_RK4 Real.sqrt
          (Examples.beam ℝ (DrainRectangle ℝ) (40000 / 3) (3 / 10000) 100)).p := rfl
  have hval : Spec.dist_sq
      (Spec.centre (Spec.kappa (Examples.beam ℝ (DrainRectangle ℝ) (40000 / 3) (3 / 10000) 100)
          (40000 / 3))
        (Examples.beam ℝ (DrainRectangle ℝ) (40000 / 3) (3 / 10000) 100).x
        (Examples.beam ℝ (DrainRectangle ℝ) (40000 / 3) (3 / 10000) 100).p)
      (BeamRK4.steps Real.sqrt 1
        (Examples.beam ℝ (DrainRectangle ℝ) (40000 / 3) (3 / 10000) 100)).x
      = 569 / 576 * Spec.radius_sq
        (Spec.kappa (Examples.beam ℝ (DrainRectangle ℝ) (40000 / 3) (3 / 10000) 100)
          (40000 / 3))
        (Examples.beam ℝ (DrainRectangle ℝ) (40000 / 3) (3 / 10000) 100).p := by
    rw [hd]
    simp only [Spec.radius_sq, hp, hs]
    ring
  refine ⟨fun _ _ => rfl, hval, ?_⟩
  unfold Spec.within_circle
  rw [hval]
  have hR : Spec.radius_sq
      (Spec.kappa (Examples.beam ℝ (DrainRectangle ℝ) (40000 / 3) (3 / 10000) 100)
        (40000 / 3))
      (Examples.beam ℝ (DrainRectangle ℝ) (40000 / 3) (3 / 10000) 100).p
      = 81 / 1600000000 := by
    rw [hk]
    norm_num [Spec.radius_sq, Examples.beam]
  rw [hR]
  norm_num

/-- C14, as amended, at concrete states: 1000 steps of the beam `beam` with
`dtau = 0.1` in the uniform field 1 (`theta = 1/40`), and 800 steps of
`step_next` from the initial state of `runge_kutta` in the uniform field `b`,
stay on their circles to within `1e-3`. -/
theorem C14_orbit_near_circle_witness :
    Spec.within_circle (1 / 1000)
        (Spec.centre (Spec.kappa (Examples.beam ℝ (DrainRectangle ℝ) 1 (1 / 10) 100) 1)
          (Examples.beam ℝ (DrainRectangle ℝ) 1 (1 / 10) 100).x
          (Examples.beam ℝ (DrainRectangle ℝ) 1 (1 / 10) 100).p)
        (Spec.radius_sq (Spec.kappa (Examples.beam ℝ (DrainRectangle ℝ) 1 (1 / 10) 100) 1)
          (Examples.beam ℝ (DrainRectangle ℝ) 1 (1 / 10) 100).p)
        (BeamRK4.steps Real.sqrt 1000 (Examples.beam ℝ (DrainRectangle ℝ) 1 (1 / 10) 100)).x
    ∧ Spec.within_circle (1 / 1000)
        (Spec.centre (runge_kutta.charge_e ℝ * runge_kutta.b ℝ) ⟨-2, 0, 0, 0⟩
          ⟨runge_kutta.momentum ℝ, 0, 0, Real.sqrt (runge_kutta.mass_e ℝ * runge_kutta.mass_e ℝ
            + runge_kutta.momentum ℝ * runge_kutta.momentum ℝ)⟩)
        (Spec.radius_sq (runge_kutta.charge_e ℝ * runge_kutta.b ℝ)
          ⟨runge_kutta.momentum ℝ, 0, 0, Real.sqrt (runge_kutta.mass_e ℝ * runge_kutta.mass_e ℝ
            + runge_kutta.momentum ℝ * runge_kutta.momentum ℝ)⟩)
        (runge_kutta.steps (fun _ _ => runge_kutta.b ℝ) 800
          ⟨⟨-2, 0, 0, 0⟩, ⟨runge_kutta.momentum ℝ, 0, 0, Real.sqrt (runge_kutta.mass_e ℝ * runge_kutta.mass_e ℝ
            + runge_kutta.momentum ℝ * runge_kutta.momentum ℝ)⟩⟩).x := by
  have h := C14_orbit_near_circle (Examples.beam ℝ (DrainRectangle ℝ) 1 (1 / 10) 100) 1 800
    (fun _ _ => runge_kutta.b ℝ) ⟨⟨-2, 0, 0, 0⟩, ⟨runge_kutta.momentum ℝ, 0, 0, Real.sqrt (runge_kutta.mass_e ℝ * runge_kutta.mass_e ℝ
            + runge_kutta.momentum ℝ * runge_kutta.momentum ℝ)⟩⟩
    (runge_kutta.b ℝ) (fun _ _ => rfl) (by norm_num [Spec.kappa, Examples.beam])
    (by norm_num [LorentzVector.M2, Examples.beam])
    (by
      rw [Examples.beam_M]
      norm_num [Spec.kappa, Examples.beam, abs_le])
    (by norm_num) (fun _ _ => rfl)
    (by norm_num [runge_kutta.b, runge_kutta.unit.m, runge_kutta.Tesla, runge_kutta.c])
    (by norm_num [runge_kutta.b, runge_kutta.unit.m, runge_kutta.Tesla, runge_kutta.c,
      runge_kutta.charge_e, runge_kutta.dtau, runge_kutta.unit.n, runge_kutta.second,
      runge_kutta.mass_e, runge_kutta.unit.k])
  have h' := C14_orbit_near_circle (Examples.beam ℝ (DrainRectangle ℝ) 1 (1 / 10) 100) 1 1000
    (fun _ _ => runge_kutta.b ℝ) ⟨⟨-2, 0, 0, 0⟩, ⟨runge_kutta.momentum ℝ, 0, 0, Real.sqrt (runge_kutta.mass_e ℝ * runge_kutta.mass_e ℝ
            + runge_kutta.momentum ℝ * runge_kutta.momentum ℝ)⟩⟩
    (runge_kutta.b ℝ) (fun _ _ => rfl) (by norm_num [Spec.kappa, Examples.beam])
    (by norm_num [LorentzVector.M2, Examples.beam])
    (by
      rw [Examples.beam_M]
      norm_num [Spec.kappa, Examples.beam, abs_le])
    (by norm_num) (fun _ _ => rfl)
    (by norm_num [runge_kutta.b, runge_kutta.unit.m, runge_kutta.Tesla, runge_kutta.c])
    (by norm_num [runge_kutta.b, runge_kutta.unit.m, runge_kutta.Tesla, runge_kutta.c,
      runge_kutta.charge_e, runge_kutta.dtau, runge_kutta.unit.n, runge_kutta.second,
      runge_kutta.mass_e, runge_kutta.unit.k])
  exact ⟨h'.1.1, h.2⟩

end Circle

/-! ## The step index at the time-limit test -/

section StepIndex

variable {K : Type} [LinearOrderedField K]

/-- C8, as amended: in exact arithmetic, in the run of a beam constructed with
`tau_index = 0`, at the termination check that follows `k` steps,
`k + 1 <= 2147483647`, the index `tau_index` is `k + 1`, the number of orbit
points recorded so far, and the time-limit test holds exactly when
`(k + 1) * dtau` exceeds `tau_final`; hence a run that takes more than `k`
steps has `(k + 1) * dtau <= tau_final`. -/
theorem C8_time_limit_counts_orbit_points (sqrt : K → K) (b : BeamRK4 K (DrainRectangle K))
    (k : Nat) (h0 : b.tau_index = 0) (hk : (k : Int) + 1 ≤ 2147483647) :
    (BeamRK4.steps sqrt k (BeamRK4.plot_orbit_point b)).tau_index = (k : Int) + 1
    ∧ ((BeamRK4.steps sqrt k (BeamRK4.plot_orbit_point b)).time_limit
        ↔ ((k : K) + 1) * b.dtau > b.tau_final)
    ∧ (∀ fuel n b', BeamRK4.run sqrt fuel b = some (n, b') → k < n →
        ((k : K) + 1) * b.dtau ≤ b.tau_final) := by
  have h1 : (BeamRK4.plot_orbit_point b).tau_index = 1 := by
    show wrap32 (b.tau_index + 1) = 1
    rw [h0]
    rfl
  have hi := BeamRK4.steps_tau_index sqrt k (BeamRK4.plot_orbit_point b)
    (by rw [h1]; norm_num) (by rw [h1]; omega)
  have ht := BeamRK4.time_limit_after sqrt k b h0 hk
  refine ⟨by rw [hi, h1]; ring, ht, ?_⟩
  intro fuel n b' hrun hlt
  obtain ⟨-, -, hfalse⟩ := BeamRK4.run_loop_some sqrt fuel (BeamRK4.plot_orbit_point b) n b' hrun
  have hf := hfalse k hlt
  by_contra hc
  have hgt : b.tau_final < ((k : K) + 1) * b.dtau := not_le.mp hc
  have htl := ht.mpr hgt
  rw [BeamRK4.is_anihilated_time _ htl] at hf
  exact Bool.noConfusion hf

/-- C8, as amended, at the run of `beam` in a vanishing field with
`dtau = 0.001` and `tau_final = 0.0035`: at the check that follows 3 steps the
index is 4 and the time-limit test holds, `4 * dtau` exceeding `tau_final`, and
the third step was taken with `3 * dtau <= tau_final`. -/
theorem C8_time_limit_counts_orbit_points_witness :
    (BeamRK4.steps Real.sqrt 3
        (BeamRK4.plot_orbit_point
          (Examples.beam ℝ (DrainRectangle ℝ) 0 (1 / 1000) (7 / 2000)))).tau_index = 4
    ∧ (BeamRK4.steps Real.sqrt 3
        (BeamRK4.plot_orbit_point
          (Examples.beam ℝ (DrainRectangle ℝ) 0 (1 / 1000) (7 / 2000)))).time_limit
    ∧ (((2 : Nat) : ℝ) + 1) * (Examples.beam ℝ (DrainRectangle ℝ) 0 (1 / 1000) (7 / 2000)).dtau
        ≤ (Examples.beam ℝ (DrainRectangle ℝ) 0 (1 / 1000) (7 / 2000)).tau_final :=
  ⟨(C8_time_limit_counts_orbit_points Real.sqrt
      (Examples.beam ℝ (DrainRectangle ℝ) 0 (1 / 1000) (7 / 2000)) 3 rfl (by norm_num)).1,
    (C8_time_limit_counts_orbit_points Real.sqrt
      (Examples.beam ℝ (DrainRectangle ℝ) 0 (1 / 1000) (7 / 2000)) 3 rfl (by norm_num)).2.1.mpr
      (by norm_num [Examples.beam]),
    (C8_time_limit_counts_orbit_points Real.sqrt
      (Examples.beam ℝ (DrainRectangle ℝ) 0 (1 / 1000) (7 / 2000)) 2 rfl (by norm_num)).2.2
      4 3 _ Examples.run_three_steps (by norm_num)⟩

end StepIndex

/-! ## The rounding functions -/

section Rounding

theorem Double.exponent_bits_spec (k : ℕ) (q : ℚ) (e : ℤ)
    (h1 : (2 : ℚ) ^ e ≤ q) (h2 : q < (2 : ℚ) ^ (e + 2 ^ k)) :
    (2 : ℚ) ^ Double.exponent_bits k q e ≤ q
    ∧ q < (2 : ℚ) ^ (Double.exponent_bits k q e + 1) := by
  induction k generalizing e with
  | zero =>
    refine ⟨h1, ?_⟩
    simpa [Double.exponent_bits] using h2
  | succ k ih =>
    rw [Double.exponent_bits]
    by_cases hc : (2 : ℚ) ^ (e + 2 ^ k) ≤ q
    · rw [if_pos hc]
      refine ih (e + 2 ^ k) hc ?_
      have e2 : e + 2 ^ k + 2 ^ k = e + 2 ^ (k + 1) := by ring
      rw [e2]
      exact h2
    · rw [if_neg hc]
      exact ih e h1 (not_le.mp hc)

/-- The value `exponent q` is the binary exponent of `q`:
`2 ^ exponent q <= |q| < 2 ^ (exponent q + 1)`, for `|q|` from `2 ^ (-2048)`
up to `2 ^ 2048`. -/
theorem Double.exponent_spec (q : ℚ) (h1 : (2 : ℚ) ^ (-2048 : ℤ) ≤ |q|)
    (h2 : |q| < (2 : ℚ) ^ (2048 : ℤ)) :
    (2 : ℚ) ^ Double.exponent q ≤ |q| ∧ |q| < (2 : ℚ) ^ (Double.exponent q + 1) :=
  Double.exponent_bits_spec 12 |q| (-2048) h1 (by
    have e : ((-2048 : ℤ) + 2 ^ 12) = 2048 := by norm_num
    rw [e]
    exact h2)

theorem Double.isqrt_bits_spec (k n r : ℕ) (h1 : r * r ≤ n) (h2 : n < (r + 2 ^ k) * (r + 2 ^ k)) :
    Double.isqrt_bits k n r * Double.isqrt_bits k n r ≤ n
    ∧ n < (Double.isqrt_bits k n r + 1) * (Double.isqrt_bits k n r + 1) := by
  induction k generalizing r with
  | zero => exact ⟨h1, by simpa [Double.isqrt_bits] using h2⟩
  | succ k ih =>
    rw [Double.isqrt_bits]
    by_cases hc : (r + 2 ^ k) * (r + 2 ^ k) ≤ n
    · rw [if_pos hc]
      refine ih (r + 2 ^ k) hc ?_
      have e2 : r + 2 ^ k + 2 ^ k = r + 2 ^ (k + 1) := by ring
      rw [e2]
      exact h2
    · rw [if_neg hc]
      exact ih r h1 (not_le.mp hc)

/-- The value `isqrt n` is the integer part of the square root of `n`, for
`n < 2 ^ 132`. -/
theorem Double.isqrt_spec (n : ℕ) (h : n < 2 ^ 132) :
    Double.isqrt n * Double.isqrt n ≤ n ∧ n < (Double.isqrt n + 1) * (Double.isqrt n + 1) :=
  Double.isqrt_bits_spec 66 n 0 (Nat.zero_le n) (by
    have e : (0 + 2 ^ 66) * (0 + 2 ^ 66) = 2 ^ 132 := by norm_num
    rw [e]
    exact h)

/-- The integer `round_even m` is at most one half away from `m`. -/
theorem Double.round_even_spec (m : ℚ) : |m - (Double.round_even m : ℚ)| ≤ 1 / 2 := by
  have hf := Int.floor_le m
  have hl := Int.lt_floor_add_one m
  unfold Double.round_even
  rw [abs_le]
  split_ifs with c1 c2 c3 <;> push_cast <;> constructor <;> linarith

/-- The number `nearest q` is a multiple of the spacing `2 ^ ulp_exponent q`
of the binary64 numbers around `q`, at most half the spacing away from `q`. -/
theorem Double.nearest_spec (q : ℚ) :
    (∃ n : ℤ, Double.nearest q = n * 2 ^ Double.ulp_exponent q)
    ∧ |q - Double.nearest q| ≤ 2 ^ Double.ulp_exponent q / 2 := by
  refine ⟨⟨_, rfl⟩, ?_⟩
  have hp : (0 : ℚ) < 2 ^ Double.ulp_exponent q := zpow_pos (by norm_num) _
  have h := Double.round_even_spec (q / 2 ^ Double.ulp_exponent q)
  have e : q - Double.nearest q
      = (q / 2 ^ Double.ulp_exponent q
          - (Double.round_even (q / 2 ^ Double.ulp_exponent q) : ℚ))
        * 2 ^ Double.ulp_exponent q := by
    unfold Double.nearest
    field_simp
    ring
  rw [e, abs_mul, abs_of_pos hp]
  calc |q / 2 ^ Double.ulp_exponent q
          - (Double.round_even (q / 2 ^ Double.ulp_exponent q) : ℚ)| * 2 ^ Double.ulp_exponent q
      ≤ 1 / 2 * 2 ^ Double.ulp_exponent q := mul_le_mul_of_nonneg_right h (le_of_lt hp)
    _ = 2 ^ Double.ulp_exponent q / 2 := by ring

end Rounding

/-! ## The code evaluated with doubles -/

section Rounded

/-- C5 as stated fails: a beam at `X = -9.995`, `Y = 0` in the box
`[-10, 10] × [-10, 10]` with `length_unit = 1`, before the time limit and without
absorbers. The `double` nearest to -9.995 lies more than `edge_margin` (the
`double` nearest to 0.005, which is above 0.005) inside the side `X = -10`, and
the position is more than `edge_margin` inside the other three sides; the
difference `x.X() - edge_margin` rounds to -10, the boundary test holds and
`is_anihilated` returns true. -/
theorem C5_rounding_reports_inner_position :
    Examples.near_edge.x.X = Double.fin (-5626684784446013 / 562949953421312)
    ∧ Examples.near_edge.x.Y = Double.fin 0
    ∧ Double.edge_margin = Double.fin (5764607523034235 / 1152921504606846976)
    ∧ Examples.near_edge.magnetic_field.Xmin = Double.fin (-10)
    ∧ Examples.near_edge.magnetic_field.Xmax = Double.fin 10
    ∧ Examples.near_edge.magnetic_field.Ymin = Double.fin (-10)
    ∧ Examples.near_edge.magnetic_field.Ymax = Double.fin 10
    ∧ Examples.near_edge.length_unit = Double.fin 1
    ∧ ((-10 : ℚ) * 1 + 5764607523034235 / 1152921504606846976
          < -5626684784446013 / 562949953421312
      ∧ (-5626684784446013 / 562949953421312 : ℚ)
          < 10 * 1 - 5764607523034235 / 1152921504606846976
      ∧ (-10 : ℚ) * 1 + 5764607523034235 / 1152921504606846976 < 0
      ∧ (0 : ℚ) < 10 * 1 - 5764607523034235 / 1152921504606846976)
    ∧ Double.time_limit Examples.near_edge = false
    ∧ Examples.near_edge.drain_rectangles.length = 0
    ∧ Double.sub Examples.near_edge.x.X Double.edge_margin = Double.fin (-10)
    ∧ Double.outside Examples.near_edge = true
    ∧ (Double.is_anihilated Examples.near_edge).1 = true := by
  decide!

/-- C15 as stated fails: the beam that the constructor builds from the
momentum `(3, 4, 0)` with mass 0 has the momentum `(3, 4, 0)` with energy 5,
`z = 0`, `p_z = 0` and `p.M() = 0`; `step_RK4` divides by `p.M()`, and after
the step `z` and `p_z` are NaN. -/
theorem C15_massless_step_leaves_plane :
    Examples.massless.p.X = Double.fin 3
    ∧ Examples.massless.p.Y = Double.fin 4
    ∧ Examples.massless.p.T = Double.fin 5
    ∧ Examples.massless.x.Z = Double.fin 0
    ∧ Examples.massless.p.Z = Double.fin 0
    ∧ Double.M Examples.massless.p = Double.fin 0
    ∧ (Double.step_RK4 Examples.massless).x.Z = Double.nan
    ∧ (Double.step_RK4 Examples.massless).p.Z = Double.nan := by
  decide!

/-- C17 as stated fails: the beam that the constructor builds from the
momentum `(3, 4, 0)` with mass 0 has the energy 5 and `p.M() = 0`; the `E`
component of the increment returned by `get_dp` is `0 * (1 / 0)`, a NaN, and
after `step_RK4` the energy `p.E()` is NaN. -/
theorem C17_massless_step_loses_energy :
    Examples.massless.p.T = Double.fin 5
    ∧ Double.M Examples.massless.p = Double.fin 0
    ∧ (Double.get_dp Examples.massless Examples.massless.x Examples.massless.p).T = Double.nan
    ∧ (Double.step_RK4 Examples.massless).p.T = Double.nan := by
  decide!

/-- C18 as stated fails: the beam constructed with the momentum `(3, 0, 0)`
and mass 4 (energy 5, `p.M() = 4`) in the uniform field 1 with charge 1, unit
factors 1 and `dtau = 2 ^ (-60)` has `theta = 2 ^ (-62)`, so `0 < theta^2 < 8`.
After `step_RK4` the momentum is `(3, -3 * 2 ^ (-62), 0)`: the change of `p_x`
is lost in the rounding of the sum, and `p_x^2 + p_y^2` is greater than
before the step. -/
theorem C18_rounded_step_raises_magnitude :
    Examples.short_step.p.X = Double.fin 3
    ∧ Examples.short_step.p.Y = Double.fin 0
    ∧ Examples.short_step.p.T = Double.fin 5
    ∧ Double.M Examples.short_step.p = Double.fin 4
    ∧ (0 < ((1 : ℚ) * 1 * 1 * (1 / 2 ^ 60) / 4) ^ 2 ∧ ((1 : ℚ) * 1 * 1 * (1 / 2 ^ 60) / 4) ^ 2 < 8)
    ∧ (Double.step_RK4 Examples.short_step).p.X = Double.fin 3
    ∧ (Double.step_RK4 Examples.short_step).p.Y = Double.fin (-3 / 2 ^ 62)
    ∧ (3 : ℚ) ^ 2 + 0 ^ 2 < 3 ^ 2 + (-3 / 2 ^ 62) ^ 2 := by
  decide!

end Rounded
